import Mathlib

/-!
# DVM: a shallow embedding of `dvm/dvm.go`

The file embeds the line parser, the expression evaluator and the interpreter
loop of the DERO virtual machine (`src/dvm/dvm.go`) and proves properties of
them.

Conventions of the embedding

* Go `string` is Lean `String` (valid UTF-8 text); `[]string` is `List String`
  and the nil slice is `[]`.
* Go `map[string]T` is an association list `List (String × T)` read by first
  match; a map that may be nil (`LabelMap`, `DERO_Transfer`) is an `Option`
  of one, and writing to the nil map is a runtime panic.
* `uint64` is a `Nat` below `2 ^ 64`, every operation is reduced `% 2 ^ 64`;
  `int64` counters are `Int` wrapped by `wrapInt64`.
* `interface{}` values are `Value` (`nil`, a `uint64` or a `string`).
* A Go `error` is `Option String` (`none` is `nil`); a Go `panic` is the
  `Res.panic` outcome, which carries the shared state as it was left.
* Loops and re-entrant calls take a fuel argument; `Res.timeout` is the
  outcome of an exhausted fuel and stands for no Go behaviour.
* Library code that is not part of the repository (`go/parser`,
  `strconv.Unquote`, the Unicode tables above Latin-1) and the host
  functions that are not among the sources are fields of `Host`.
-/

namespace Dvm

/-! ## Data model -/

/-- The `Vtype` enumeration (`Invalid` is the zero value). -/
inductive Vtype
  | Invalid
  | Uint64
  | String
  | Blob
  | Address
  deriving DecidableEq, Repr, Inhabited

/-- A dynamically typed Go value (`interface{}`) as the evaluator produces it. -/
inductive Value
  | nil
  | u64 (n : Nat)
  | str (s : String)
  deriving DecidableEq, Repr, Inhabited

/-- The struct `Variable` (the field `Type` is written `Type_`). -/
structure Variable where
  Name : String := ""
  Type_ : Vtype := Vtype.Invalid
  Value : Value := Value.nil
  deriving DecidableEq, Repr, Inhabited

/-- The struct `Line`. -/
structure Line where
  Label : String := ""
  Code : String := ""
  deriving DecidableEq, Repr, Inhabited

/-- The struct `Function`; `Lines = []` is the nil slice and
`LabelMap = none` the nil map, which is what `var f Function` gives. -/
structure Function where
  Name : String := ""
  Params : List Variable := []
  ReturnValue : Variable := {}
  Lines : List Line := []
  LabelMap : Option (List (String × Int)) := none
  deriving DecidableEq, Repr, Inhabited

def LIMIT_interpreted_lines : Int := 2000

def LIMIT_evals : Int := 11000

/-- The constant `math.MaxUint64`. -/
def MaxUint64 : Nat := 2 ^ 64 - 1

/-- The struct `SmartContract`: the map from function name to `Function`. -/
structure SmartContract where
  Functions : List (String × Function) := []
  deriving DecidableEq, Repr, Inhabited

/-- Reading a Go map: the value of the first entry with the key. -/
def mapGet {β : Type} : List (String × β) → String → Option β
  | [], _ => none
  | (k, v) :: rest, key => if k = key then some v else mapGet rest key

/-- Writing a Go map: the entry of the key is replaced, or added. -/
def mapSet {β : Type} : List (String × β) → String → β → List (String × β)
  | [], key, v => [(key, v)]
  | (k, w) :: rest, key, v =>
    if k = key then (k, v) :: rest else (k, w) :: mapSet rest key v

/-- Two's complement wrap of an `int64` result. -/
def wrapInt64 (x : Int) : Int := (x + 2 ^ 63) % 2 ^ 64 - 2 ^ 63

/-! ## Library functions used by the source -/

/-- The function `strings.HasPrefix`, on characters. -/
def hasPrefixChars : List Char → List Char → Bool
  | _, [] => true
  | [], _ :: _ => false
  | c :: cs, p :: ps => c == p && hasPrefixChars cs ps

def HasPrefix (s pre : String) : Bool := hasPrefixChars s.data pre.data

/-- The key under which `strings.EqualFold` compares a rune with an ASCII
letter: ASCII upper case goes to lower case, and the two runes outside ASCII
that fold to an ASCII letter (the Kelvin sign and the long s) go to it. -/
def foldKey (c : Char) : Nat :=
  if 65 ≤ c.toNat ∧ c.toNat ≤ 90 then c.toNat + 32
  else if c.toNat = 0x212A then 107
  else if c.toNat = 0x17F then 115
  else c.toNat

/-- The function `strings.EqualFold`; exact whenever one argument is ASCII,
which is the case at every call of the source. -/
def EqualFold (s t : String) : Bool := s.data.map foldKey == t.data.map foldKey

/-- The function `unicode.IsSpace`. -/
def IsSpace (c : Char) : Bool :=
  let r := c.toNat
  r == 9 || r == 10 || r == 11 || r == 12 || r == 13 || r == 32 || r == 0x85 || r == 0xA0
    || r == 0x1680 || (0x2000 ≤ r && r ≤ 0x200A) || r == 0x2028 || r == 0x2029
    || r == 0x202F || r == 0x205F || r == 0x3000

/-- Worker of `strings.Fields`: `cur` is the field being read, reversed. -/
def fieldsAux : List Char → List Char → List String
  | [], cur => if cur.isEmpty then [] else [String.mk cur.reverse]
  | c :: cs, cur =>
    if IsSpace c then
      (if cur.isEmpty then fieldsAux cs [] else String.mk cur.reverse :: fieldsAux cs [])
    else fieldsAux cs (c :: cur)

/-- The function `strings.Fields`. -/
def Fields (s : String) : List String := fieldsAux s.data []

/-- The function `strings.Join`. -/
def Join : List String → String → String
  | [], _ => ""
  | [a], _ => a
  | a :: b :: rest, sep => a ++ sep ++ Join (b :: rest) sep

/-- The function `strings.Contains` for a one-character pattern. -/
def ContainsChar (s : String) (c : Char) : Bool := s.data.contains c

/-- The call `strings.TrimSuffix(s, ":")`. -/
def TrimSuffixColon (s : String) : String :=
  match s.data.reverse with
  | ':' :: r => String.mk r.reverse
  | _ => s

/-- The replacer of the source, on characters: the text is read from the left
and each of the nine three-character spellings is replaced by its operator. -/
def replaceChars : List Char → List Char
  | [] => []
  | [a] => [a]
  | [a, b] => [a, b]
  | a :: ' ' :: c :: rest =>
    if a = '<' ∧ c = '=' then '<' :: '=' :: replaceChars rest
    else if a = '>' ∧ c = '=' then '>' :: '=' :: replaceChars rest
    else if a = '=' ∧ c = '=' then '=' :: '=' :: replaceChars rest
    else if a = '!' ∧ c = '=' then '!' :: '=' :: replaceChars rest
    else if a = '&' ∧ c = '&' then '&' :: '&' :: replaceChars rest
    else if a = '|' ∧ c = '|' then '|' :: '|' :: replaceChars rest
    else if a = '<' ∧ c = '<' then '<' :: '<' :: replaceChars rest
    else if a = '>' ∧ c = '>' then '>' :: '>' :: replaceChars rest
    else if a = '<' ∧ c = '>' then '!' :: '=' :: replaceChars rest
    else a :: replaceChars (' ' :: c :: rest)
  | a :: b :: c :: rest => a :: replaceChars (b :: c :: rest)

/-- The call `replacer.Replace`. -/
def replacer (s : String) : String := String.mk (replaceChars s.data)

/-- The byte operation `lower` of `strconv`: `c | ('x' - 'X')`. -/
def lowerByte (c : Nat) : Nat := c ||| 32

/-- The digit value of a character in `strconv.ParseUint`, if it has one. -/
def digitVal (c : Char) : Option Nat :=
  let b := c.toNat
  if 48 ≤ b ∧ b ≤ 57 then some (b - 48)
  else if b < 128 ∧ 97 ≤ lowerByte b ∧ lowerByte b ≤ 122 then some (lowerByte b - 97 + 10)
  else none

/-- The digit loop of `strconv.ParseUint` for 64 bits: the value and whether
an underscore was seen, or the error with the value returned beside it. -/
def parseDigits (base : Nat) (base0 : Bool) :
    List Char → Nat → Bool → Except (Nat × String) (Nat × Bool)
  | [], n, us => Except.ok (n, us)
  | c :: cs, n, us =>
    if c = '_' ∧ base0 = true then parseDigits base base0 cs n true
    else
      match digitVal c with
      | none => Except.error (0, "invalid syntax")
      | some d =>
        if d ≥ base then Except.error (0, "invalid syntax")
        else if n ≥ MaxUint64 / base + 1 then Except.error (MaxUint64, "value out of range")
        else if n * base + d > MaxUint64 then Except.error (MaxUint64, "value out of range")
        else parseDigits base base0 cs (n * base + d) us

/-- The loop of `strconv.underscoreOK`; `saw` is the class of the last
character: 0 for a digit, 1 for an underscore, 2 for the start, 3 otherwise. -/
def underscoreLoop (hex : Bool) : List Char → Nat → Bool
  | [], saw => saw != 1
  | c :: cs, saw =>
    let b := c.toNat
    if (48 ≤ b ∧ b ≤ 57) ∨ (hex = true ∧ b < 128 ∧ 97 ≤ lowerByte b ∧ lowerByte b ≤ 102) then
      underscoreLoop hex cs 0
    else if c = '_' then
      (if saw != 0 then false else underscoreLoop hex cs 1)
    else if saw == 1 then false
    else underscoreLoop hex cs 3

/-- The function `strconv.underscoreOK`. -/
def underscoreOK (s : List Char) : Bool :=
  let s1 := match s with
    | '-' :: r => r
    | '+' :: r => r
    | _ => s
  match s1 with
  | '0' :: p :: r =>
    if lowerByte p.toNat = 98 ∨ lowerByte p.toNat = 111 ∨ lowerByte p.toNat = 120 then
      underscoreLoop (lowerByte p.toNat == 120) r 0
    else underscoreLoop false s1 2
  | _ => underscoreLoop false s1 2

/-- The base and the digits `strconv.ParseUint` reads for base argument 0. -/
def inferBase (s : List Char) : Nat × List Char :=
  match s with
  | '0' :: p :: q :: r =>
    if p = 'b' ∨ p = 'B' then (2, q :: r)
    else if p = 'o' ∨ p = 'O' then (8, q :: r)
    else if p = 'x' ∨ p = 'X' then (16, q :: r)
    else (8, p :: q :: r)
  | '0' :: r => (8, r)
  | _ => (10, s)

/-- The function `strconv.ParseUint(s, base, 64)` for `base` 0 or 10: the
value returned and the error. -/
def ParseUint (s : String) (base : Nat) : Nat × Option String :=
  if s.data.isEmpty then (0, some "invalid syntax")
  else
    let base0 := base == 0
    let bd := if base0 then inferBase s.data else (base, s.data)
    match parseDigits bd.1 base0 bd.2 0 false with
    | Except.error (v, e) => (v, some e)
    | Except.ok (n, us) =>
      if us && !underscoreOK s.data then (0, some "invalid syntax") else (n, none)

/-- The call `fmt.Sprintf("%d", n)` for a `uint64`. -/
def FormatUint (n : Nat) : String := String.mk (Nat.toDigits 10 n)

/-- The constant `utf8.RuneError`. -/
def RuneError : Nat := 0xFFFD

/-- The function `utf8.DecodeRuneInString` on valid UTF-8 text: the first
rune and its width in bytes, `(RuneError, 0)` for the empty string. -/
def DecodeRuneInString (s : String) : Nat × Nat :=
  match s.data with
  | [] => (RuneError, 0)
  | c :: _ => (c.toNat, c.utf8Size)

/-- The constant `unicode.MaxASCII`. -/
def MaxASCII : Nat := 0x7F

/-- The letters of Latin-1 (the `pLmask` entries of `unicode.properties`). -/
def latin1Letter (r : Nat) : Bool :=
  (65 ≤ r && r ≤ 90) || (97 ≤ r && r ≤ 122) || r == 0xAA || r == 0xB5 || r == 0xBA
    || (0xC0 ≤ r && r ≤ 0xD6) || (0xD8 ≤ r && r ≤ 0xF6) || (0xF8 ≤ r && r ≤ 0xFF)

/-- The upper case letters of Latin-1 (the `pLu` entries). -/
def latin1Upper (r : Nat) : Bool :=
  (65 ≤ r && r ≤ 90) || (0xC0 ≤ r && r ≤ 0xD6) || (0xD8 ≤ r && r ≤ 0xDE)

/-! ## Expressions (`go/ast`) -/

/-- The operator tokens of `go/token` that occur in an expression. -/
inductive Token
  | ADD | SUB | MUL | QUO | REM
  | AND | OR | XOR | SHL | SHR | AND_NOT
  | LAND | LOR | ARROW
  | EQL | LSS | GTR | NOT | NEQ | LEQ | GEQ
  deriving DecidableEq, Repr, Inhabited

/-- The kind of a basic literal (`token.INT`, ...). -/
inductive LitKind
  | INT | FLOAT | IMAG | CHAR | STRING
  deriving DecidableEq, Repr, Inhabited

/-- The expression nodes of `go/ast`; `Other` is every node type that the
evaluator has no case for (selector, index, composite literal, ...). -/
inductive Expr
  | ParenExpr (X : Expr)
  | UnaryExpr (Op : Token) (X : Expr)
  | BinaryExpr (X : Expr) (Op : Token) (Y : Expr)
  | Ident (Name : String)
  | CallExpr (Fun : Expr) (Args : List Expr)
  | BasicLit (Kind : LitKind) (Value : String)
  | Other (text : String)
  deriving Repr, Inhabited

/-! ## Shared state and interpreter -/

/-- The type `crypto.Key` (declared outside the sources), as a number. -/
abbrev Key := Nat

/-- Modelled from the spec: the type `RND` is declared outside the sources;
the spec calls it a deterministic random source seeded from
`(SCID, BLID, TXID)`, which is all that is recorded here. -/
structure RND where
  seed : Key × Key × Key
  deriving DecidableEq, Repr, Inhabited

/-- Modelled from the spec: the type `TX_Storage` is declared outside the
sources; a buffered view of the key-value store. -/
structure TX_Storage where
  entries : List (String × String) := []
  deriving DecidableEq, Repr, Inhabited

/-- The struct `Blockchain_Input`. -/
structure Blockchain_Input where
  SCID : Key := 0
  BLID : Key := 0
  TXID : Key := 0
  Signer : String := ""
  BL_HEIGHT : Nat := 0
  BL_TOPOHEIGHT : Nat := 0
  deriving DecidableEq, Repr, Inhabited

/-- The struct `Shared_State`; the pointers and the map may be nil. -/
structure Shared_State where
  Persistance : Bool := false
  Chain_inputs : Option Blockchain_Input := none
  DERO_Balance : Nat := 0
  DERO_Received : Nat := 0
  DERO_Transfer : Option (List (String × Nat)) := none
  RND : Option RND := none
  Store : Option TX_Storage := none
  Monitor_recursion : Int := 0
  Monitor_lines_interpreted : Int := 0
  Monitor_ops : Int := 0
  deriving DecidableEq, Repr, Inhabited

/-- The struct `DVM_Interpreter`, with the fields the functions of the source
use. The source declares the current function as field `function` and reads
it as `f` everywhere; `State` is the shared state the pointer refers to. -/
structure DVM_Interpreter where
  SC : SmartContract := {}
  f : Function := {}
  IP : Nat := 0
  ReturnValue : Variable := {}
  Locals : List (String × Variable) := []
  State : Shared_State := {}
  deriving DecidableEq, Repr, Inhabited

/-- The outcome of a Go call: it returns `val` and leaves the shared state
`st`, or it panics with the shared state as it was at the panic; `timeout`
is the outcome of an exhausted fuel only. -/
inductive Res (α : Type)
  | ok (val : α) (st : Shared_State)
  | panic (msg : String) (st : Shared_State)
  | timeout
  deriving DecidableEq, Repr

/-- What an internal function may change of the shared state. -/
structure HostEffects where
  DERO_Transfer : Option (List (String × Nat))
  RND : Option RND
  Store : Option TX_Storage

/-- The code the source calls and does not contain. -/
structure Host where
  /-- The function `parser.ParseExpr` of `go/parser`. -/
  ParseExpr : String → Except String Expr
  /-- The function `strconv.Unquote`. -/
  Unquote : String → Except String String
  /-- The range table `unicode.Letter` above Latin-1. -/
  LetterTable : Nat → Bool
  /-- The range table `unicode.Upper` above Latin-1. -/
  UpperTable : Nat → Bool
  /-- The function `Initialize_RND` (declared outside the sources). -/
  Initialize_RND : Key → Key → Key → RND
  /-- The dispatch table behind `Handle_Internal_Function`. -/
  Internal : String → Option (List Value → Shared_State → Except String (Value × HostEffects))

/-- The function `unicode.IsLetter`. -/
def IsLetter (H : Host) (r : Nat) : Bool :=
  if r ≤ 0xFF then latin1Letter r else H.LetterTable r

/-- The function `unicode.IsUpper`. -/
def IsUpper (H : Host) (r : Nat) : Bool :=
  if r ≤ 0xFF then latin1Upper r else H.UpperTable r

/-! ## The parser -/

/-- The function `check_valid_name`. -/
def check_valid_name (H : Host) (name : String) : Bool :=
  let rs := DecodeRuneInString name
  if rs.1 = RuneError ∨ rs.2 = 0 then false else IsLetter H rs.1

/-- The function `check_valid_type`. -/
def check_valid_type (name : String) : Vtype :=
  if name = "Uint64" then Vtype.Uint64
  else if name = "Address" then Vtype.Address
  else if name = "Blob" then Vtype.Blob
  else if name = "String" then Vtype.String
  else Vtype.Invalid

/-- The outcome of `parse_function_line`: the contract and the open function
it leaves with the error it returns, or a runtime panic. -/
inductive ParseRes
  | ret (SC : SmartContract) (function : Option Function) (err : Option String)
  | panic (msg : String) (SC : SmartContract) (function : Option Function)
  deriving DecidableEq, Repr

/-- The label `parse_params` of `parse_function_line` and what follows it;
`rest` is the part of the line after position `pos`, which `pos++` enters.
The result is the function to open or the error. -/
def parse_params (H : Host) (f : Function) : List String → Except String Function
  | [] => Except.error ("function \"" ++ f.Name ++ "\" missing function parameters")
  | tok :: rest =>
    if tok = "," then parse_params H f rest
    else if tok = ")" then
      match rest with
      | [] => Except.ok { f with ReturnValue := { f.ReturnValue with Type_ := Vtype.Invalid } }
      | rt :: _ =>
        if check_valid_type rt = Vtype.Invalid then
          Except.error ("function name \"" ++ f.Name ++ "\", return type \"" ++ rt ++ "\" is invalid")
        else Except.ok { f with ReturnValue := { f.ReturnValue with Type_ := check_valid_type rt } }
    else
      match rest with
      | [] => Except.error ("function \"" ++ f.Name ++ "\" missing function parameters")
      | ty :: rest2 =>
        if !check_valid_name H tok then
          Except.error ("function name \"" ++ f.Name ++ "\", variable name \"" ++ tok
            ++ "\" contains invalid characters")
        else if check_valid_type ty = Vtype.Invalid then
          Except.error ("function name \"" ++ f.Name ++ "\", variable type \"" ++ ty
            ++ "\" is invalid")
        else
          parse_params H
            { f with Params := f.Params ++ [{ Name := tok, Type_ := check_valid_type ty }] } rest2

/-- The assignment `s[0] = x` to a slice: a panic (`none`) when it is empty. -/
def setFirst {α : Type} : List α → α → Option (List α)
  | [], _ => none
  | _ :: rest, x => some (x :: rest)

/-- The last branch of `parse_function_line`: a body line of the open
function `fn`, whose first token is `first`. -/
def parse_body_line (SC : SmartContract) (fn : Function) (first : String) : ParseRes :=
  match Fields first with
  | [] => ParseRes.panic "runtime error: index out of range [0] with length 0" SC (some fn)
  | possible_line_number :: codeFields =>
    let dup : Bool :=
      (ParseUint possible_line_number 10).2.isSome
        && ContainsChar possible_line_number ':'
        && (match fn.LabelMap with
            | none => false
            | some m => (mapGet m possible_line_number).getD 0 != 0)
    if dup then
      ParseRes.ret SC (some fn)
        (some ("Error: duplicate label within function  \"" ++ fn.Name ++ "\" "))
    else
      let label : String :=
        if (ParseUint possible_line_number 10).2.isSome then
          (if ContainsChar possible_line_number ':' then TrimSuffixColon possible_line_number
           else "")
        else possible_line_number
      if label ≠ "" then
        match fn.LabelMap with
        | none => ParseRes.panic "assignment to entry in nil map" SC (some fn)
        | some m =>
          let fn1 := { fn with LabelMap := some (mapSet m label 0) }
          match setFirst fn1.Lines { Label := label, Code := Join codeFields " " } with
          | none => ParseRes.panic "runtime error: index out of range [0] with length 0" SC (some fn1)
          | some ls => ParseRes.ret SC (some { fn1 with Lines := ls }) none
      else
        match setFirst fn.Lines { Label := "", Code := first } with
        | none => ParseRes.panic "runtime error: index out of range [0] with length 0" SC (some fn)
        | some ls => ParseRes.ret SC (some { fn with Lines := ls }) none

/-- The function `parse_function_line`; `function` is the function being
parsed (`none` when `*function == nil`). -/
def parse_function_line (H : Host) (SC : SmartContract) (function : Option Function)
    (line : List String) : ParseRes :=
  match line with
  | [] => ParseRes.panic "runtime error: index out of range [0] with length 0" SC function
  | first :: rest =>
    match function with
    | none =>
      if !EqualFold first "Function" then
        ParseRes.ret SC none
          (some ("Expecting declaration of function  but found \"" ++ first ++ "\""))
      else
        match rest with
        | [] => ParseRes.ret SC none (some "function name missing")
        | name :: rest1 =>
          if !check_valid_name H name then
            ParseRes.ret SC none
              (some ("function name \"" ++ name ++ "\" contains invalid characters"))
          else
            match rest1 with
            | [] => ParseRes.ret SC none (some ("function \"" ++ name ++ "\" missing '('"))
            | paren :: rest2 =>
              if paren ≠ "(" then
                ParseRes.ret SC none (some ("function \"" ++ name ++ "\" missing '('"))
              else
                match parse_params H { Name := name } rest2 with
                | Except.error e => ParseRes.ret SC none (some e)
                | Except.ok f => ParseRes.ret SC (some f) none
    | some fn =>
      if EqualFold first "End" then
        match rest with
        | [] => ParseRes.panic "runtime error: index out of range [1] with length 1" SC function
        | second :: _ =>
          if EqualFold second "Function" then
            ParseRes.ret { SC with Functions := mapSet SC.Functions fn.Name fn } none none
          else if EqualFold first "Function" then
            ParseRes.ret SC function (some "Nested functions are not allowed")
          else parse_body_line SC fn first
      else if EqualFold first "Function" then
        ParseRes.ret SC function (some "Nested functions are not allowed")
      else parse_body_line SC fn first

/-- A token of `text/scanner` as `ParseSmartContract` reads it: the line of
its position (counted from 1) and its text. -/
structure Tok where
  line : Nat
  txt : String
  deriving DecidableEq, Repr, Inhabited

/-- The state of the token loop of `ParseSmartContract`; `-1` of the source
is `none`. -/
structure ScanState where
  SC : SmartContract := {}
  current_function : Option Function := none
  skip_line : Option Nat := none
  current_line : Option Nat := none
  line_tokens : List String := []
  deriving DecidableEq, Repr, Inhabited

/-- One turn of the token loop of `ParseSmartContract`: the next state, or
the result the function returns at once (a returned error or a recovered
panic). -/
def scanStep (H : Host) (s : ScanState) (t : Tok) : Except (SmartContract × String) ScanState :=
  let skip := if HasPrefix t.txt ";" || HasPrefix t.txt "REM" then some t.line else s.skip_line
  if skip = some t.line then Except.ok { s with skip_line := skip }
  else if s.current_line = none ∨ s.current_line = some t.line then
    Except.ok { s with skip_line := skip, current_line := some t.line,
                       line_tokens := s.line_tokens ++ [t.txt] }
  else
    match parse_function_line H s.SC s.current_function s.line_tokens with
    | ParseRes.ret SC fn none =>
      Except.ok { SC := SC, current_function := fn, skip_line := skip,
                  current_line := some t.line, line_tokens := [t.txt] }
    | ParseRes.ret SC _ (some e) => Except.error (SC, e)
    | ParseRes.panic msg SC _ => Except.error (SC, "Recovered in function " ++ msg)

/-- The token loop of `ParseSmartContract`. -/
def scanLoop (H : Host) : ScanState → List Tok → Except (SmartContract × String) ScanState
  | s, [] => Except.ok s
  | s, t :: ts =>
    match scanStep H s t with
    | Except.ok s1 => scanLoop H s1 ts
    | Except.error e => Except.error e

/-- The function `ParseSmartContract` on the tokens `text/scanner` yields for
the source text: the contract and the error (the position is not kept). -/
def ParseSmartContract (H : Host) (toks : List Tok) : SmartContract × Option String :=
  match scanLoop H {} toks with
  | Except.error (SC, e) => (SC, some e)
  | Except.ok s =>
    let flushed : ParseRes :=
      if s.line_tokens.length > 0 then
        parse_function_line H s.SC s.current_function s.line_tokens
      else ParseRes.ret s.SC s.current_function none
    match flushed with
    | ParseRes.ret SC _ (some e) => (SC, some e)
    | ParseRes.panic msg SC _ => (SC, some ("Recovered in function " ++ msg))
    | ParseRes.ret SC (some fn) none =>
      (SC, some ("EOF reached but End Function is missing \"" ++ fn.Name ++ "\""))
    | ParseRes.ret SC none none => (SC, none)

/-! ## The expression evaluator -/

/-- The increment `dvm.State.Monitor_ops++`. -/
def bumpOps (st : Shared_State) : Shared_State :=
  { st with Monitor_ops := wrapInt64 (st.Monitor_ops + 1) }

/-- The function `IsZero`: 1 or 0, or the panic of the default case. -/
def IsZero : Value → Except String Nat
  | Value.u64 v => Except.ok (if v = 0 then 1 else 0)
  | Value.str s => Except.ok (if s = "" then 1 else 0)
  | Value.nil => Except.error "IsZero not being handled"

/-- The text `fmt.Sprintf("%T", v)`. -/
def typeName : Value → String
  | Value.nil => "<nil>"
  | Value.u64 _ => "uint64"
  | Value.str _ => "string"

/-- The encoding of a Go condition as `uint64(1)` or `uint64(0)`. -/
def boolU64 (b : Bool) : Value := Value.u64 (if b then 1 else 0)

/-- The switch of `evalBinaryExpr` over two `uint64` operands. -/
def binaryUint64 (op : Token) (l r : Nat) : Except String Value :=
  match op with
  | Token.ADD => Except.ok (Value.u64 ((l + r) % 2 ^ 64))
  | Token.SUB => Except.ok (Value.u64 ((l + 2 ^ 64 - r % 2 ^ 64) % 2 ^ 64))
  | Token.MUL => Except.ok (Value.u64 ((l * r) % 2 ^ 64))
  | Token.QUO =>
    if r = 0 then Except.error "runtime error: integer divide by zero"
    else Except.ok (Value.u64 (l / r))
  | Token.REM =>
    if r = 0 then Except.error "runtime error: integer divide by zero"
    else Except.ok (Value.u64 (l % r))
  | Token.AND => Except.ok (Value.u64 (l &&& r))
  | Token.OR => Except.ok (Value.u64 (l ||| r))
  | Token.XOR => Except.ok (Value.u64 (l ^^^ r))
  | Token.SHL => Except.ok (Value.u64 (if r ≥ 64 then 0 else (l <<< r) % 2 ^ 64))
  | Token.SHR => Except.ok (Value.u64 (if r ≥ 64 then 0 else l >>> r))
  | Token.EQL => Except.ok (boolU64 (l == r))
  | Token.NEQ => Except.ok (boolU64 (l != r))
  | Token.LEQ => Except.ok (boolU64 (decide (l ≤ r)))
  | Token.GEQ => Except.ok (boolU64 (decide (l ≥ r)))
  | Token.LSS => Except.ok (boolU64 (decide (l < r)))
  | Token.GTR => Except.ok (boolU64 (decide (l > r)))
  | _ => Except.error "This operation  cannot be handled"

/-- The part of `evalBinaryExpr` that follows the evaluation of the two
operands: the value returned for operator `op`, or the panic message. -/
def binaryOp (op : Token) (left right : Value) : Except String Value :=
  match left, right with
  | Value.str l, Value.u64 r => Except.ok (Value.str (l ++ FormatUint r))
  | _, _ =>
    if typeName left ≠ typeName right then
      Except.error "Expressions cannot be different type(String/Uint64)"
    else
      match op, left, right with
      | Token.LAND, _, _ =>
        match IsZero left, IsZero right with
        | Except.error e, _ => Except.error e
        | Except.ok zl, Except.ok zr => Except.ok (boolU64 (zl == 0 && zr == 0))
        | Except.ok zl, Except.error e => if zl == 0 then Except.error e else Except.ok (boolU64 false)
      | Token.LOR, _, _ =>
        match IsZero left, IsZero right with
        | Except.error e, _ => Except.error e
        | Except.ok zl, Except.ok zr => Except.ok (boolU64 (zl == 0 || zr == 0))
        | Except.ok zl, Except.error e => if zl == 0 then Except.ok (boolU64 true) else Except.error e
      | _, Value.str l, Value.str r =>
        match op with
        | Token.ADD => Except.ok (Value.str (l ++ r))
        | Token.EQL => Except.ok (boolU64 (l == r))
        | Token.NEQ => Except.ok (boolU64 (l != r))
        | _ => Except.error "String data type only support addition operation"
      | _, Value.u64 l, Value.u64 r => binaryUint64 op l r
      | _, _, _ => Except.error "interface conversion: not uint64"

/-- The re-entry `runSmartContract_internal(dvm.SC, name, dvm.State, args)`
as the evaluator sees it. -/
abbrev CallFn :=
  SmartContract → String → Shared_State → List (String × Value) → Res (Variable × Option String)

/-- Lifts the result of the operand-free part of an evaluation step. -/
def liftExcept (st : Shared_State) : Except String Value → Res Value
  | Except.ok v => Res.ok v st
  | Except.error e => Res.panic e st

/-- The first two statements of `eval`: the counter is incremented, and the
evaluation goes on with the new state unless the counter passed the limit. -/
def metered (st0 : Shared_State) (k : Shared_State → Res Value) : Res Value :=
  let st := bumpOps st0
  if st.Monitor_ops > LIMIT_evals then
    Res.panic "lines interpreted, evals reached limit" st
  else k st

mutual

/-- The function `eval`, on the interpreter `dvm` with its shared state;
`call` is the re-entry into `runSmartContract_internal`. -/
def eval (H : Host) (call : CallFn) (dvm : DVM_Interpreter) : Expr → Res Value
  | Expr.ParenExpr X => metered dvm.State fun st => eval H call { dvm with State := st } X
  | Expr.UnaryExpr Op X => metered dvm.State fun st =>
    match Op with
    | Token.XOR =>
      match eval H call { dvm with State := st } X with
      | Res.ok (Value.u64 v) st1 => Res.ok (Value.u64 (MaxUint64 - v % 2 ^ 64)) st1
      | Res.ok _ st1 => Res.panic "interface conversion: not uint64" st1
      | Res.panic m st1 => Res.panic m st1
      | Res.timeout => Res.timeout
    | Token.NOT =>
      match eval H call { dvm with State := st } X with
      | Res.ok (Value.u64 v) st1 => Res.ok (Value.u64 (MaxUint64 - v % 2 ^ 64)) st1
      | Res.ok (Value.str x) st1 => Res.ok (Value.u64 (if x = "" then 1 else 0)) st1
      | Res.ok Value.nil st1 =>
        Res.panic "We should never reach here while evaluating expressions" st1
      | Res.panic m st1 => Res.panic m st1
      | Res.timeout => Res.timeout
    | _ => Res.panic "We should never reach here while evaluating expressions" st
  | Expr.BinaryExpr X Op Y => metered dvm.State fun st =>
    match eval H call { dvm with State := st } X with
    | Res.ok left st1 =>
      match eval H call { dvm with State := st1 } Y with
      | Res.ok right st2 => liftExcept st2 (binaryOp Op left right)
      | Res.panic m st2 => Res.panic m st2
      | Res.timeout => Res.timeout
    | Res.panic m st1 => Res.panic m st1
    | Res.timeout => Res.timeout
  | Expr.Ident Name => metered dvm.State fun st =>
    match mapGet dvm.Locals Name with
    | none =>
      Res.panic ("function name \"" ++ dvm.f.Name ++ "\", variable name \"" ++ Name
        ++ "\"  is used without definition") st
    | some v => Res.ok v.Value st
  | Expr.CallExpr Fun Args => metered dvm.State fun st =>
    match Fun with
    | Expr.Ident func_name =>
      match H.Internal func_name with
      | some internal =>
        Handle_Internal_Function H call { dvm with State := st } internal Args []
      | none =>
        match mapGet dvm.SC.Functions func_name with
        | none => Res.panic ("Unknown function called \"" ++ func_name ++ "\"") st
        | some function_call =>
          if function_call.Params.length ≠ Args.length then
            Res.panic ("function \"" ++ func_name
              ++ "\" called with incorrect number of arguments") st
          else
            match evalArguments H call { dvm with State := st } function_call.Params Args [] with
            | Res.ok arguments st1 =>
              match call dvm.SC func_name st1 arguments with
              | Res.ok (_, some e) st2 => Res.panic e st2
              | Res.ok (result, none) st2 =>
                if function_call.ReturnValue.Type_ ≠ Vtype.Invalid then Res.ok result.Value st2
                else Res.ok Value.nil st2
              | Res.panic m st2 => Res.panic m st2
              | Res.timeout => Res.timeout
            | Res.panic m st1 => Res.panic m st1
            | Res.timeout => Res.timeout
    | _ => Res.panic "expecting identifier" st
  | Expr.BasicLit Kind text => metered dvm.State fun st =>
    match Kind with
    | LitKind.INT =>
      match ParseUint text 0 with
      | (i, none) => Res.ok (Value.u64 i) st
      | (_, some e) => Res.panic e st
    | LitKind.STRING =>
      match H.Unquote text with
      | Except.ok unquoted => Res.ok (Value.str unquoted) st
      | Except.error e => Res.panic e st
    | _ => Res.panic "We should never reach here while evaluating expressions" st
  | Expr.Other text => metered dvm.State fun st =>
    Res.panic ("Unhandled expression type " ++ text) st

/-- The loop of `eval` that fills `arguments` for an intra-contract call:
the argument of each parameter is evaluated and converted by the
parameter's type. -/
def evalArguments (H : Host) (call : CallFn) (dvm : DVM_Interpreter) :
    List Variable → List Expr → List (String × Value) → Res (List (String × Value))
  | [], _, arguments => Res.ok arguments dvm.State
  | _ :: _, [], _ => Res.panic "index out of range" dvm.State
  | p :: ps, a :: as, arguments =>
    match p.Type_ with
    | Vtype.Uint64 =>
      match eval H call dvm a with
      | Res.ok (Value.u64 v) st1 =>
        evalArguments H call { dvm with State := st1 } ps as
          (mapSet arguments p.Name (Value.str (FormatUint v)))
      | Res.ok _ st1 => Res.panic "interface conversion: not uint64" st1
      | Res.panic m st1 => Res.panic m st1
      | Res.timeout => Res.timeout
    | Vtype.Invalid => evalArguments H call dvm ps as arguments
    | _ =>
      match eval H call dvm a with
      | Res.ok (Value.str v) st1 =>
        evalArguments H call { dvm with State := st1 } ps as
          (mapSet arguments p.Name (Value.str v))
      | Res.ok _ st1 => Res.panic "interface conversion: not string" st1
      | Res.panic m st1 => Res.panic m st1
      | Res.timeout => Res.timeout

/-- Modelled from the spec: the method `Handle_Internal_Function` is not
among the sources. For a name of the host table (`internal` is its entry) the
arguments are evaluated from the left, `vals` holding the values so far in
reverse, and the host function is applied to the values; it returns a value
or signals a fatal error, and acts on the transfers, the random source and
the store only. -/
def Handle_Internal_Function (H : Host) (call : CallFn) (dvm : DVM_Interpreter)
    (internal : List Value → Shared_State → Except String (Value × HostEffects)) :
    List Expr → List Value → Res Value
  | [], vals =>
    match internal vals.reverse dvm.State with
    | Except.ok (v, eff) =>
      Res.ok v { dvm.State with DERO_Transfer := eff.DERO_Transfer, RND := eff.RND,
                                Store := eff.Store }
    | Except.error e => Res.panic e dvm.State
  | a :: as, vals =>
    match eval H call dvm a with
    | Res.ok v st1 =>
      Handle_Internal_Function H call { dvm with State := st1 } internal as (v :: vals)
    | Res.panic m st1 => Res.panic m st1
    | Res.timeout => Res.timeout

end

/-! ## The interpreter -/

/-- The outcome of a statement handler or of the interpreter loop: it
returns `(newIP, err)` and leaves the interpreter `dvm` (its locals, return
value and shared state), or it panics. -/
inductive IRes
  | ret (dvm : DVM_Interpreter) (newIP : Nat) (err : Option String)
  | panic (msg : String) (st : Shared_State)
  | timeout
  deriving DecidableEq, Repr

/-- The method `incrementIP`: the line counter and `IP` are incremented; the
results `line` and `err` are returned as declared, nil both. -/
def incrementIP (i : DVM_Interpreter) (_newip : Nat) :
    DVM_Interpreter × List String × Option String :=
  ({ i with
      State := { i.State with
        Monitor_lines_interpreted := wrapInt64 (i.State.Monitor_lines_interpreted + 1) },
      IP := (i.IP + 1) % 2 ^ 64 },
   [], none)

/-- The method `interpret_PRINT`; what it prints is not kept. -/
def interpret_PRINT (dvm : DVM_Interpreter) (_args : List String) : IRes :=
  IRes.ret dvm 0 none

/-- The loop of `interpret_DIM` over the names before `as`. -/
def dimLoop (H : Host) (data_type : Vtype) :
    DVM_Interpreter → List String → DVM_Interpreter × Option String
  | dvm, [] => (dvm, none)
  | dvm, name :: rest =>
    if name ≠ "," then
      if !check_valid_name H name then
        (dvm, some ("function name \"" ++ dvm.f.Name ++ "\", variable name \"" ++ name
          ++ "\" contains invalid characters"))
      else if (mapGet dvm.Locals name).isSome then
        (dvm, some ("function name \"" ++ dvm.f.Name ++ "\", variable name \"" ++ name
          ++ "\" contains invalid characters"))
      else
        match data_type with
        | Vtype.Uint64 =>
          dimLoop H data_type
            { dvm with
                Locals := mapSet dvm.Locals name
                  ({ Name := name, Type_ := Vtype.Uint64, Value := Value.u64 0 }) } rest
        | Vtype.Invalid => dimLoop H data_type dvm rest
        | t =>
          dimLoop H data_type
            { dvm with
                Locals := mapSet dvm.Locals name
                  ({ Name := name, Type_ := t, Value := Value.str "" }) } rest
    else dimLoop H data_type dvm rest

/-- The method `interpret_DIM`. -/
def interpret_DIM (H : Host) (dvm : DVM_Interpreter) (line : List String) : IRes :=
  match line.reverse with
  | ty :: as_ :: revNames =>
    if revNames.isEmpty || !EqualFold as_ "as" then IRes.ret dvm 0 (some "Invalid DIM syntax")
    else if check_valid_type ty = Vtype.Invalid then
      IRes.ret dvm 0
        (some ("function name \"" ++ dvm.f.Name ++ "\", No such Data type \"" ++ ty ++ "\""))
    else
      match dimLoop H (check_valid_type ty) dvm revNames.reverse with
      | (dvm1, err) => IRes.ret dvm1 0 err
  | _ => IRes.ret dvm 0 (some "Invalid DIM syntax")

/-- The method `interpret_LET`. The expression text is the join of the
tokens after `=`, as the source passes it to the parser. -/
def interpret_LET (H : Host) (call : CallFn) (dvm : DVM_Interpreter) (line : List String) :
    IRes :=
  match line with
  | name :: eq :: e1 :: erest =>
    if !EqualFold eq "=" then IRes.ret dvm 0 (some "Invalid LET syntax")
    else
      match mapGet dvm.Locals name with
      | none =>
        IRes.ret dvm 0
          (some ("function name \"" ++ dvm.f.Name ++ "\", variable name \"" ++ name
            ++ "\"  is used without definition"))
      | some result =>
        match H.ParseExpr (Join (e1 :: erest) " ") with
        | Except.error e => IRes.ret dvm 0 (some e)
        | Except.ok expr =>
          match eval H call dvm expr with
          | Res.panic m st => IRes.panic m st
          | Res.timeout => IRes.timeout
          | Res.ok expr_result st =>
            match result.Type_, expr_result with
            | Vtype.Uint64, Value.u64 v =>
              IRes.ret
                { dvm with
                    State := st
                    Locals := mapSet dvm.Locals name ({ result with Value := Value.u64 v }) }
                0 none
            | Vtype.Uint64, _ =>
              IRes.panic "interface conversion: not uint64" st
            | Vtype.String, Value.str v =>
              IRes.ret
                { dvm with
                    State := st
                    Locals := mapSet dvm.Locals name ({ result with Value := Value.str v }) }
                0 none
            | Vtype.String, _ =>
              IRes.panic "interface conversion: not string" st
            | Vtype.Invalid, _ =>
              IRes.ret { dvm with State := st, Locals := mapSet dvm.Locals name result } 0 none
            | _, v =>
              IRes.ret
                { dvm with
                    State := st
                    Locals := mapSet dvm.Locals name ({ result with Value := v }) }
                0 none
  | _ => IRes.ret dvm 0 (some "Invalid LET syntax")

/-- The method `interpret_GOTO`. -/
def interpret_GOTO (dvm : DVM_Interpreter) (line : List String) : IRes :=
  match line with
  | [target] =>
    match ParseUint target 0 with
    | (newIP, some e) => IRes.ret dvm newIP (some e)
    | (newIP, none) =>
      if newIP = 0 ∨ newIP = MaxUint64 then
        IRes.ret dvm 0 (some "GOTO  has invalid line number")
      else IRes.ret dvm newIP none
  | _ => IRes.ret dvm 0 (some "GOTO  contains 1 mandatory line number as argument")

/-- The end of `interpret_IF`: the condition `cond` is parsed and evaluated
and the branch is chosen. -/
def ifBranch (H : Host) (call : CallFn) (dvm : DVM_Interpreter) (cond : List String)
    (thenip elseip : Nat) : IRes :=
  if thenip = 0 ∨ thenip = MaxUint64 then
    IRes.ret dvm 0 (some "THEN GOTO  has invalid line number")
  else
    match H.ParseExpr (replacer (Join cond " ")) with
    | Except.error e => IRes.ret dvm 0 (some e)
    | Except.ok expr =>
      match eval H call dvm expr with
      | Res.panic m st => IRes.panic m st
      | Res.timeout => IRes.timeout
      | Res.ok (Value.u64 result) st =>
        IRes.ret { dvm with State := st } (if result ≠ 0 then thenip else elseip) none
      | Res.ok _ st =>
        IRes.ret { dvm with State := st } 0
          (some ("Invalid IF expression  \"" ++ replacer (Join cond " ") ++ "\""))

/-- The method `interpret_IF`. -/
def interpret_IF (H : Host) (call : CallFn) (dvm : DVM_Interpreter) (line : List String) :
    IRes :=
  let first : Option (String × List String) :=
    match line.reverse with
    | t :: g :: th :: c :: crest =>
      if EqualFold th "THEN" && EqualFold g "GOTO" then some (t, (c :: crest).reverse) else none
    | _ => none
  match first with
  | some (t, cond) =>
    match ParseUint t 0 with
    | (_, some e) => IRes.ret dvm 0 (some e)
    | (thenip, none) => ifBranch H call dvm cond thenip 0
  | none =>
    match line.reverse with
    | e :: g2 :: el :: t :: g1 :: th :: c :: crest =>
      if EqualFold th "THEN" && EqualFold g1 "GOTO" && EqualFold el "ELSE"
          && EqualFold g2 "GOTO" then
        match ParseUint t 0 with
        | (_, some err) => IRes.ret dvm 0 (some err)
        | (thenip, none) =>
          match ParseUint e 0 with
          | (_, some err) => IRes.ret dvm 0 (some err)
          | (elseip, none) =>
            if elseip = 0 ∨ elseip = MaxUint64 then
              IRes.ret dvm 0 (some "ELSE GOTO  has invalid line number")
            else ifBranch H call dvm (c :: crest).reverse thenip elseip
      else IRes.ret dvm 0 (some "Invalid IF syntax")
    | _ => IRes.ret dvm 0 (some "Invalid IF syntax")

/-- The decrement `dvm.State.Monitor_recursion--`. -/
def lowerRecursion (st : Shared_State) : Shared_State :=
  { st with Monitor_recursion := wrapInt64 (st.Monitor_recursion - 1) }

/-- The method `interpret_RETURN`. -/
def interpret_RETURN (H : Host) (call : CallFn) (dvm : DVM_Interpreter) (line : List String) :
    IRes :=
  if dvm.ReturnValue.Type_ = Vtype.Invalid then
    if line.length ≠ 0 then
      IRes.ret dvm 0 (some ("function name \"" ++ dvm.f.Name ++ "\" cannot return anything"))
    else IRes.ret { dvm with State := lowerRecursion dvm.State } MaxUint64 none
  else if line.length = 0 then
    IRes.ret dvm 0 (some ("function name \"" ++ dvm.f.Name ++ "\" should return  a value"))
  else
    match H.ParseExpr (replacer (Join line " ")) with
    | Except.error e => IRes.ret dvm 0 (some e)
    | Except.ok expr =>
      match eval H call dvm expr with
      | Res.panic m st => IRes.panic m st
      | Res.timeout => IRes.timeout
      | Res.ok expr_result st =>
        match dvm.ReturnValue.Type_, expr_result with
        | Vtype.Uint64, Value.u64 v =>
          IRes.ret
            { dvm with
                State := lowerRecursion st
                ReturnValue := { dvm.ReturnValue with Value := Value.u64 v } }
            MaxUint64 none
        | Vtype.Uint64, _ => IRes.panic "interface conversion: not uint64" st
        | _, Value.str v =>
          IRes.ret
            { dvm with
                State := lowerRecursion st
                ReturnValue := { dvm.ReturnValue with Value := Value.str v } }
            MaxUint64 none
        | _, _ => IRes.panic "interface conversion: not string" st

/-- The wrapping `err while interpreting line ... err ...` that the loop of
`interpret_SmartContract` gives the error of a statement handler. -/
def wrapErr : IRes → IRes
  | IRes.ret dvm newIP (some e) =>
    IRes.ret dvm newIP (some ("err while interpreting line err " ++ e))
  | r => r

/-- The default case of the statement switch: the line must parse as a call
expression, which is evaluated; its errors are returned as they are. -/
def callLine (H : Host) (call : CallFn) (i : DVM_Interpreter) (line : List String) : IRes :=
  match H.ParseExpr (replacer (Join line " ")) with
  | Except.error e => IRes.ret i 0 (some e)
  | Except.ok expr =>
    match expr with
    | Expr.CallExpr _ _ =>
      match eval H call i expr with
      | Res.ok _ st => IRes.ret { i with State := st } 0 none
      | Res.panic m st => IRes.panic m st
      | Res.timeout => IRes.timeout
    | _ => IRes.ret i 0 (some "not a function call line")

/-- The statement switch of the loop of `interpret_SmartContract` for a line
with first token `kw` and the tokens `args` after it, with the error as the
loop returns it. -/
def dispatch (H : Host) (call : CallFn) (i : DVM_Interpreter) (kw : String)
    (args : List String) : IRes :=
  if EqualFold kw "DIM" then wrapErr (interpret_DIM H i args)
  else if EqualFold kw "LET" then wrapErr (interpret_LET H call i args)
  else if EqualFold kw "GOTO" then wrapErr (interpret_GOTO i args)
  else if EqualFold kw "IF" then wrapErr (interpret_IF H call i args)
  else if EqualFold kw "RETURN" then wrapErr (interpret_RETURN H call i args)
  else if EqualFold kw "PRINT" || EqualFold kw "PRINTF" then wrapErr (interpret_PRINT i args)
  else callLine H call i (kw :: args)

/-- The method `interpret_SmartContract`: the loop runs while fuel lasts.
The result carries the interpreter as the loop left it and the error
returned. -/
def interpret_SmartContract (H : Host) (call : CallFn) :
    Nat → DVM_Interpreter → Nat → IRes
  | 0, _, _ => IRes.timeout
  | fuel + 1, i0, newIP =>
    match incrementIP i0 newIP with
    | (i, _, some e) => IRes.ret i newIP (some e)
    | (i, line, none) =>
      if i.State.Monitor_lines_interpreted > LIMIT_interpreted_lines then
        IRes.panic "lines interpreted, reached limit" i.State
      else
        match line with
        | [] => IRes.panic "runtime error: index out of range [0] with length 0" i.State
        | kw :: args =>
          match dispatch H call i kw args with
          | IRes.ret i1 newIP1 (some e) => IRes.ret i1 newIP1 (some e)
          | IRes.ret i1 newIP1 none =>
            if newIP1 = MaxUint64 then IRes.ret i1 newIP1 none
            else interpret_SmartContract H call fuel i1 newIP1
          | IRes.panic m st => IRes.panic m st
          | IRes.timeout => IRes.timeout

/-- The parameter loop of `runSmartContract_internal`: each parameter is
read from `params` and bound as a local. -/
def bindParams (EntryPoint : String) (params : List (String × Value)) :
    List Variable → List (String × Variable) → Except String (Except String (List (String × Variable)))
  | [], locals => Except.ok (Except.ok locals)
  | p :: ps, locals =>
    match mapGet params p.Name with
    | none =>
      Except.ok (Except.error ("Argument \"" ++ p.Name ++ "\" is missing while invoking \""
        ++ EntryPoint ++ "\""))
    | some value =>
      match p.Type_ with
      | Vtype.Invalid =>
        bindParams EntryPoint params ps
          (mapSet locals p.Name ({ Name := p.Name, Type_ := p.Type_ }))
      | Vtype.Uint64 =>
        match value with
        | Value.str text =>
          match ParseUint text 0 with
          | (_, some e) => Except.ok (Except.error e)
          | (v, none) =>
            bindParams EntryPoint params ps
              (mapSet locals p.Name ({ Name := p.Name, Type_ := p.Type_, Value := Value.u64 v }))
        | _ => Except.error "interface conversion: not string"
      | _ =>
        match value with
        | Value.str text =>
          bindParams EntryPoint params ps
            (mapSet locals p.Name ({ Name := p.Name, Type_ := p.Type_, Value := Value.str text }))
        | _ => Except.error "interface conversion: not string"

/-- The increment `dvm.State.Monitor_recursion++`. -/
def raiseRecursion (st : Shared_State) : Shared_State :=
  { st with Monitor_recursion := wrapInt64 (st.Monitor_recursion + 1) }

/-- The function `runSmartContract_internal`; the fuel bounds the depth of
re-entry and the turns of each interpreter loop. The outer `Except` of
`bindParams` is a panic, the inner one the error returned. -/
def runSmartContract_internal (H : Host) : Nat → CallFn
  | 0, _, _, _, _ => Res.timeout
  | fuel + 1, SC, EntryPoint, state, params =>
    match mapGet SC.Functions EntryPoint with
    | none =>
      Res.ok ({}, some ("function \"" ++ EntryPoint ++ "\" is not available in SC")) state
    | some function_call =>
      match bindParams EntryPoint params function_call.Params [] with
      | Except.error m => Res.panic m state
      | Except.ok (Except.error e) => Res.ok ({}, some e) state
      | Except.ok (Except.ok locals) =>
        let dvm : DVM_Interpreter :=
          { SC := SC, f := function_call, Locals := locals,
            ReturnValue := function_call.ReturnValue, State := raiseRecursion state }
        match interpret_SmartContract H (runSmartContract_internal H fuel) (fuel + 1) dvm 0 with
        | IRes.ret i _ (some e) => Res.ok ({}, some e) i.State
        | IRes.ret i _ none => Res.ok (i.ReturnValue, none) i.State
        | IRes.panic m st => Res.panic m st
        | IRes.timeout => Res.timeout

/-- The deferred function of `RunSmartContract`: a panic becomes the error
`Recovered in function ...`; the result is the zero `Variable`. -/
def recovered : Res (Variable × Option String) → Res (Variable × Option String)
  | Res.panic msg st => Res.ok ({}, some ("Recovered in function " ++ msg)) st
  | r => r

/-- The body of `RunSmartContract`, without its deferred function. -/
def RunSmartContract_body (H : Host) (fuel : Nat) (SC : SmartContract) (EntryPoint : String)
    (state : Shared_State) (params : List (String × Value)) : Res (Variable × Option String) :=
  let rs := DecodeRuneInString EntryPoint
  if rs.1 = RuneError ∨ rs.2 = 0 then Res.ok ({}, some "Invalid function name") state
  else if rs.1 ≥ MaxASCII then
    Res.ok ({}, some "Invalid function name, First character must be ASCII alphabet") state
  else if !IsLetter H rs.1 then
    Res.ok ({}, some "Invalid function name, First character must be ASCII Letter") state
  else if !IsUpper H rs.1 then
    Res.ok ({}, some "Invalid function name, First character must be Capital/Upper Case") state
  else
    let initialised : Except String Shared_State :=
      if state.Monitor_recursion = 0 then
        match state.Chain_inputs with
        | none => Except.error "runtime error: invalid memory address or nil pointer dereference"
        | some ci =>
          Except.ok { state with RND := some (H.Initialize_RND ci.SCID ci.BLID ci.TXID),
                                 DERO_Transfer := some [] }
      else Except.ok state
    match initialised with
    | Except.error m => Res.panic m state
    | Except.ok state1 =>
      match runSmartContract_internal H fuel SC EntryPoint state1 params with
      | Res.ok (result, some e) st => Res.ok (result, some e) st
      | Res.ok (result, none) st =>
        if st.Monitor_recursion ≠ 0 then Res.ok (result, some "Invalid  recursion level") st
        else Res.ok (result, none) st
      | Res.panic m st => Res.panic m st
      | Res.timeout => Res.timeout

/-- The function `RunSmartContract`. -/
def RunSmartContract (H : Host) (fuel : Nat) (SC : SmartContract) (EntryPoint : String)
    (state : Shared_State) (params : List (String × Value)) : Res (Variable × Option String) :=
  recovered (RunSmartContract_body H fuel SC EntryPoint state params)

/-! ## Concrete inputs -/

/-- A host with no internal function and no parsable expression. -/
def demoHost : Host where
  ParseExpr := fun _ => Except.error "no parser"
  Unquote := fun _ => Except.error "no unquote"
  LetterTable := fun _ => false
  UpperTable := fun _ => false
  Initialize_RND := fun a b c => { seed := (a, b, c) }
  Internal := fun _ => none

/-- A shared state as the host creates it for a top-level call: counters at
zero, the chain inputs present. -/
def freshState : Shared_State := { Chain_inputs := some {} }

/-- The tokens of the source of function `Add` of scenario 1, line by line. -/
def addTokens : List Tok :=
  [⟨1, "Function"⟩, ⟨1, "Add"⟩, ⟨1, "("⟩, ⟨1, "a"⟩, ⟨1, "Uint64"⟩, ⟨1, ","⟩, ⟨1, "b"⟩,
   ⟨1, "Uint64"⟩, ⟨1, ")"⟩, ⟨1, "Uint64"⟩,
   ⟨2, "10"⟩, ⟨2, "DIM"⟩, ⟨2, "s"⟩, ⟨2, "as"⟩, ⟨2, "Uint64"⟩,
   ⟨3, "20"⟩, ⟨3, "LET"⟩, ⟨3, "s"⟩, ⟨3, "="⟩, ⟨3, "a"⟩, ⟨3, "+"⟩, ⟨3, "b"⟩,
   ⟨4, "30"⟩, ⟨4, "IF"⟩, ⟨4, "s"⟩, ⟨4, "="⟩, ⟨4, "="⟩, ⟨4, "15"⟩, ⟨4, "THEN"⟩, ⟨4, "GOTO"⟩,
   ⟨4, "50"⟩, ⟨4, "ELSE"⟩, ⟨4, "GOTO"⟩, ⟨4, "60"⟩,
   ⟨5, "50"⟩, ⟨5, "RETURN"⟩, ⟨5, "111"⟩,
   ⟨6, "60"⟩, ⟨6, "RETURN"⟩, ⟨6, "222"⟩,
   ⟨7, "End"⟩, ⟨7, "Function"⟩]

/-- The function `Add` of scenario 1 written out as a `Function` value, with
its five lines and their labels. -/
def addFunction : Function where
  Name := "Add"
  Params := [{ Name := "a", Type_ := Vtype.Uint64 }, { Name := "b", Type_ := Vtype.Uint64 }]
  ReturnValue := { Type_ := Vtype.Uint64 }
  Lines := [⟨"10", "DIM s as Uint64"⟩, ⟨"20", "LET s = a + b"⟩,
            ⟨"30", "IF s == 15 THEN GOTO 50 ELSE GOTO 60"⟩, ⟨"50", "RETURN 111"⟩,
            ⟨"60", "RETURN 222"⟩]
  LabelMap := some [("10", 0), ("20", 1), ("30", 2), ("50", 3), ("60", 4)]

def addContract : SmartContract := { Functions := [("Add", addFunction)] }

/-- The tight loop `10 GOTO 10` as a `Function` value. -/
def loopFunction : Function where
  Name := "Loop"
  Lines := [⟨"10", "GOTO 10"⟩]
  LabelMap := some [("10", 0)]

def loopContract : SmartContract := { Functions := [("Loop", loopFunction)] }

/-- A function that jumps over its second line: `10 GOTO 30`, `20 RETURN 1`,
`30 RETURN 2`. -/
def jumpFunction : Function where
  Name := "Jump"
  ReturnValue := { Type_ := Vtype.Uint64 }
  Lines := [⟨"10", "GOTO 30"⟩, ⟨"20", "RETURN 1"⟩, ⟨"30", "RETURN 2"⟩]
  LabelMap := some [("10", 0), ("20", 1), ("30", 2)]

def jumpContract : SmartContract := { Functions := [("Jump", jumpFunction)] }

/-- The function `Bad` of scenario 6: `10 DIM z as Uint64`, `20 RETURN 5 / z`. -/
def badFunction : Function where
  Name := "Bad"
  ReturnValue := { Type_ := Vtype.Uint64 }
  Lines := [⟨"10", "DIM z as Uint64"⟩, ⟨"20", "RETURN 5 / z"⟩]
  LabelMap := some [("10", 0), ("20", 1)]

def badContract : SmartContract := { Functions := [("Bad", badFunction)] }

/-- A function that calls itself: `10 RETURN Deep()`. -/
def deepFunction : Function where
  Name := "Deep"
  ReturnValue := { Type_ := Vtype.Uint64 }
  Lines := [⟨"10", "RETURN Deep()"⟩]
  LabelMap := some [("10", 0)]

def deepContract : SmartContract := { Functions := [("Deep", deepFunction)] }

/-- The four checks of `RunSmartContract` on the entry point's first rune. -/
def exportedName (H : Host) (EntryPoint : String) : Bool :=
  let rs := DecodeRuneInString EntryPoint
  !(rs.1 = RuneError ∨ rs.2 = 0) && !(rs.1 ≥ MaxASCII) && IsLetter H rs.1 && IsUpper H rs.1

/-- The shared state after the first line fetch of a loop entered in `st`. -/
def fetched (st : Shared_State) : Shared_State :=
  { st with Monitor_lines_interpreted := wrapInt64 (st.Monitor_lines_interpreted + 1) }

/-- The counters after an evaluation that returned: depth and line counter
as before, the operation counter within the limit and above its old value
unless that was the largest `int64`. -/
def Grows (st st' : Shared_State) : Prop :=
  st'.Monitor_recursion = st.Monitor_recursion
    ∧ st'.Monitor_lines_interpreted = st.Monitor_lines_interpreted
    ∧ st'.Monitor_ops ≤ LIMIT_evals
    ∧ (st.Monitor_ops < 2 ^ 63 - 1 → st.Monitor_ops < st'.Monitor_ops)

/-- The counters after a sequence of evaluations that returned. -/
def GrowsEq (st st' : Shared_State) : Prop :=
  st'.Monitor_recursion = st.Monitor_recursion
    ∧ st'.Monitor_lines_interpreted = st.Monitor_lines_interpreted
    ∧ (st.Monitor_ops ≤ LIMIT_evals →
        st'.Monitor_ops ≤ LIMIT_evals ∧ st.Monitor_ops ≤ st'.Monitor_ops)

/-- The state in which `RunSmartContract` enters `runSmartContract_internal`
when the export check passed, or the panic of the initialisation. -/
def entryState (H : Host) (state : Shared_State) : Except String Shared_State :=
  if state.Monitor_recursion = 0 then
    match state.Chain_inputs with
    | none => Except.error "runtime error: invalid memory address or nil pointer dereference"
    | some ci =>
      Except.ok { state with RND := some (H.Initialize_RND ci.SCID ci.BLID ci.TXID),
                             DERO_Transfer := some [] }
  else Except.ok state

/-- A host that parses and unquotes by table: `parse` lists the expression
`go/parser` gives for a text, `unq` the string `strconv.Unquote` gives for a
literal; every other text is an error. -/
def tableHost (parse : List (String × Expr)) (unq : List (String × String)) : Host where
  ParseExpr := fun s =>
    match mapGet parse s with
    | some e => Except.ok e
    | none => Except.error "no parse"
  Unquote := fun s =>
    match mapGet unq s with
    | some t => Except.ok t
    | none => Except.error "invalid syntax"
  LetterTable := fun _ => false
  UpperTable := fun _ => false
  Initialize_RND := fun a b c => { seed := (a, b, c) }
  Internal := fun _ => none

/-- The shared state with `k` added to the operation counter. -/
def addOps (st : Shared_State) (k : Nat) : Shared_State :=
  { st with Monitor_ops := st.Monitor_ops + k }

/-- The number of calls of `eval` that the evaluation of a call-free
expression makes: one for each node. -/
def nodes : Expr → Nat
  | Expr.ParenExpr X => nodes X + 1
  | Expr.UnaryExpr _ X => nodes X + 1
  | Expr.BinaryExpr X _ Y => nodes X + nodes Y + 1
  | _ => 1

/-- The value `eval` computes for a call-free expression over the locals,
the meter left aside: `none` where `eval` panics or the expression has a
call. -/
def pureEval (H : Host) (locals : List (String × Variable)) : Expr → Option Value
  | Expr.ParenExpr X => pureEval H locals X
  | Expr.UnaryExpr Op X =>
    match Op with
    | Token.XOR =>
      match pureEval H locals X with
      | some (Value.u64 v) => some (Value.u64 (MaxUint64 - v % 2 ^ 64))
      | _ => none
    | Token.NOT =>
      match pureEval H locals X with
      | some (Value.u64 v) => some (Value.u64 (MaxUint64 - v % 2 ^ 64))
      | some (Value.str x) => some (Value.u64 (if x = "" then 1 else 0))
      | _ => none
    | _ => none
  | Expr.BinaryExpr X Op Y =>
    match pureEval H locals X with
    | some l =>
      match pureEval H locals Y with
      | some r =>
        match binaryOp Op l r with
        | Except.ok v => some v
        | Except.error _ => none
      | none => none
    | none => none
  | Expr.Ident Name =>
    match mapGet locals Name with
    | some v => some v.Value
    | none => none
  | Expr.BasicLit Kind text =>
    match Kind with
    | LitKind.INT =>
      match ParseUint text 0 with
      | (i, none) => some (Value.u64 i)
      | (_, some _) => none
    | LitKind.STRING =>
      match H.Unquote text with
      | Except.ok unquoted => some (Value.str unquoted)
      | Except.error _ => none
    | _ => none
  | Expr.CallExpr _ _ => none
  | Expr.Other _ => none

/-- Whether a value has the tag of a declared type: a `uint64` for `Uint64`,
a `string` for `String`, `Address` and `Blob`. -/
def tagMatches : Vtype → Value → Bool
  | Vtype.Uint64, Value.u64 _ => true
  | Vtype.String, Value.str _ => true
  | Vtype.Address, Value.str _ => true
  | Vtype.Blob, Value.str _ => true
  | _, _ => false

/-- The variable `interpret_DIM` binds to `name` for data type `t`. -/
def zeroVariable (name : String) (t : Vtype) : Variable :=
  match t with
  | Vtype.Uint64 => { Name := name, Type_ := Vtype.Uint64, Value := Value.u64 0 }
  | _ => { Name := name, Type_ := t, Value := Value.str "" }

/-- The expression `(x / y) * y + (x % y) == x` as `go/parser` builds it. -/
def divModIdentity (x y : String) : Expr :=
  Expr.BinaryExpr
    (Expr.BinaryExpr
      (Expr.BinaryExpr
        (Expr.ParenExpr (Expr.BinaryExpr (Expr.Ident x) Token.QUO (Expr.Ident y)))
        Token.MUL (Expr.Ident y))
      Token.ADD
      (Expr.ParenExpr (Expr.BinaryExpr (Expr.Ident x) Token.REM (Expr.Ident y))))
    Token.EQL (Expr.Ident x)

/-- The expression `"hi " + "bob" + " " + 3` as `go/parser` builds it. -/
def greeting : Expr :=
  Expr.BinaryExpr
    (Expr.BinaryExpr
      (Expr.BinaryExpr (Expr.BasicLit LitKind.STRING "\"hi \"") Token.ADD
        (Expr.BasicLit LitKind.STRING "\"bob\""))
      Token.ADD (Expr.BasicLit LitKind.STRING "\" \""))
    Token.ADD (Expr.BasicLit LitKind.INT "3")

/-- A host that unquotes the three string literals of `greeting`. -/
def greetingHost : Host :=
  tableHost [] [("\"hi \"", "hi "), ("\"bob\"", "bob"), ("\" \"", " ")]

/-- The expression `0 && (1 / 0)` as `go/parser` builds it. -/
def guardedDivision : Expr :=
  Expr.BinaryExpr (Expr.BasicLit LitKind.INT "0") Token.LAND
    (Expr.ParenExpr
      (Expr.BinaryExpr (Expr.BasicLit LitKind.INT "1") Token.QUO (Expr.BasicLit LitKind.INT "0")))

/-- A host that parses the condition `s == 15` of scenario 1. -/
def conditionHost : Host :=
  tableHost
    [("s == 15", Expr.BinaryExpr (Expr.Ident "s") Token.EQL (Expr.BasicLit LitKind.INT "15"))] []

/-- A host that parses the literal `5`. -/
def fiveHost : Host := tableHost [("5", Expr.BasicLit LitKind.INT "5")] []

/-- The number a text of decimal digits denotes, `none` when the text is
empty, has another character or denotes a number above `MaxUint64`: the
reading of an argument "as a decimal uint64 literal", in the words of the
specification and not of the source. -/
def readDecimal (t : String) : Option Nat :=
  if t.data.isEmpty || !t.data.all (fun c => decide (48 ≤ c.toNat ∧ c.toNat ≤ 57)) then none
  else if t.data.foldl (fun acc c => acc * 10 + (c.toNat - 48)) 0 ≤ MaxUint64 then
    some (t.data.foldl (fun acc c => acc * 10 + (c.toNat - 48)) 0)
  else none

/-- A host that parses the text `a == b` and nothing else. -/
def equalityHost : Host :=
  tableHost [("a == b", Expr.BinaryExpr (Expr.Ident "a") Token.EQL (Expr.Ident "b"))] []

/-- An interpreter whose locals `a`, `b` and `v` are `Uint64` variables
holding 1, 1 and 0. -/
def equalityLocals : DVM_Interpreter where
  ReturnValue := { Type_ := Vtype.Uint64 }
  Locals := [("a", { Name := "a", Type_ := Vtype.Uint64, Value := Value.u64 1 }),
             ("b", { Name := "b", Type_ := Vtype.Uint64, Value := Value.u64 1 }),
             ("v", { Name := "v", Type_ := Vtype.Uint64, Value := Value.u64 0 })]

/-- The four words `check_valid_type` accepts. -/
def typeWords : List String := ["Uint64", "String", "Address", "Blob"]

/-- The tokens `p1 T1 , … , pk Tk` of a parameter list. -/
def paramTokens : List (String × String) → List String
  | [] => []
  | [p] => [p.1, p.2]
  | p :: q :: rest => p.1 :: p.2 :: "," :: paramTokens (q :: rest)

/-- The parameters `(p1, T1), …, (pk, Tk)` as variables, in order. -/
def headerParams (ps : List (String × String)) : List Variable :=
  ps.map fun p => { Name := p.1, Type_ := check_valid_type p.2 }

/-- The function `Add` as its header `Function Add(a Uint64, b Uint64) Uint64`
opens it: no lines and a nil label table. -/
def addHeader : Function where
  Name := "Add"
  Params := [{ Name := "a", Type_ := Vtype.Uint64 }, { Name := "b", Type_ := Vtype.Uint64 }]
  ReturnValue := { Type_ := Vtype.Uint64 }

/-- The function `Add` with the line `10 DIM s as Uint64` in an allocated line
sequence and label table. -/
def addOneLine : Function :=
  { addHeader with
      Lines := [{ Label := "10", Code := "DIM s as Uint64" }]
      LabelMap := some [("10", 0)] }

/-- The tokens of the source `Function F(a Uint64, a String)` / `End Function`. -/
def repeatedParameter : List Tok :=
  [⟨1, "Function"⟩, ⟨1, "F"⟩, ⟨1, "("⟩, ⟨1, "a"⟩, ⟨1, "Uint64"⟩, ⟨1, ","⟩, ⟨1, "a"⟩,
   ⟨1, "String"⟩, ⟨1, ")"⟩, ⟨2, "End"⟩, ⟨2, "Function"⟩]

/-- The tokens of the source `Function F()` / `20 LET s = a + b` /
`End Function`. -/
def bodyLineTokens : List Tok :=
  [⟨1, "Function"⟩, ⟨1, "F"⟩, ⟨1, "("⟩, ⟨1, ")"⟩,
   ⟨2, "20"⟩, ⟨2, "LET"⟩, ⟨2, "s"⟩, ⟨2, "="⟩, ⟨2, "a"⟩, ⟨2, "+"⟩, ⟨2, "b"⟩,
   ⟨3, "End"⟩, ⟨3, "Function"⟩]

/-- Every parameter of the function has a valid name and a valid type. -/
def validParams (H : Host) (f : Function) : Prop :=
  ∀ p ∈ f.Params, check_valid_name H p.Name = true ∧ p.Type_ ≠ Vtype.Invalid

/-- The parameters of the functions of the contract and of the open function
are valid. -/
def validFunctions (H : Host) (SC : SmartContract) (function : Option Function) : Prop :=
  (∀ kv ∈ SC.Functions, validParams H kv.2) ∧ (∀ fn, function = some fn → validParams H fn)

theorem interpret_SmartContract_succ (H : Host) (call : CallFn) (fuel : Nat)
    (i : DVM_Interpreter) (newIP : Nat) :
    interpret_SmartContract H call (fuel + 1) i newIP =
      if (fetched i.State).Monitor_lines_interpreted > LIMIT_interpreted_lines then
        IRes.panic "lines interpreted, reached limit" (fetched i.State)
      else IRes.panic "runtime error: index out of range [0] with length 0" (fetched i.State) := by
  simp only [interpret_SmartContract, incrementIP, fetched]

theorem interpret_SmartContract_panics (H : Host) (call : CallFn) (fuel : Nat)
    (i : DVM_Interpreter) (newIP : Nat) :
    ∃ m, interpret_SmartContract H call (fuel + 1) i newIP = IRes.panic m (fetched i.State) := by
  rw [interpret_SmartContract_succ]
  split
  · exact ⟨_, rfl⟩
  · exact ⟨_, rfl⟩

theorem runSmartContract_internal_not_ok (H : Host) (fuel : Nat) (SC : SmartContract)
    (EntryPoint : String) (state : Shared_State) (params : List (String × Value))
    (r : Variable) (st : Shared_State) :
    runSmartContract_internal H fuel SC EntryPoint state params ≠ Res.ok (r, none) st := by
  cases fuel with
  | zero => simp [runSmartContract_internal]
  | succ n =>
    simp only [runSmartContract_internal]
    split
    · simp
    · split
      · simp
      · simp
      · rename_i locals _
        obtain ⟨m, hm⟩ := interpret_SmartContract_panics H (runSmartContract_internal H n) n
          { SC := SC, f := _, Locals := locals, ReturnValue := _, State := raiseRecursion state } 0
        simp only [] at hm
        rw [hm]
        simp

theorem bumpOps_lt (st : Shared_State) (h : st.Monitor_ops < 2 ^ 63 - 1) :
    st.Monitor_ops < (bumpOps st).Monitor_ops := by
  simp only [bumpOps, wrapInt64]
  norm_num
  omega

theorem metered_ok {st0 : Shared_State} {k : Shared_State → Res Value} {v : Value}
    {st' : Shared_State} (h : metered st0 k = Res.ok v st') :
    (bumpOps st0).Monitor_ops ≤ LIMIT_evals ∧ k (bumpOps st0) = Res.ok v st' := by
  unfold metered at h
  by_cases hc : (bumpOps st0).Monitor_ops > LIMIT_evals
  · simp [hc] at h
  · simp only [hc, if_false] at h
    exact ⟨not_lt.mp hc, h⟩

theorem Grows_of_bump {st0 st' : Shared_State} (hb : (bumpOps st0).Monitor_ops ≤ LIMIT_evals)
    (h : GrowsEq (bumpOps st0) st') : Grows st0 st' := by
  obtain ⟨h1, h2, h3⟩ := h
  obtain ⟨h4, h5⟩ := h3 hb
  refine ⟨by simpa [bumpOps] using h1, by simpa [bumpOps] using h2, h4, fun hlt => ?_⟩
  exact lt_of_lt_of_le (bumpOps_lt st0 hlt) h5

theorem GrowsEq_refl (st : Shared_State) : GrowsEq st st := ⟨rfl, rfl, fun h => ⟨h, le_refl _⟩⟩

theorem Grows.toEq {st st' : Shared_State} (h : Grows st st') : GrowsEq st st' := by
  obtain ⟨h1, h2, h3, h4⟩ := h
  refine ⟨h1, h2, fun hle => ⟨h3, ?_⟩⟩
  have : st.Monitor_ops < 2 ^ 63 - 1 := by
    simp only [LIMIT_evals] at hle
    norm_num
    omega
  exact le_of_lt (h4 this)

theorem GrowsEq.trans {a b c : Shared_State} (h1 : GrowsEq a b) (h2 : GrowsEq b c) :
    GrowsEq a c := by
  obtain ⟨a1, a2, a3⟩ := h1
  obtain ⟨b1, b2, b3⟩ := h2
  refine ⟨b1.trans a1, b2.trans a2, fun h => ?_⟩
  obtain ⟨x1, x2⟩ := a3 h
  obtain ⟨y1, y2⟩ := b3 x1
  exact ⟨y1, le_trans x2 y2⟩


theorem liftExcept_ok {st st' : Shared_State} {r : Except String Value} {v : Value}
    (h : liftExcept st r = Res.ok v st') : st' = st ∧ r = Except.ok v := by
  cases r with
  | error e => simp [liftExcept] at h
  | ok w =>
    simp only [liftExcept, Res.ok.injEq] at h
    exact ⟨h.2.symm, by rw [h.1]⟩

mutual

theorem eval_counters (H : Host) (fuel : Nat) (dvm : DVM_Interpreter) :
    (e : Expr) → (v : Value) → (st' : Shared_State) →
      eval H (runSmartContract_internal H fuel) dvm e = Res.ok v st' → Grows dvm.State st'
  | Expr.ParenExpr X, v, st', h => by
    rw [eval] at h
    obtain ⟨hb, hk⟩ := metered_ok h
    exact Grows_of_bump hb (eval_counters H fuel _ X v st' hk).toEq
  | Expr.UnaryExpr Op X, v, st', h => by
    rw [eval] at h
    obtain ⟨hb, hk⟩ := metered_ok h
    refine Grows_of_bump hb ?_
    have IH := fun v1 s1 hh =>
      (eval_counters H fuel { dvm with State := bumpOps dvm.State } X v1 s1 hh).toEq
    revert hk
    split
    · split
      · rename_i heq
        intro hk
        simp only [Res.ok.injEq] at hk
        rw [← hk.2]
        exact IH _ _ heq
      · simp
      · simp
      · simp
    · split
      · rename_i heq
        intro hk
        simp only [Res.ok.injEq] at hk
        rw [← hk.2]
        exact IH _ _ heq
      · rename_i heq
        intro hk
        simp only [Res.ok.injEq] at hk
        rw [← hk.2]
        exact IH _ _ heq
      · simp
      · simp
      · simp
    · simp
  | Expr.BinaryExpr X Op Y, v, st', h => by
    rw [eval] at h
    obtain ⟨hb, hk⟩ := metered_ok h
    refine Grows_of_bump hb ?_
    revert hk
    split
    · rename_i left st1 heq1
      split
      · rename_i right st2 heq2
        intro hk
        obtain ⟨hs, _⟩ := liftExcept_ok hk
        rw [hs]
        exact (eval_counters H fuel _ X _ _ heq1).toEq.trans
          (eval_counters H fuel _ Y _ _ heq2).toEq
      · simp
      · simp
    · simp
    · simp
  | Expr.Ident Name, v, st', h => by
    rw [eval] at h
    obtain ⟨hb, hk⟩ := metered_ok h
    refine Grows_of_bump hb ?_
    revert hk
    split
    · simp
    · intro hk
      simp only [Res.ok.injEq] at hk
      rw [← hk.2]
      exact GrowsEq_refl _
  | Expr.CallExpr Fun Args, v, st', h => by
    rw [eval] at h
    obtain ⟨hb, hk⟩ := metered_ok h
    refine Grows_of_bump hb ?_
    revert hk
    split
    · split
      · intro hk
        exact Handle_Internal_Function_counters H fuel _ _ Args [] v st' hk
      · split
        · simp
        · split
          · simp
          · split
            · split
              · simp
              · rename_i heq
                exact absurd heq (runSmartContract_internal_not_ok H fuel _ _ _ _ _ _)
              · simp
              · simp
            · simp
            · simp
    · simp
  | Expr.BasicLit Kind text, v, st', h => by
    rw [eval] at h
    obtain ⟨hb, hk⟩ := metered_ok h
    refine Grows_of_bump hb ?_
    revert hk
    split
    · split
      · intro hk
        simp only [Res.ok.injEq] at hk
        rw [← hk.2]
        exact GrowsEq_refl _
      · simp
    · split
      · intro hk
        simp only [Res.ok.injEq] at hk
        rw [← hk.2]
        exact GrowsEq_refl _
      · simp
    · simp
  | Expr.Other text, v, st', h => by
    rw [eval] at h
    obtain ⟨_, hk⟩ := metered_ok h
    simp at hk

theorem Handle_Internal_Function_counters (H : Host) (fuel : Nat) (dvm : DVM_Interpreter)
    (internal : List Value → Shared_State → Except String (Value × HostEffects)) :
    (es : List Expr) → (vals : List Value) → (v : Value) → (st' : Shared_State) →
      Handle_Internal_Function H (runSmartContract_internal H fuel) dvm internal es vals
        = Res.ok v st' →
      GrowsEq dvm.State st'
  | [], vals, v, st', h => by
    rw [Handle_Internal_Function] at h
    revert h
    split
    · intro h
      simp only [Res.ok.injEq] at h
      rw [← h.2]
      exact GrowsEq_refl _
    · simp
  | a :: as, vals, v, st', h => by
    rw [Handle_Internal_Function] at h
    revert h
    split
    · rename_i v1 st1 heq1
      intro h
      exact (eval_counters H fuel dvm a _ _ heq1).toEq.trans
        (Handle_Internal_Function_counters H fuel _ internal as _ _ _ h)
    · simp
    · simp

end


theorem RunSmartContract_not_exported (H : Host) (fuel : Nat) (SC : SmartContract)
    (EntryPoint : String) (state : Shared_State) (params : List (String × Value))
    (h : exportedName H EntryPoint = false) :
    ∃ e, RunSmartContract H fuel SC EntryPoint state params = Res.ok ({}, some e) state := by
  unfold exportedName at h
  unfold RunSmartContract RunSmartContract_body
  simp only []
  by_cases h1 : (DecodeRuneInString EntryPoint).1 = RuneError ∨ (DecodeRuneInString EntryPoint).2 = 0
  · exact ⟨_, by rw [if_pos h1]; rfl⟩
  · rw [if_neg h1]
    by_cases h2 : (DecodeRuneInString EntryPoint).1 ≥ MaxASCII
    · exact ⟨_, by rw [if_pos h2]; rfl⟩
    · rw [if_neg h2]
      by_cases h3 : (!IsLetter H (DecodeRuneInString EntryPoint).1) = true
      · exact ⟨_, by rw [if_pos h3]; rfl⟩
      · rw [if_neg h3]
        by_cases h4 : (!IsUpper H (DecodeRuneInString EntryPoint).1) = true
        · exact ⟨_, by rw [if_pos h4]; rfl⟩
        · exfalso
          simp only [Bool.not_eq_true, Bool.not_eq_false'] at h3 h4
          simp [h1, h2, h3, h4] at h

theorem RunSmartContract_exported (H : Host) (fuel : Nat) (SC : SmartContract)
    (EntryPoint : String) (state : Shared_State) (params : List (String × Value))
    (h : exportedName H EntryPoint = true) :
    RunSmartContract_body H fuel SC EntryPoint state params =
      match entryState H state with
      | Except.error m => Res.panic m state
      | Except.ok state1 =>
        match runSmartContract_internal H fuel SC EntryPoint state1 params with
        | Res.ok (result, some e) st => Res.ok (result, some e) st
        | Res.ok (result, none) st =>
          if st.Monitor_recursion ≠ 0 then Res.ok (result, some "Invalid  recursion level") st
          else Res.ok (result, none) st
        | Res.panic m st => Res.panic m st
        | Res.timeout => Res.timeout := by
  unfold exportedName at h
  simp only [Bool.and_eq_true, Bool.not_eq_true', decide_eq_false_iff_not] at h
  obtain ⟨⟨⟨h1, h2⟩, h3⟩, h4⟩ := h
  unfold RunSmartContract_body entryState
  simp only []
  rw [if_neg h1, if_neg h2]
  simp only [h3, h4, Bool.not_true, Bool.false_eq_true, if_false]

/-- What `runSmartContract_internal` yields with fuel left: an error with the
state untouched, a panic with the state untouched, or, the body entered, the
panic of the first line fetch. -/
theorem runSmartContract_internal_succ (H : Host) (fuel : Nat) (SC : SmartContract)
    (EntryPoint : String) (state : Shared_State) (params : List (String × Value)) :
    (∃ e, runSmartContract_internal H (fuel + 1) SC EntryPoint state params
        = Res.ok ({}, some e) state)
    ∨ (∃ m, runSmartContract_internal H (fuel + 1) SC EntryPoint state params
        = Res.panic m state)
    ∨ (∃ m, runSmartContract_internal H (fuel + 1) SC EntryPoint state params
        = Res.panic m (fetched (raiseRecursion state))) := by
  simp only [runSmartContract_internal]
  split
  · exact Or.inl ⟨_, rfl⟩
  · split
    · exact Or.inr (Or.inl ⟨_, rfl⟩)
    · exact Or.inl ⟨_, rfl⟩
    · rename_i locals _
      obtain ⟨m, hm⟩ := interpret_SmartContract_panics H (runSmartContract_internal H fuel) fuel
        { SC := SC, f := _, Locals := locals, ReturnValue := _, State := raiseRecursion state } 0
      simp only [] at hm
      rw [hm]
      exact Or.inr (Or.inr ⟨_, rfl⟩)

/-- With fuel left, `RunSmartContract` returns an error and the zero
`Variable`, whatever it is called with. -/
theorem RunSmartContract_returns (H : Host) (fuel : Nat) (SC : SmartContract)
    (EntryPoint : String) (state : Shared_State) (params : List (String × Value)) :
    ∃ e st', RunSmartContract H (fuel + 1) SC EntryPoint state params
      = Res.ok ({}, some e) st' := by
  cases hx : exportedName H EntryPoint with
  | false =>
    obtain ⟨e, he⟩ := RunSmartContract_not_exported H (fuel + 1) SC EntryPoint state params hx
    exact ⟨e, state, he⟩
  | true =>
    unfold RunSmartContract
    rw [RunSmartContract_exported H (fuel + 1) SC EntryPoint state params hx]
    cases hs : entryState H state with
    | error m => exact ⟨_, _, rfl⟩
    | ok st1 =>
      simp only []
      rcases runSmartContract_internal_succ H fuel SC EntryPoint st1 params with
        ⟨e, he⟩ | ⟨m, hm⟩ | ⟨m, hm⟩
      · rw [he]; exact ⟨_, _, rfl⟩
      · rw [hm]; exact ⟨_, _, rfl⟩
      · rw [hm]; exact ⟨_, _, rfl⟩

theorem latin1Upper_ascii (r : Nat) (h : latin1Upper r = true) (hr : ¬ r ≥ MaxASCII) :
    65 ≤ r ∧ r ≤ 90 := by
  unfold latin1Upper at h
  unfold MaxASCII at hr
  simp only [Bool.or_eq_true, Bool.and_eq_true, decide_eq_true_eq] at h
  omega

theorem exportedName_false_of_first (H : Host) (EntryPoint : String)
    (h : ∀ c rest, EntryPoint.data = c :: rest → ¬ (65 ≤ c.toNat ∧ c.toNat ≤ 90)) :
    exportedName H EntryPoint = false := by
  cases hx : exportedName H EntryPoint with
  | false => rfl
  | true =>
    exfalso
    unfold exportedName at hx
    simp only [Bool.and_eq_true, Bool.not_eq_true', decide_eq_false_iff_not] at hx
    obtain ⟨⟨⟨h1, h2⟩, _⟩, h4⟩ := hx
    unfold DecodeRuneInString at h1 h2 h4
    cases hd : EntryPoint.data with
    | nil => rw [hd] at h1; simp at h1
    | cons c rest =>
      rw [hd] at h2 h4
      simp only [] at h2 h4
      have hlt : c.toNat ≤ 0xFF := by unfold MaxASCII at h2; omega
      unfold IsUpper at h4
      rw [if_pos hlt] at h4
      exact h c rest hd (latin1Upper_ascii _ h4 h2)

theorem eval_binary (H : Host) (call : CallFn) (dvm : DVM_Interpreter) (X Y : Expr)
    (Op : Token) (l r : Value) (st1 st2 : Shared_State)
    (hm : (bumpOps dvm.State).Monitor_ops ≤ LIMIT_evals)
    (hX : eval H call { dvm with State := bumpOps dvm.State } X = Res.ok l st1)
    (hY : eval H call { dvm with State := st1 } Y = Res.ok r st2) :
    eval H call dvm (Expr.BinaryExpr X Op Y) = liftExcept st2 (binaryOp Op l r) := by
  rw [eval]
  unfold metered
  simp only [not_lt.mpr hm, if_false]
  rw [hX]
  simp only []
  rw [hY]

theorem sub_wrap (a b : Nat) :
    (a + 2 ^ 64 - b % 2 ^ 64) % 2 ^ 64 = (((a : Int) - (b : Int)) % 2 ^ 64).toNat := by
  norm_num
  omega

/-- C1 (code defect). The source of function `Add` is not accepted: on its
first body line `parse_function_line` writes to the label map of a function
whose map was never made, and `ParseSmartContract` returns the recovered
panic. Run on the function written out by hand, `Add(7, 8)` and `Add(1, 2)`
both return the error of the first line fetch, whose line is empty, and no
value. -/
theorem C1_add_scenario_fails (H : Host) (fuel : Nat) :
    (ParseSmartContract H addTokens).2
        = some "Recovered in function assignment to entry in nil map"
    ∧ RunSmartContract H (fuel + 1) addContract "Add" freshState
          [("a", Value.str "7"), ("b", Value.str "8")]
        = Res.ok ({}, some
            "Recovered in function runtime error: index out of range [0] with length 0")
            { freshState with RND := some (H.Initialize_RND 0 0 0), DERO_Transfer := some [],
                              Monitor_recursion := 1, Monitor_lines_interpreted := 1 }
    ∧ RunSmartContract H (fuel + 1) addContract "Add" freshState
          [("a", Value.str "1"), ("b", Value.str "2")]
        = Res.ok ({}, some
            "Recovered in function runtime error: index out of range [0] with length 0")
            { freshState with RND := some (H.Initialize_RND 0 0 0), DERO_Transfer := some [],
                              Monitor_recursion := 1, Monitor_lines_interpreted := 1 } :=
  ⟨rfl, rfl, rfl⟩

/-- C2. When the first character of the entry point is not one of the ASCII
capitals `A`..`Z` (the empty name included), `RunSmartContract` returns an
error and the shared state is exactly the one it was given. -/
theorem C2_export_check (H : Host) (fuel : Nat) (SC : SmartContract) (EntryPoint : String)
    (state : Shared_State) (params : List (String × Value))
    (h : ∀ c rest, EntryPoint.data = c :: rest → ¬ (65 ≤ c.toNat ∧ c.toNat ≤ 90)) :
    ∃ e, RunSmartContract H fuel SC EntryPoint state params = Res.ok ({}, some e) state :=
  RunSmartContract_not_exported H fuel SC EntryPoint state params
    (exportedName_false_of_first H EntryPoint h)

/-- C2 at the lower-case entry point `add` of scenario 4. -/
theorem C2_export_check_witness :
    (∀ c rest, "add".data = c :: rest → ¬ (65 ≤ c.toNat ∧ c.toNat ≤ 90))
    ∧ ∃ e, RunSmartContract demoHost 5 addContract "add" freshState
        [("a", Value.str "7"), ("b", Value.str "8")] = Res.ok ({}, some e) freshState :=
  ⟨by intro c rest h; cases h; decide,
   C2_export_check demoHost 5 addContract "add" freshState _
     (by intro c rest h; cases h; decide)⟩

/-- C3. With fuel left `RunSmartContract` returns a pair of result and
error, never a panic, and every panic of its body is returned as the error
`Recovered in function ...` beside the zero result. -/
theorem C3_failure_trap (H : Host) (fuel : Nat) (SC : SmartContract) (EntryPoint : String)
    (state : Shared_State) (params : List (String × Value)) :
    (∃ r e st', RunSmartContract H (fuel + 1) SC EntryPoint state params = Res.ok (r, e) st')
    ∧ (∀ m st', RunSmartContract_body H (fuel + 1) SC EntryPoint state params = Res.panic m st' →
        RunSmartContract H (fuel + 1) SC EntryPoint state params
          = Res.ok ({}, some ("Recovered in function " ++ m)) st') := by
  constructor
  · obtain ⟨e, st', h⟩ := RunSmartContract_returns H fuel SC EntryPoint state params
    exact ⟨_, _, _, h⟩
  · intro m st' h
    unfold RunSmartContract
    rw [h]
    rfl

/-- C3 at a run of `Bad`: the panic of the body and the error it becomes. -/
theorem C3_failure_trap_witness :
    RunSmartContract_body demoHost 1 badContract "Bad" freshState []
        = Res.panic "runtime error: index out of range [0] with length 0"
            { freshState with RND := some ⟨(0, 0, 0)⟩, DERO_Transfer := some [],
                              Monitor_recursion := 1, Monitor_lines_interpreted := 1 }
    ∧ RunSmartContract demoHost 1 badContract "Bad" freshState []
        = Res.ok ({}, some
            "Recovered in function runtime error: index out of range [0] with length 0")
            { freshState with RND := some ⟨(0, 0, 0)⟩, DERO_Transfer := some [],
                              Monitor_recursion := 1, Monitor_lines_interpreted := 1 } :=
  ⟨by decide, (C3_failure_trap demoHost 0 badContract "Bad" freshState []).2 _ _ (by decide)⟩

/-- No test of the depth precedes an intra-contract call in `eval`: at depth
64 the call raises the depth to 65 and enters the callee, whose first line is
fetched before the call fails on the empty line. -/
theorem eval_call_enters_callee (fuel : Nat) :
    eval demoHost (runSmartContract_internal demoHost (fuel + 1))
        { SC := deepContract, f := deepFunction, State := { Monitor_recursion := 64 } }
        (Expr.CallExpr (Expr.Ident "Deep") [])
      = Res.panic "runtime error: index out of range [0] with length 0"
          { Monitor_recursion := 65, Monitor_lines_interpreted := 1, Monitor_ops := 1 } :=
  rfl

/-- C6 (code defect). Each line fetch raises the line counter by one, but the
fetched line is empty and the loop panics on it: from a line counter of 0 the
tight loop `10 GOTO 10` fails at its first line fetch, the counter at 1, with
an index error and not with the meter's panic. -/
theorem C6_line_meter_first_fetch (H : Host) (fuel : Nat) :
    (∀ (i : DVM_Interpreter) (n : Nat),
        (incrementIP i n).1.State.Monitor_lines_interpreted
          = wrapInt64 (i.State.Monitor_lines_interpreted + 1))
    ∧ RunSmartContract H (fuel + 1) loopContract "Loop" freshState []
        = Res.ok ({}, some
            "Recovered in function runtime error: index out of range [0] with length 0")
            { freshState with RND := some (H.Initialize_RND 0 0 0), DERO_Transfer := some [],
                              Monitor_recursion := 1, Monitor_lines_interpreted := 1 } :=
  ⟨fun _ _ => rfl, rfl⟩

/-- C7, counterexample. With the operation counter at the largest `int64`,
evaluating the literal `1` returns a value and leaves the counter at the
smallest `int64`: the counter is not larger after every evaluation that
returns a value. -/
theorem C7_counterexample :
    eval demoHost (runSmartContract_internal demoHost 1)
        { State := { Monitor_ops := 9223372036854775807 } } (Expr.BasicLit LitKind.INT "1")
      = Res.ok (Value.u64 1) { Monitor_ops := -9223372036854775808 }
    ∧ ¬ (∀ (H : Host) (fuel : Nat) (dvm : DVM_Interpreter) (e : Expr) (v : Value)
          (st' : Shared_State),
          eval H (runSmartContract_internal H fuel) dvm e = Res.ok v st' →
          dvm.State.Monitor_ops < st'.Monitor_ops ∧ st'.Monitor_ops ≤ LIMIT_evals) := by
  have hc : eval demoHost (runSmartContract_internal demoHost 1)
      { State := { Monitor_ops := 9223372036854775807 } } (Expr.BasicLit LitKind.INT "1")
      = Res.ok (Value.u64 1) { Monitor_ops := -9223372036854775808 } := by
    decide
  refine ⟨hc, fun h => ?_⟩
  have h1 := (h demoHost 1 { State := { Monitor_ops := 9223372036854775807 } }
    (Expr.BasicLit LitKind.INT "1") _ _ hc).1
  exact absurd h1 (by decide)

/-- C7, amended. `eval` first increments the operation counter and panics,
having done nothing else, when the counter is then above `LIMIT_evals`; and
whenever `eval` returns a value from a counter that was not the largest
`int64`, the counter is strictly larger than before the call and at most
`LIMIT_evals`. -/
theorem C7_operation_meter (H : Host) (fuel : Nat) (dvm : DVM_Interpreter) (e : Expr) :
    (∀ call : CallFn, (bumpOps dvm.State).Monitor_ops > LIMIT_evals →
        eval H call dvm e
          = Res.panic "lines interpreted, evals reached limit" (bumpOps dvm.State))
    ∧ (∀ v st', eval H (runSmartContract_internal H fuel) dvm e = Res.ok v st' →
        dvm.State.Monitor_ops < 2 ^ 63 - 1 →
        dvm.State.Monitor_ops < st'.Monitor_ops ∧ st'.Monitor_ops ≤ LIMIT_evals) := by
  constructor
  · intro call h
    cases e <;> (rw [eval]; unfold metered; simp only [h, if_true])
  · intro v st' h hlt
    obtain ⟨_, _, h3, h4⟩ := eval_counters H fuel dvm e v st' h
    exact ⟨h4 hlt, h3⟩

/-- C7 at the last evaluation the meter allows, from 10999 to 11000. -/
theorem C7_operation_meter_witness :
    eval demoHost (runSmartContract_internal demoHost 1) { State := { Monitor_ops := 10999 } }
        (Expr.BasicLit LitKind.INT "1") = Res.ok (Value.u64 1) { Monitor_ops := 11000 }
    ∧ (10999 : Int) < 2 ^ 63 - 1
    ∧ ((10999 : Int) < 11000 ∧ (11000 : Int) ≤ LIMIT_evals) :=
  ⟨by decide, by decide,
   (C7_operation_meter demoHost 1 { State := { Monitor_ops := 10999 } }
      (Expr.BasicLit LitKind.INT "1")).2 (Value.u64 1) { Monitor_ops := 11000 }
      (by decide) (by decide)⟩

/-- C8 (code defect). The line fetch does not resolve labels: `incrementIP`
returns the same for every target, whatever the label table, and the line it
returns is empty; so after `10 GOTO 30` no line is fetched at the index of
label 30: the call of `Jump` has already failed on its first fetch. -/
theorem C8_fetch_ignores_target (H : Host) (fuel : Nat) :
    (∀ (i : DVM_Interpreter) (n m : Nat), incrementIP i n = incrementIP i m)
    ∧ (∀ (i : DVM_Interpreter) (n : Nat), (incrementIP i n).2 = ([], none))
    ∧ RunSmartContract H (fuel + 1) jumpContract "Jump" freshState []
        = Res.ok ({}, some
            "Recovered in function runtime error: index out of range [0] with length 0")
            { freshState with RND := some (H.Initialize_RND 0 0 0), DERO_Transfer := some [],
                              Monitor_recursion := 1, Monitor_lines_interpreted := 1 } :=
  ⟨fun _ _ _ => rfl, fun _ _ => rfl, rfl⟩

/-- C9. On two `uint64` operands the operators `+`, `-` and `*` return the
sum, difference and product reduced modulo `2 ^ 64`, and never panic; so does
the evaluation of a binary expression whose operands evaluate to `a` and `b`
(the counter being within its limit on entry). -/
theorem C9_wrapping_arithmetic (H : Host) (call : CallFn) (dvm : DVM_Interpreter)
    (X Y : Expr) (a b : Nat) (st1 st2 : Shared_State)
    (hm : (bumpOps dvm.State).Monitor_ops ≤ LIMIT_evals)
    (hX : eval H call { dvm with State := bumpOps dvm.State } X = Res.ok (Value.u64 a) st1)
    (hY : eval H call { dvm with State := st1 } Y = Res.ok (Value.u64 b) st2) :
    (binaryOp Token.ADD (Value.u64 a) (Value.u64 b) = Except.ok (Value.u64 ((a + b) % 2 ^ 64))
      ∧ binaryOp Token.SUB (Value.u64 a) (Value.u64 b)
          = Except.ok (Value.u64 (((a : Int) - (b : Int)) % 2 ^ 64).toNat)
      ∧ binaryOp Token.MUL (Value.u64 a) (Value.u64 b)
          = Except.ok (Value.u64 ((a * b) % 2 ^ 64)))
    ∧ eval H call dvm (Expr.BinaryExpr X Token.ADD Y)
        = Res.ok (Value.u64 ((a + b) % 2 ^ 64)) st2
    ∧ eval H call dvm (Expr.BinaryExpr X Token.SUB Y)
        = Res.ok (Value.u64 (((a : Int) - (b : Int)) % 2 ^ 64).toNat) st2
    ∧ eval H call dvm (Expr.BinaryExpr X Token.MUL Y)
        = Res.ok (Value.u64 ((a * b) % 2 ^ 64)) st2 := by
  have hadd : binaryOp Token.ADD (Value.u64 a) (Value.u64 b)
      = Except.ok (Value.u64 ((a + b) % 2 ^ 64)) := by
    simp [binaryOp, typeName, binaryUint64]
  have hsub : binaryOp Token.SUB (Value.u64 a) (Value.u64 b)
      = Except.ok (Value.u64 (((a : Int) - (b : Int)) % 2 ^ 64).toNat) := by
    rw [← sub_wrap]
    simp [binaryOp, typeName, binaryUint64]
  have hmul : binaryOp Token.MUL (Value.u64 a) (Value.u64 b)
      = Except.ok (Value.u64 ((a * b) % 2 ^ 64)) := by
    simp [binaryOp, typeName, binaryUint64]
  refine ⟨⟨hadd, hsub, hmul⟩, ?_, ?_, ?_⟩
  · rw [eval_binary H call dvm X Y _ _ _ st1 st2 hm hX hY, hadd]; rfl
  · rw [eval_binary H call dvm X Y _ _ _ st1 st2 hm hX hY, hsub]; rfl
  · rw [eval_binary H call dvm X Y _ _ _ st1 st2 hm hX hY, hmul]; rfl

/-- C9 at `3 - 5`, which wraps to `2 ^ 64 - 2`. -/
theorem C9_wrapping_arithmetic_witness :
    eval demoHost (runSmartContract_internal demoHost 1) {}
        (Expr.BinaryExpr (Expr.BasicLit LitKind.INT "3") Token.SUB
          (Expr.BasicLit LitKind.INT "5"))
      = Res.ok (Value.u64 (((3 : Int) - (5 : Int)) % 2 ^ 64).toNat) { Monitor_ops := 3 } :=
  (C9_wrapping_arithmetic demoHost (runSmartContract_internal demoHost 1) {}
    (Expr.BasicLit LitKind.INT "3") (Expr.BasicLit LitKind.INT "5") 3 5
    { Monitor_ops := 2 } { Monitor_ops := 3 } (by decide) (by decide) (by decide)).2.2.1

/-- C10. On `uint64` operands `/` and `%` with a zero divisor do not return:
they panic with `integer divide by zero`, and so does the evaluation of a
binary expression whose right operand evaluates to 0. A run of the function
`Bad` (`10 DIM z as Uint64`, `20 RETURN 5 / z`) returns an error beside the
zero result. -/
theorem C10_division_by_zero (H : Host) (call : CallFn) (dvm : DVM_Interpreter)
    (X Y : Expr) (a : Nat) (st1 st2 : Shared_State)
    (hm : (bumpOps dvm.State).Monitor_ops ≤ LIMIT_evals)
    (hX : eval H call { dvm with State := bumpOps dvm.State } X = Res.ok (Value.u64 a) st1)
    (hY : eval H call { dvm with State := st1 } Y = Res.ok (Value.u64 0) st2) :
    (binaryOp Token.QUO (Value.u64 a) (Value.u64 0)
        = Except.error "runtime error: integer divide by zero"
      ∧ binaryOp Token.REM (Value.u64 a) (Value.u64 0)
        = Except.error "runtime error: integer divide by zero")
    ∧ eval H call dvm (Expr.BinaryExpr X Token.QUO Y)
        = Res.panic "runtime error: integer divide by zero" st2
    ∧ eval H call dvm (Expr.BinaryExpr X Token.REM Y)
        = Res.panic "runtime error: integer divide by zero" st2
    ∧ (∀ (fuel : Nat) (state : Shared_State) (params : List (String × Value)),
        ∃ e st', RunSmartContract H (fuel + 1) badContract "Bad" state params
          = Res.ok ({}, some e) st') := by
  have hq : binaryOp Token.QUO (Value.u64 a) (Value.u64 0)
      = Except.error "runtime error: integer divide by zero" := by
    simp [binaryOp, typeName, binaryUint64]
  have hr : binaryOp Token.REM (Value.u64 a) (Value.u64 0)
      = Except.error "runtime error: integer divide by zero" := by
    simp [binaryOp, typeName, binaryUint64]
  refine ⟨⟨hq, hr⟩, ?_, ?_, ?_⟩
  · rw [eval_binary H call dvm X Y _ _ _ st1 st2 hm hX hY, hq]; rfl
  · rw [eval_binary H call dvm X Y _ _ _ st1 st2 hm hX hY, hr]; rfl
  · intro fuel state params
    exact RunSmartContract_returns H fuel badContract "Bad" state params

/-- C10 at `5 / z` with the local `z` holding 0. -/
theorem C10_division_by_zero_witness :
    eval demoHost (runSmartContract_internal demoHost 1)
        { Locals := [("z", { Name := "z", Type_ := Vtype.Uint64, Value := Value.u64 0 })] }
        (Expr.BinaryExpr (Expr.BasicLit LitKind.INT "5") Token.QUO (Expr.Ident "z"))
      = Res.panic "runtime error: integer divide by zero" { Monitor_ops := 3 } :=
  (C10_division_by_zero demoHost (runSmartContract_internal demoHost 1)
    { Locals := [("z", { Name := "z", Type_ := Vtype.Uint64, Value := Value.u64 0 })] }
    (Expr.BasicLit LitKind.INT "5") (Expr.Ident "z") 5
    { Monitor_ops := 2 } { Monitor_ops := 3 } (by decide) (by decide) (by decide)).2.1

/-! ## Evaluation of call-free expressions -/

theorem bumpOps_eq (st : Shared_State) (h1 : -2 ^ 63 ≤ st.Monitor_ops)
    (h2 : st.Monitor_ops + 1 ≤ LIMIT_evals) : bumpOps st = addOps st 1 := by
  unfold bumpOps addOps wrapInt64
  unfold LIMIT_evals at h2
  have : (st.Monitor_ops + 1 + 2 ^ 63) % 2 ^ 64 - 2 ^ 63 = st.Monitor_ops + ((1 : Nat) : Int) := by
    norm_num at h1 ⊢
    omega
  rw [this]

theorem addOps_addOps (st : Shared_State) (a b : Nat) :
    addOps (addOps st a) b = addOps st (a + b) := by
  unfold addOps
  simp only [Nat.cast_add, add_assoc]

theorem metered_eq (st : Shared_State) (k : Shared_State → Res Value)
    (h1 : -2 ^ 63 ≤ st.Monitor_ops) (h2 : st.Monitor_ops + 1 ≤ LIMIT_evals) :
    metered st k = k (addOps st 1) := by
  unfold metered
  rw [bumpOps_eq st h1 h2]
  have : ¬ (addOps st 1).Monitor_ops > LIMIT_evals := by
    simp only [addOps, Nat.cast_one]
    exact not_lt.mpr h2
  simp only [this, if_false]

theorem eval_pure (H : Host) (call : CallFn) :
    (e : Expr) → (dvm : DVM_Interpreter) → (v : Value) →
      pureEval H dvm.Locals e = some v → -2 ^ 63 ≤ dvm.State.Monitor_ops →
      dvm.State.Monitor_ops + nodes e ≤ LIMIT_evals →
      eval H call dvm e = Res.ok v (addOps dvm.State (nodes e))
  | Expr.ParenExpr X, dvm, v, hp, h1, h2 => by
    simp only [nodes, Nat.cast_add, Nat.cast_one] at h2
    rw [eval, metered_eq _ _ h1 (by have := Int.natCast_nonneg (nodes X); omega)]
    rw [pureEval] at hp
    have ih := eval_pure H call X { dvm with State := addOps dvm.State 1 } v hp
      (by simp only [addOps]; omega) (by simp only [addOps, Nat.cast_one]; omega)
    rw [ih]
    simp only [nodes, addOps_addOps, Nat.add_comm]
  | Expr.UnaryExpr Op X, dvm, v, hp, h1, h2 => by
    simp only [nodes, Nat.cast_add, Nat.cast_one] at h2
    rw [eval, metered_eq _ _ h1 (by have := Int.natCast_nonneg (nodes X); omega)]
    have ih := fun w hw => eval_pure H call X { dvm with State := addOps dvm.State 1 } w hw
      (by simp only [addOps]; omega) (by simp only [addOps, Nat.cast_one]; omega)
    simp only [nodes, addOps_addOps, Nat.add_comm 1] at ih ⊢
    cases Op
    case XOR =>
      simp only [pureEval] at hp
      split at hp
      · rename_i heq
        rw [ih _ heq]
        simp only [Option.some.injEq] at hp
        simp only [hp]
      · simp at hp
    case NOT =>
      simp only [pureEval] at hp
      split at hp
      · rename_i heq
        rw [ih _ heq]
        simp only [Option.some.injEq] at hp
        simp only [hp]
      · rename_i heq
        rw [ih _ heq]
        simp only [Option.some.injEq] at hp
        simp only [hp]
      · simp at hp
    all_goals (simp [pureEval] at hp)
  | Expr.BinaryExpr X Op Y, dvm, v, hp, h1, h2 => by
    simp only [nodes, Nat.cast_add, Nat.cast_one] at h2
    have hx := Int.natCast_nonneg (nodes X)
    have hy := Int.natCast_nonneg (nodes Y)
    rw [pureEval] at hp
    split at hp
    · rename_i l hl
      split at hp
      · rename_i r hr
        have ihx := eval_pure H call X { dvm with State := addOps dvm.State 1 } l hl
          (by simp only [addOps]; omega) (by simp only [addOps, Nat.cast_one]; omega)
        have ihy := eval_pure H call Y
          { dvm with State := addOps (addOps dvm.State 1) (nodes X) } r hr
          (by simp only [addOps]; omega) (by simp only [addOps, Nat.cast_one]; omega)
        dsimp only at ihx ihy
        rw [eval, metered_eq _ _ h1 (by omega), ihx]
        dsimp only
        rw [ihy]
        dsimp only
        split at hp
        · rename_i w hw
          simp only [Option.some.injEq] at hp
          rw [hw, ← hp]
          simp only [liftExcept, nodes, addOps_addOps]
          congr 2
          omega
        · simp at hp
      · simp at hp
    · simp at hp
  | Expr.Ident Name, dvm, v, hp, h1, h2 => by
    simp only [nodes, Nat.cast_one] at h2
    rw [eval, metered_eq _ _ h1 h2]
    rw [pureEval] at hp
    split at hp
    · rename_i w hw
      simp only [Option.some.injEq] at hp
      simp only [hw, hp, nodes]
    · simp at hp
  | Expr.BasicLit Kind text, dvm, v, hp, h1, h2 => by
    simp only [nodes, Nat.cast_one] at h2
    rw [eval, metered_eq _ _ h1 h2]
    cases Kind
    case INT =>
      simp only [pureEval] at hp
      split at hp
      · rename_i i hi
        simp only [Option.some.injEq] at hp
        simp only [hi, hp, nodes]
      · simp at hp
    case STRING =>
      simp only [pureEval] at hp
      split at hp
      · rename_i u hu
        simp only [Option.some.injEq] at hp
        simp only [hu, hp, nodes]
      · simp at hp
    all_goals (simp [pureEval] at hp)
  | Expr.CallExpr Fun Args, dvm, v, hp, _, _ => by simp [pureEval] at hp
  | Expr.Other text, dvm, v, hp, _, _ => by simp [pureEval] at hp


theorem divmod_wrap (a b : Nat) (ha : a < 2 ^ 64) :
    (a / b * b % 2 ^ 64 + a % b) % 2 ^ 64 = a := by
  have h1 : a / b * b ≤ a := Nat.div_mul_le_self a b
  have h2 : a / b * b + a % b = a := Nat.div_add_mod' a b
  rw [Nat.mod_eq_of_lt (lt_of_le_of_lt h1 ha), h2, Nat.mod_eq_of_lt ha]

/-- C11. For `uint64` values `a` and `b` with `b ≠ 0` the operators give
`q = a / b` and `r = a % b`, the wrapping `q * b + r` is `a`, and the
expression `(x / y) * y + (x % y) == x` over locals holding `a` and `b`
evaluates to 1 (the operation counter having room for its 13 nodes). -/
theorem C11_division_remainder_identity (H : Host) (call : CallFn) (dvm : DVM_Interpreter)
    (x y : String) (vx vy : Variable) (a b : Nat) (ha : a < 2 ^ 64) (hb : b ≠ 0)
    (hx : mapGet dvm.Locals x = some vx) (hvx : vx.Value = Value.u64 a)
    (hy : mapGet dvm.Locals y = some vy) (hvy : vy.Value = Value.u64 b)
    (h1 : -2 ^ 63 ≤ dvm.State.Monitor_ops) (h2 : dvm.State.Monitor_ops + 13 ≤ LIMIT_evals) :
    (binaryOp Token.QUO (Value.u64 a) (Value.u64 b) = Except.ok (Value.u64 (a / b))
      ∧ binaryOp Token.REM (Value.u64 a) (Value.u64 b) = Except.ok (Value.u64 (a % b))
      ∧ binaryOp Token.MUL (Value.u64 (a / b)) (Value.u64 b)
          = Except.ok (Value.u64 (a / b * b % 2 ^ 64))
      ∧ binaryOp Token.ADD (Value.u64 (a / b * b % 2 ^ 64)) (Value.u64 (a % b))
          = Except.ok (Value.u64 a)
      ∧ binaryOp Token.EQL (Value.u64 a) (Value.u64 a) = Except.ok (Value.u64 1))
    ∧ eval H call dvm (divModIdentity x y) = Res.ok (Value.u64 1) (addOps dvm.State 13) := by
  have hq : binaryOp Token.QUO (Value.u64 a) (Value.u64 b) = Except.ok (Value.u64 (a / b)) := by
    simp [binaryOp, typeName, binaryUint64, hb]
  have hr : binaryOp Token.REM (Value.u64 a) (Value.u64 b) = Except.ok (Value.u64 (a % b)) := by
    simp [binaryOp, typeName, binaryUint64, hb]
  have hm : binaryOp Token.MUL (Value.u64 (a / b)) (Value.u64 b)
      = Except.ok (Value.u64 (a / b * b % 2 ^ 64)) := by
    simp [binaryOp, typeName, binaryUint64]
  have hadd : binaryOp Token.ADD (Value.u64 (a / b * b % 2 ^ 64)) (Value.u64 (a % b))
      = Except.ok (Value.u64 a) := by
    have := divmod_wrap a b ha
    simp only [binaryOp, typeName, binaryUint64, ne_eq, not_true_eq_false, if_false, this]
  have he : binaryOp Token.EQL (Value.u64 a) (Value.u64 a) = Except.ok (Value.u64 1) := by
    simp [binaryOp, typeName, binaryUint64, boolU64]
  refine ⟨⟨hq, hr, hm, hadd, he⟩, ?_⟩
  have hp : pureEval H dvm.Locals (divModIdentity x y) = some (Value.u64 1) := by
    simp only [divModIdentity, pureEval, hx, hy, hvx, hvy, hq, hr, hm, hadd, he]
  have := eval_pure H call (divModIdentity x y) dvm (Value.u64 1) hp h1
    (by simpa [divModIdentity, nodes] using h2)
  simpa [divModIdentity, nodes] using this

/-- C11 at `a = 17`, `b = 5`. -/
theorem C11_division_remainder_identity_witness :
    eval demoHost (runSmartContract_internal demoHost 1)
        { Locals := [("a", { Name := "a", Type_ := Vtype.Uint64, Value := Value.u64 17 }),
                     ("b", { Name := "b", Type_ := Vtype.Uint64, Value := Value.u64 5 })] }
        (divModIdentity "a" "b")
      = Res.ok (Value.u64 1) { Monitor_ops := 13 } :=
  (C11_division_remainder_identity demoHost (runSmartContract_internal demoHost 1)
    { Locals := [("a", { Name := "a", Type_ := Vtype.Uint64, Value := Value.u64 17 }),
                 ("b", { Name := "b", Type_ := Vtype.Uint64, Value := Value.u64 5 })] }
    "a" "b" _ _ 17 5 (by decide) (by decide) rfl rfl rfl rfl (by decide) (by decide)).2


theorem eval_binary_right_panic (H : Host) (call : CallFn) (dvm : DVM_Interpreter) (X Y : Expr)
    (Op : Token) (l : Value) (m : String) (st1 st2 : Shared_State)
    (hm : (bumpOps dvm.State).Monitor_ops ≤ LIMIT_evals)
    (hX : eval H call { dvm with State := bumpOps dvm.State } X = Res.ok l st1)
    (hY : eval H call { dvm with State := st1 } Y = Res.panic m st2) :
    eval H call dvm (Expr.BinaryExpr X Op Y) = Res.panic m st2 := by
  rw [eval]
  unfold metered
  simp only [not_lt.mpr hm, if_false]
  rw [hX]
  dsimp only
  rw [hY]

/-- C12 (code defect). With a `string` on the left and a `uint64` on the
right every operator returns the left text followed by the decimal number:
`"a" - 5`, `"a" == 5` and `"a" && 5` all evaluate to the string `a5` and are
not fatal. With the `uint64` on the left every operator is fatal, as
`5 + "a"` is. -/
theorem C12_string_uint64_any_operator :
    (∀ (op : Token) (s : String) (n : Nat),
        binaryOp op (Value.str s) (Value.u64 n) = Except.ok (Value.str (s ++ FormatUint n)))
    ∧ (∀ (op : Token) (n : Nat) (s : String),
        binaryOp op (Value.u64 n) (Value.str s)
          = Except.error "Expressions cannot be different type(String/Uint64)")
    ∧ eval (tableHost [] [("\"a\"", "a")])
        (runSmartContract_internal (tableHost [] [("\"a\"", "a")]) 1) {}
        (Expr.BinaryExpr (Expr.BasicLit LitKind.STRING "\"a\"") Token.SUB
          (Expr.BasicLit LitKind.INT "5"))
        = Res.ok (Value.str "a5") { Monitor_ops := 3 }
    ∧ eval (tableHost [] [("\"a\"", "a")])
        (runSmartContract_internal (tableHost [] [("\"a\"", "a")]) 1) {}
        (Expr.BinaryExpr (Expr.BasicLit LitKind.STRING "\"a\"") Token.EQL
          (Expr.BasicLit LitKind.INT "5"))
        = Res.ok (Value.str "a5") { Monitor_ops := 3 }
    ∧ eval (tableHost [] [("\"a\"", "a")])
        (runSmartContract_internal (tableHost [] [("\"a\"", "a")]) 1) {}
        (Expr.BinaryExpr (Expr.BasicLit LitKind.STRING "\"a\"") Token.LAND
          (Expr.BasicLit LitKind.INT "5"))
        = Res.ok (Value.str "a5") { Monitor_ops := 3 }
    ∧ eval (tableHost [] [("\"a\"", "a")])
        (runSmartContract_internal (tableHost [] [("\"a\"", "a")]) 1) {}
        (Expr.BinaryExpr (Expr.BasicLit LitKind.INT "5") Token.ADD
          (Expr.BasicLit LitKind.STRING "\"a\""))
        = Res.panic "Expressions cannot be different type(String/Uint64)" { Monitor_ops := 3 } :=
  ⟨fun _ _ _ => rfl, fun _ _ _ => rfl, by decide, by decide, by decide, by decide⟩

/-! ### The decimal text of a number -/

theorem digitVal_digitChar (k : Nat) (hk : k < 10) : digitVal (Nat.digitChar k) = some k := by
  interval_cases k <;> rfl

theorem digitChar_ne_zero (k : Nat) (hk : k < 10) (h0 : 0 < k) : Nat.digitChar k ≠ '0' := by
  interval_cases k <;> decide

theorem digitChar_ne_underscore (k : Nat) (hk : k < 10) : Nat.digitChar k ≠ '_' := by
  interval_cases k <;> decide

theorem parseDigits_step (d : Nat) (hd : d < 10) (acc : Nat) (ds : List Char)
    (hacc : acc * 10 + d ≤ MaxUint64) :
    parseDigits 10 false (Nat.digitChar d :: ds) acc false
      = parseDigits 10 false ds (acc * 10 + d) false := by
  have h1 : ¬ (acc ≥ MaxUint64 / 10 + 1) := by
    unfold MaxUint64 at hacc ⊢
    omega
  have h2 : ¬ (acc * 10 + d > MaxUint64) := by omega
  have h3 : ¬ (d ≥ 10) := by omega
  rw [parseDigits]
  simp only [Bool.false_eq_true, and_false, if_false, digitVal_digitChar d hd, h1, h2, h3]

theorem parseDigits_toDigitsCore :
    ∀ (f n : Nat) (ds : List Char), n < f → n ≤ MaxUint64 →
      parseDigits 10 false (Nat.toDigitsCore 10 f n ds) 0 false
        = parseDigits 10 false ds n false := by
  intro f
  induction f with
  | zero => intro n ds h; omega
  | succ f ih =>
    intro n ds hlt hmax
    rw [Nat.toDigitsCore]
    by_cases h0 : n / 10 = 0
    · simp only [h0, if_true]
      have hn : n < 10 := by omega
      rw [Nat.mod_eq_of_lt hn]
      have := parseDigits_step n hn 0 ds (by omega)
      rw [this]
      simp
    · simp only [h0, if_false]
      have hlt' : n / 10 < f := by omega
      rw [ih (n / 10) _ hlt' (by omega)]
      have hd : n % 10 < 10 := Nat.mod_lt _ (by decide)
      rw [parseDigits_step (n % 10) hd (n / 10) ds (by omega)]
      congr 1
      omega

theorem toDigitsCore_head :
    ∀ (f n : Nat) (ds : List Char), 0 < n → n < f →
      ∃ c rest, Nat.toDigitsCore 10 f n ds = c :: rest ∧ c ≠ '0' := by
  intro f
  induction f with
  | zero => intro n ds _ h; omega
  | succ f ih =>
    intro n ds hpos hlt
    rw [Nat.toDigitsCore]
    by_cases h0 : n / 10 = 0
    · simp only [h0, if_true]
      have hn : n < 10 := by omega
      refine ⟨_, _, rfl, ?_⟩
      rw [Nat.mod_eq_of_lt hn]
      exact digitChar_ne_zero n hn hpos
    · simp only [h0, if_false]
      exact ih (n / 10) _ (by omega) (by omega)

/-- The decimal text of a `uint64` reads back as the number. -/
theorem ParseUint_FormatUint (n : Nat) (hn : n < 2 ^ 64) :
    ParseUint (FormatUint n) 10 = (n, none) := by
  have hmax : n ≤ MaxUint64 := by unfold MaxUint64; omega
  have hp := parseDigits_toDigitsCore (n + 1) n [] (by omega) hmax
  have hne : (Nat.toDigitsCore 10 (n + 1) n []).isEmpty = false := by
    rw [Nat.toDigitsCore]
    by_cases h0 : n / 10 = 0
    · simp [h0]
    · simp only [h0, if_false]
      obtain ⟨c, rest, h, _⟩ := toDigitsCore_head n (n / 10) [Nat.digitChar (n % 10)]
        (by omega) (by omega)
      rw [h]
      rfl
  unfold ParseUint FormatUint Nat.toDigits
  simp only [hne, Bool.false_eq_true, if_false]
  have hb : ((10 : Nat) == 0) = false := by decide
  simp only [hb, Bool.false_eq_true, if_false, hp, parseDigits, Bool.false_and]

/-- The decimal text of a positive number does not begin with a zero. -/
theorem FormatUint_head (n : Nat) (hn : 0 < n) :
    ∃ c rest, (FormatUint n).data = c :: rest ∧ c ≠ '0' := by
  unfold FormatUint Nat.toDigits
  exact toDigitsCore_head (n + 1) n [] hn (by omega)

/-- C13. `+` on a `string` and a `uint64` returns the text followed by the
decimal text of the number, which reads back as the number in base 10 and
does not begin with a zero unless the number is 0; `+` on two strings returns
their concatenation; and `"hi " + "bob" + " " + 3` evaluates to `hi bob 3`
(the three literals unquoted by the library, the operation counter having
room for the 7 nodes). -/
theorem C13_string_append (H : Host) (call : CallFn) (dvm : DVM_Interpreter)
    (hhi : H.Unquote "\"hi \"" = Except.ok "hi ")
    (hbob : H.Unquote "\"bob\"" = Except.ok "bob")
    (hsp : H.Unquote "\" \"" = Except.ok " ")
    (h1 : -2 ^ 63 ≤ dvm.State.Monitor_ops) (h2 : dvm.State.Monitor_ops + 7 ≤ LIMIT_evals) :
    (∀ (s : String) (n : Nat),
        binaryOp Token.ADD (Value.str s) (Value.u64 n)
          = Except.ok (Value.str (s ++ FormatUint n)))
    ∧ (∀ n : Nat, n < 2 ^ 64 →
        ParseUint (FormatUint n) 10 = (n, none)
          ∧ (0 < n → ∃ c rest, (FormatUint n).data = c :: rest ∧ c ≠ '0'))
    ∧ FormatUint 0 = "0"
    ∧ (∀ x y : String,
        binaryOp Token.ADD (Value.str x) (Value.str y) = Except.ok (Value.str (x ++ y)))
    ∧ eval H call dvm greeting = Res.ok (Value.str "hi bob 3") (addOps dvm.State 7) := by
  refine ⟨fun _ _ => rfl, fun n hn => ⟨ParseUint_FormatUint n hn, FormatUint_head n⟩,
    by decide, fun _ _ => rfl, ?_⟩
  have hp : pureEval H dvm.Locals greeting = some (Value.str "hi bob 3") := by
    simp only [greeting, pureEval, hhi, hbob, hsp]
    decide
  have := eval_pure H call greeting dvm _ hp h1 (by simpa [greeting, nodes] using h2)
  simpa [greeting, nodes] using this

/-- C13 at a host that unquotes the three literals, from a counter of 0. -/
theorem C13_string_append_witness :
    eval greetingHost (runSmartContract_internal greetingHost 1) {} greeting
      = Res.ok (Value.str "hi bob 3") { Monitor_ops := 7 } :=
  (C13_string_append greetingHost (runSmartContract_internal greetingHost 1) {}
    rfl rfl rfl (by decide) (by decide)).2.2.2.2

/-- C14 (code defect). `!` on a `uint64` returns the bitwise complement, as
`^` does: `!0` is `2 ^ 64 - 1` and `!5` is `2 ^ 64 - 6`, neither 1 nor 0. On
a string `!` does return 1 for the empty string and 0 otherwise. -/
theorem C14_not_on_uint64_is_complement :
    eval demoHost (runSmartContract_internal demoHost 1) {}
        (Expr.UnaryExpr Token.NOT (Expr.BasicLit LitKind.INT "0"))
      = Res.ok (Value.u64 18446744073709551615) { Monitor_ops := 2 }
    ∧ eval demoHost (runSmartContract_internal demoHost 1) {}
        (Expr.UnaryExpr Token.NOT (Expr.BasicLit LitKind.INT "5"))
      = Res.ok (Value.u64 18446744073709551610) { Monitor_ops := 2 }
    ∧ eval demoHost (runSmartContract_internal demoHost 1) {}
        (Expr.UnaryExpr Token.XOR (Expr.BasicLit LitKind.INT "5"))
      = Res.ok (Value.u64 18446744073709551610) { Monitor_ops := 2 }
    ∧ eval demoHost (runSmartContract_internal demoHost 1)
        { Locals := [("s", { Name := "s", Type_ := Vtype.String, Value := Value.str "" })] }
        (Expr.UnaryExpr Token.NOT (Expr.Ident "s"))
      = Res.ok (Value.u64 1) { Monitor_ops := 2 }
    ∧ eval demoHost (runSmartContract_internal demoHost 1)
        { Locals := [("s", { Name := "s", Type_ := Vtype.String, Value := Value.str "x" })] }
        (Expr.UnaryExpr Token.NOT (Expr.Ident "s"))
      = Res.ok (Value.u64 0) { Monitor_ops := 2 } := by
  decide

/-- C15, counterexample. `0 && (1 / 0)` does not yield 0: the right operand
is evaluated and its division by zero is the outcome, the counter standing at
6, the nodes of the right operand counted. -/
theorem C15_counterexample :
    eval demoHost (runSmartContract_internal demoHost 1) {} guardedDivision
      = Res.panic "runtime error: integer divide by zero" { Monitor_ops := 6 }
    ∧ ¬ (∀ (H : Host) (fuel : Nat) (dvm : DVM_Interpreter) (X Y : Expr) (st1 : Shared_State),
          (bumpOps dvm.State).Monitor_ops ≤ LIMIT_evals →
          eval H (runSmartContract_internal H fuel) { dvm with State := bumpOps dvm.State } X
            = Res.ok (Value.u64 0) st1 →
          eval H (runSmartContract_internal H fuel) dvm (Expr.BinaryExpr X Token.LAND Y)
            = Res.ok (Value.u64 0) st1) := by
  have hc : eval demoHost (runSmartContract_internal demoHost 1) {} guardedDivision
      = Res.panic "runtime error: integer divide by zero" { Monitor_ops := 6 } := by
    decide
  refine ⟨hc, fun h => ?_⟩
  have h1 := h demoHost 1 {} (Expr.BasicLit LitKind.INT "0")
    (Expr.ParenExpr (Expr.BinaryExpr (Expr.BasicLit LitKind.INT "1") Token.QUO
      (Expr.BasicLit LitKind.INT "0"))) { Monitor_ops := 2 } (by decide) (by decide)
  have h2 : eval demoHost (runSmartContract_internal demoHost 1) {} guardedDivision
      = Res.ok (Value.u64 0) { Monitor_ops := 2 } := h1
  rw [hc] at h2
  exact absurd h2 (by decide)

/-- C15, amended. The logical operators do not short-circuit: once the left
operand has evaluated, the right operand is evaluated whatever the left value
is. If the right operand panics, the expression panics with it; if it returns
`r`, the operation counter has grown for its nodes and the result is that of
the operator on both values, which for `&&` is 1 when both are non-zero (or
non-empty) and 0 otherwise, and for `||` is 1 when at least one is. -/
theorem C15_logical_operators_eager (H : Host) (fuel : Nat) (dvm : DVM_Interpreter)
    (X Y : Expr) (l : Value) (st1 : Shared_State)
    (hm : (bumpOps dvm.State).Monitor_ops ≤ LIMIT_evals)
    (hX : eval H (runSmartContract_internal H fuel) { dvm with State := bumpOps dvm.State } X
      = Res.ok l st1) :
    (∀ (op : Token) (m : String) (st2 : Shared_State),
        eval H (runSmartContract_internal H fuel) { dvm with State := st1 } Y = Res.panic m st2 →
        eval H (runSmartContract_internal H fuel) dvm (Expr.BinaryExpr X op Y) = Res.panic m st2)
    ∧ (∀ (op : Token) (r : Value) (st2 : Shared_State),
        eval H (runSmartContract_internal H fuel) { dvm with State := st1 } Y = Res.ok r st2 →
        eval H (runSmartContract_internal H fuel) dvm (Expr.BinaryExpr X op Y)
            = liftExcept st2 (binaryOp op l r)
          ∧ st1.Monitor_ops < st2.Monitor_ops)
    ∧ (∀ a b : Nat,
        binaryOp Token.LAND (Value.u64 a) (Value.u64 b)
            = Except.ok (Value.u64 (if a ≠ 0 ∧ b ≠ 0 then 1 else 0))
          ∧ binaryOp Token.LOR (Value.u64 a) (Value.u64 b)
            = Except.ok (Value.u64 (if a ≠ 0 ∨ b ≠ 0 then 1 else 0)))
    ∧ (∀ s t : String,
        binaryOp Token.LAND (Value.str s) (Value.str t)
            = Except.ok (Value.u64 (if s ≠ "" ∧ t ≠ "" then 1 else 0))
          ∧ binaryOp Token.LOR (Value.str s) (Value.str t)
            = Except.ok (Value.u64 (if s ≠ "" ∨ t ≠ "" then 1 else 0))) := by
  refine ⟨?_, ?_, ?_, ?_⟩
  · intro op m st2 hY
    exact eval_binary_right_panic H _ dvm X Y op l m st1 st2 hm hX hY
  · intro op r st2 hY
    refine ⟨eval_binary H _ dvm X Y op l r st1 st2 hm hX hY, ?_⟩
    have gx := eval_counters H fuel _ X l st1 hX
    have gy := eval_counters H fuel _ Y r st2 hY
    have hle : st1.Monitor_ops ≤ LIMIT_evals := gx.2.2.1
    apply gy.2.2.2
    show st1.Monitor_ops < 2 ^ 63 - 1
    unfold LIMIT_evals at hle
    norm_num
    omega
  · intro a b
    by_cases ha : a = 0 <;> by_cases hb : b = 0 <;>
      simp [binaryOp, typeName, IsZero, boolU64, ha, hb]
  · intro s t
    by_cases hs : s = "" <;> by_cases ht : t = "" <;>
      simp [binaryOp, typeName, IsZero, boolU64, hs, ht]

/-- C15 at `1 && 0`: both literals are evaluated and the result is 0. -/
theorem C15_logical_operators_eager_witness :
    eval demoHost (runSmartContract_internal demoHost 1) {}
        (Expr.BinaryExpr (Expr.BasicLit LitKind.INT "1") Token.LAND
          (Expr.BasicLit LitKind.INT "0"))
      = liftExcept { Monitor_ops := 3 } (binaryOp Token.LAND (Value.u64 1) (Value.u64 0))
    ∧ (2 : Int) < 3 :=
  ((C15_logical_operators_eager demoHost 1 {} (Expr.BasicLit LitKind.INT "1")
    (Expr.BasicLit LitKind.INT "0") (Value.u64 1) { Monitor_ops := 2 } (by decide)
    (by decide)).2.1 Token.LAND (Value.u64 0) { Monitor_ops := 3 } (by decide))

/-! ## Statement handlers -/

theorem reverse_cons_of_ne_nil {α : Type} (l : List α) (h : l ≠ []) :
    ∃ c cr, l.reverse = c :: cr ∧ (c :: cr).reverse = l := by
  cases hr : l.reverse with
  | nil => exact absurd (List.reverse_eq_nil_iff.mp hr) h
  | cons c cr => exact ⟨c, cr, rfl, by rw [← hr, List.reverse_reverse]⟩

theorem interpret_IF_then (H : Host) (call : CallFn) (dvm : DVM_Interpreter)
    (cond : List String) (tn : String) (hc : cond ≠ []) :
    interpret_IF H call dvm (cond ++ ["THEN", "GOTO", tn]) =
      match ParseUint tn 0 with
      | (_, some e) => IRes.ret dvm 0 (some e)
      | (thenip, none) => ifBranch H call dvm cond thenip 0 := by
  obtain ⟨c, cr, hrev, hback⟩ := reverse_cons_of_ne_nil cond hc
  have hl : (cond ++ ["THEN", "GOTO", tn]).reverse = tn :: "GOTO" :: "THEN" :: c :: cr := by
    simp [hrev]
  have h1 : EqualFold "THEN" "THEN" = true := by decide
  have h2 : EqualFold "GOTO" "GOTO" = true := by decide
  unfold interpret_IF
  simp only [hl, h1, h2, Bool.and_self, if_true, hback]

theorem interpret_IF_then_else (H : Host) (call : CallFn) (dvm : DVM_Interpreter)
    (cond : List String) (tn te : String) (hc : cond ≠ []) :
    interpret_IF H call dvm (cond ++ ["THEN", "GOTO", tn, "ELSE", "GOTO", te]) =
      match ParseUint tn 0 with
      | (_, some err) => IRes.ret dvm 0 (some err)
      | (thenip, none) =>
        match ParseUint te 0 with
        | (_, some err) => IRes.ret dvm 0 (some err)
        | (elseip, none) =>
          if elseip = 0 ∨ elseip = MaxUint64 then
            IRes.ret dvm 0 (some "ELSE GOTO  has invalid line number")
          else ifBranch H call dvm cond thenip elseip := by
  obtain ⟨c, cr, hrev, hback⟩ := reverse_cons_of_ne_nil cond hc
  have hl : (cond ++ ["THEN", "GOTO", tn, "ELSE", "GOTO", te]).reverse
      = te :: "GOTO" :: "ELSE" :: tn :: "GOTO" :: "THEN" :: c :: cr := by
    simp [hrev]
  have h1 : EqualFold "THEN" "THEN" = true := by decide
  have h2 : EqualFold "GOTO" "GOTO" = true := by decide
  have h3 : EqualFold "ELSE" "ELSE" = true := by decide
  have h4 : EqualFold "ELSE" "THEN" = false := by decide
  unfold interpret_IF
  simp only [hl, h1, h2, h3, h4, Bool.and_self, Bool.false_and, if_true, hback]
  rfl


/-- C16. For the lines `expr THEN GOTO n` and `expr THEN GOTO n ELSE GOTO m`
that follow `IF` (the condition not empty, the targets read as `n` and `m`,
the condition parsed as `expr`): with valid targets and `expr` evaluating to
the `uint64` `v`, `interpret_IF` returns `n` when `v ≠ 0` and otherwise `m`,
or 0 without `ELSE`; when `expr` evaluates to a string it returns an error;
and when `n` or `m` is 0 or `MaxUint64` it returns an error. -/
theorem C16_if_semantics (H : Host) (call : CallFn) (dvm : DVM_Interpreter)
    (cond : List String) (tn te : String) (n m : Nat) (expr : Expr) (hc : cond ≠ [])
    (hn : ParseUint tn 0 = (n, none)) (hm : ParseUint te 0 = (m, none))
    (hparse : H.ParseExpr (replacer (Join cond " ")) = Except.ok expr) :
    (∀ (v : Nat) (st : Shared_State), n ≠ 0 → n ≠ MaxUint64 →
        eval H call dvm expr = Res.ok (Value.u64 v) st →
        interpret_IF H call dvm (cond ++ ["THEN", "GOTO", tn])
            = IRes.ret { dvm with State := st } (if v ≠ 0 then n else 0) none
          ∧ (m ≠ 0 → m ≠ MaxUint64 →
              interpret_IF H call dvm (cond ++ ["THEN", "GOTO", tn, "ELSE", "GOTO", te])
                = IRes.ret { dvm with State := st } (if v ≠ 0 then n else m) none))
    ∧ (∀ (s : String) (st : Shared_State), n ≠ 0 → n ≠ MaxUint64 →
        eval H call dvm expr = Res.ok (Value.str s) st →
        (∃ err, interpret_IF H call dvm (cond ++ ["THEN", "GOTO", tn])
            = IRes.ret { dvm with State := st } 0 (some err))
          ∧ (m ≠ 0 → m ≠ MaxUint64 →
              ∃ err, interpret_IF H call dvm (cond ++ ["THEN", "GOTO", tn, "ELSE", "GOTO", te])
                = IRes.ret { dvm with State := st } 0 (some err)))
    ∧ ((n = 0 ∨ n = MaxUint64) →
        (∃ err, interpret_IF H call dvm (cond ++ ["THEN", "GOTO", tn])
            = IRes.ret dvm 0 (some err))
          ∧ ∃ err, interpret_IF H call dvm (cond ++ ["THEN", "GOTO", tn, "ELSE", "GOTO", te])
              = IRes.ret dvm 0 (some err))
    ∧ ((m = 0 ∨ m = MaxUint64) →
        ∃ err, interpret_IF H call dvm (cond ++ ["THEN", "GOTO", tn, "ELSE", "GOTO", te])
          = IRes.ret dvm 0 (some err)) := by
  have f1 := interpret_IF_then H call dvm cond tn hc
  have f2 := interpret_IF_then_else H call dvm cond tn te hc
  rw [hn] at f1 f2
  rw [hm] at f2
  dsimp only at f1 f2
  rw [f1, f2]
  refine ⟨?_, ?_, ?_, ?_⟩
  · intro v st h0 hmax hev
    have hnv : ¬ (n = 0 ∨ n = MaxUint64) := by
      intro h; rcases h with h | h
      · exact h0 h
      · exact hmax h
    constructor
    · unfold ifBranch
      rw [if_neg hnv, hparse]
      dsimp only
      rw [hev]
    · intro hm0 hmmax
      have hmv : ¬ (m = 0 ∨ m = MaxUint64) := by
        intro h; rcases h with h | h
        · exact hm0 h
        · exact hmmax h
      rw [if_neg hmv]
      unfold ifBranch
      rw [if_neg hnv, hparse]
      dsimp only
      rw [hev]
  · intro s st h0 hmax hev
    have hnv : ¬ (n = 0 ∨ n = MaxUint64) := by
      intro h; rcases h with h | h
      · exact h0 h
      · exact hmax h
    constructor
    · unfold ifBranch
      rw [if_neg hnv, hparse]
      dsimp only
      rw [hev]
      exact ⟨_, rfl⟩
    · intro hm0 hmmax
      have hmv : ¬ (m = 0 ∨ m = MaxUint64) := by
        intro h; rcases h with h | h
        · exact hm0 h
        · exact hmmax h
      rw [if_neg hmv]
      unfold ifBranch
      rw [if_neg hnv, hparse]
      dsimp only
      rw [hev]
      exact ⟨_, rfl⟩
  · intro hbad
    constructor
    · unfold ifBranch
      rw [if_pos hbad]
      exact ⟨_, rfl⟩
    · by_cases hmv : m = 0 ∨ m = MaxUint64
      · rw [if_pos hmv]
        exact ⟨_, rfl⟩
      · rw [if_neg hmv]
        unfold ifBranch
        rw [if_pos hbad]
        exact ⟨_, rfl⟩
  · intro hbad
    rw [if_pos hbad]
    exact ⟨_, rfl⟩

/-- C16 at the line `IF s == 15 THEN GOTO 50 ELSE GOTO 60` of scenario 1,
with `s` holding 15 and the condition parsed by table. -/
theorem C16_if_semantics_witness :
    interpret_IF conditionHost (runSmartContract_internal conditionHost 1)
        { Locals := [("s", { Name := "s", Type_ := Vtype.Uint64, Value := Value.u64 15 })] }
        (["s", "=", "=", "15"] ++ ["THEN", "GOTO", "50", "ELSE", "GOTO", "60"])
      = IRes.ret
          { Locals := [("s", { Name := "s", Type_ := Vtype.Uint64, Value := Value.u64 15 })],
            State := { Monitor_ops := 3 } }
          (if (1 : Nat) ≠ 0 then 50 else 60) none :=
  ((C16_if_semantics conditionHost (runSmartContract_internal conditionHost 1)
      { Locals := [("s", { Name := "s", Type_ := Vtype.Uint64, Value := Value.u64 15 })] }
      ["s", "=", "=", "15"] "50" "60" 50 60
      (Expr.BinaryExpr (Expr.Ident "s") Token.EQL (Expr.BasicLit LitKind.INT "15"))
      (by decide) (by decide) (by decide) rfl).1 1 { Monitor_ops := 3 }
      (by decide) (by decide) (by decide)).2 (by decide) (by decide)

/-- C17. In a function without return type `interpret_RETURN` returns an
error, the interpreter (return value and depth) as it was, exactly when
tokens follow `RETURN`, and with none it lowers the depth and returns the
sentinel `MaxUint64`. In a function with a return type `RETURN` alone is an
error, and `RETURN expr`, `expr` evaluating to a value with the tag of the
declared type, stores the value in `ReturnValue`, whose type stays, and
returns the sentinel. -/
theorem C17_return_rules (H : Host) (call : CallFn) (dvm : DVM_Interpreter)
    (line : List String) :
    (dvm.ReturnValue.Type_ = Vtype.Invalid →
        (line ≠ [] → ∃ err, interpret_RETURN H call dvm line = IRes.ret dvm 0 (some err))
        ∧ (line = [] → interpret_RETURN H call dvm line
            = IRes.ret { dvm with State := lowerRecursion dvm.State } MaxUint64 none))
    ∧ (dvm.ReturnValue.Type_ ≠ Vtype.Invalid →
        (line = [] → ∃ err, interpret_RETURN H call dvm line = IRes.ret dvm 0 (some err))
        ∧ (∀ (expr : Expr) (v : Value) (st : Shared_State), line ≠ [] →
            H.ParseExpr (replacer (Join line " ")) = Except.ok expr →
            eval H call dvm expr = Res.ok v st →
            tagMatches dvm.ReturnValue.Type_ v = true →
            interpret_RETURN H call dvm line
              = IRes.ret
                  { dvm with
                      State := lowerRecursion st
                      ReturnValue := { dvm.ReturnValue with Value := v } }
                  MaxUint64 none)) := by
  constructor
  · intro ht
    constructor
    · intro hl
      have : line.length ≠ 0 := fun h => hl (List.length_eq_zero.mp h)
      unfold interpret_RETURN
      rw [if_pos ht, if_pos this]
      exact ⟨_, rfl⟩
    · intro hl
      unfold interpret_RETURN
      rw [if_pos ht, hl]
      rfl
  · intro ht
    constructor
    · intro hl
      unfold interpret_RETURN
      rw [if_neg ht, hl]
      exact ⟨_, rfl⟩
    · intro expr v st hl hparse hev htag
      have hlen : ¬ line.length = 0 := fun h => hl (List.length_eq_zero.mp h)
      unfold interpret_RETURN
      rw [if_neg ht, if_neg hlen, hparse]
      dsimp only
      rw [hev]
      dsimp only
      cases hty : dvm.ReturnValue.Type_ <;> cases v <;> simp_all [tagMatches]

/-- C17 at `RETURN` alone in a function without return type, at depth 1. -/
theorem C17_return_rules_witness :
    interpret_RETURN demoHost (runSmartContract_internal demoHost 1)
        { State := { Monitor_recursion := 1 } } []
      = IRes.ret { State := { Monitor_recursion := 0 } } MaxUint64 none :=
  ((C17_return_rules demoHost (runSmartContract_internal demoHost 1)
    { State := { Monitor_recursion := 1 } } []).1 rfl).2 rfl

theorem mapGet_mapSet_same {β : Type} (m : List (String × β)) (k : String) (v : β) :
    mapGet (mapSet m k v) k = some v := by
  induction m with
  | nil => simp [mapSet, mapGet]
  | cons hd tl ih =>
    obtain ⟨k1, w⟩ := hd
    by_cases h : k1 = k
    · simp [mapSet, mapGet, h]
    · simp [mapSet, mapGet, h, ih]

theorem mapGet_mapSet_other {β : Type} (m : List (String × β)) (k k' : String) (v : β)
    (hne : k' ≠ k) : mapGet (mapSet m k v) k' = mapGet m k' := by
  induction m with
  | nil => simp [mapSet, mapGet, Ne.symm hne]
  | cons hd tl ih =>
    obtain ⟨k1, w⟩ := hd
    by_cases h : k1 = k
    · subst h
      simp [mapSet, mapGet, Ne.symm hne]
    · by_cases h2 : k1 = k'
      · subst h2
        simp [mapSet, mapGet, h]
      · simp [mapSet, mapGet, h, h2, ih]

theorem dimLoop_ok (H : Host) (T : Vtype) (hT : T ≠ Vtype.Invalid) :
    ∀ (toks : List String) (dvm : DVM_Interpreter),
      (∀ t ∈ toks, t ≠ "," → check_valid_name H t = true ∧ mapGet dvm.Locals t = none) →
      (toks.filter (fun t => t ≠ ",")).Nodup →
      ∃ locals, dimLoop H T dvm toks = ({ dvm with Locals := locals }, none)
        ∧ (∀ t ∈ toks, t ≠ "," → mapGet locals t = some (zeroVariable t T))
        ∧ (∀ k, (k ∉ toks ∨ k = ",") → mapGet locals k = mapGet dvm.Locals k) := by
  intro toks
  induction toks with
  | nil =>
    intro dvm _ _
    exact ⟨dvm.Locals, rfl, by simp, fun _ _ => rfl⟩
  | cons name rest ih =>
    intro dvm hvalid hnodup
    by_cases hcomma : name = ","
    · subst hcomma
      have hnd : (rest.filter (fun t => t ≠ ",")).Nodup := by simpa using hnodup
      obtain ⟨locals, h1, h2, h3⟩ := ih dvm
        (fun t ht hne => hvalid t (List.mem_cons_of_mem _ ht) hne) hnd
      refine ⟨locals, ?_, ?_, ?_⟩
      · simp only [dimLoop, ne_eq, not_true_eq_false, if_false]
        exact h1
      · intro t ht hne
        rcases List.mem_cons.mp ht with h | h
        · exact absurd h hne
        · exact h2 t h hne
      · intro k hk
        apply h3
        rcases hk with hk | hk
        · exact Or.inl (fun h => hk (List.mem_cons_of_mem _ h))
        · exact Or.inr hk
    · obtain ⟨hv, hloc⟩ := hvalid name (List.mem_cons_self _ _) hcomma
      have hfil : (name :: rest).filter (fun t => t ≠ ",")
          = name :: rest.filter (fun t => t ≠ ",") := by
        simp [List.filter_cons, hcomma]
      rw [hfil] at hnodup
      obtain ⟨hnotin, hnd⟩ := List.nodup_cons.mp hnodup
      have hnr : name ∉ rest := by
        intro h
        exact hnotin (List.mem_filter.mpr ⟨h, by simpa using hcomma⟩)
      let dvm1 : DVM_Interpreter :=
        { dvm with Locals := mapSet dvm.Locals name (zeroVariable name T) }
      have hstep : dimLoop H T dvm (name :: rest) = dimLoop H T dvm1 rest := by
        simp only [dimLoop, ne_eq, hcomma, not_false_eq_true, if_true, hv, Bool.not_true,
          Bool.false_eq_true, if_false, hloc, Option.isSome_none]
        cases T with
        | Invalid => exact absurd rfl hT
        | Uint64 => rfl
        | String => rfl
        | Blob => rfl
        | Address => rfl
      obtain ⟨locals, h1, h2, h3⟩ := ih dvm1
        (fun t ht hne => by
          obtain ⟨a, b⟩ := hvalid t (List.mem_cons_of_mem _ ht) hne
          refine ⟨a, ?_⟩
          have hne2 : t ≠ name := fun h => hnr (h ▸ ht)
          show mapGet (mapSet dvm.Locals name (zeroVariable name T)) t = none
          rw [mapGet_mapSet_other _ _ _ _ hne2]
          exact b) hnd
      refine ⟨locals, ?_, ?_, ?_⟩
      · rw [hstep, h1]
      · intro t ht hne
        rcases List.mem_cons.mp ht with h | h
        · subst h
          rw [h3 t (Or.inl hnr)]
          exact mapGet_mapSet_same _ _ _
        · exact h2 t h hne
      · intro k hk
        rcases hk with hk | hk
        · have hk1 : k ∉ rest := fun h => hk (List.mem_cons_of_mem _ h)
          have hk2 : k ≠ name := fun h => hk (h ▸ List.mem_cons_self _ _)
          rw [h3 k (Or.inl hk1)]
          exact mapGet_mapSet_other _ _ _ _ hk2
        · rw [h3 k (Or.inr hk)]
          have hk2 : k ≠ name := fun h => hcomma (h ▸ hk)
          exact mapGet_mapSet_other _ _ _ _ hk2

theorem mapGet_mapSet_isSome {β : Type} (m : List (String × β)) (k k' : String) (v : β)
    (h : (mapGet m k').isSome = true) : (mapGet (mapSet m k v) k').isSome = true := by
  by_cases hk : k' = k
  · subst hk
    rw [mapGet_mapSet_same]
    rfl
  · rw [mapGet_mapSet_other _ _ _ _ hk]
    exact h

theorem dimLoop_redeclared (H : Host) (T : Vtype) :
    ∀ (toks : List String) (dvm : DVM_Interpreter),
      (∃ t ∈ toks, t ≠ "," ∧ (mapGet dvm.Locals t).isSome = true) →
      ∃ dvm' err, dimLoop H T dvm toks = (dvm', some err) := by
  intro toks
  induction toks with
  | nil =>
    intro dvm h
    obtain ⟨t, ht, _⟩ := h
    cases ht
  | cons name rest ih =>
    intro dvm h
    obtain ⟨t, ht, hne, hsome⟩ := h
    by_cases hcomma : name = ","
    · subst hcomma
      have htr : t ∈ rest := by
        rcases List.mem_cons.mp ht with h | h
        · exact absurd h hne
        · exact h
      obtain ⟨dvm', err, h1⟩ := ih dvm ⟨t, htr, hne, hsome⟩
      exact ⟨dvm', err, by simp only [dimLoop, ne_eq, not_true_eq_false, if_false]; exact h1⟩
    · by_cases hv : check_valid_name H name = true
      · by_cases hloc : (mapGet dvm.Locals name).isSome = true
        · exact ⟨dvm, _, by
            simp only [dimLoop, ne_eq, hcomma, not_false_eq_true, if_true, hv, Bool.not_true,
              Bool.false_eq_true, if_false, hloc]
            rfl⟩
        · have htr : t ∈ rest := by
            rcases List.mem_cons.mp ht with h | h
            · subst h; exact absurd hsome hloc
            · exact h
          cases T with
          | Invalid =>
            obtain ⟨dvm', err, h1⟩ := ih dvm ⟨t, htr, hne, hsome⟩
            exact ⟨dvm', err, by
              simp only [dimLoop, ne_eq, hcomma, not_false_eq_true, if_true, hv, Bool.not_true,
                Bool.false_eq_true, if_false, hloc]
              exact h1⟩
          | Uint64 =>
            obtain ⟨dvm', err, h1⟩ := ih
              { dvm with Locals := mapSet dvm.Locals name (zeroVariable name Vtype.Uint64) }
              ⟨t, htr, hne, mapGet_mapSet_isSome _ _ _ _ hsome⟩
            exact ⟨dvm', err, by
              simp only [dimLoop, ne_eq, hcomma, not_false_eq_true, if_true, hv, Bool.not_true,
                Bool.false_eq_true, if_false, hloc]
              exact h1⟩
          | String =>
            obtain ⟨dvm', err, h1⟩ := ih
              { dvm with Locals := mapSet dvm.Locals name (zeroVariable name Vtype.String) }
              ⟨t, htr, hne, mapGet_mapSet_isSome _ _ _ _ hsome⟩
            exact ⟨dvm', err, by
              simp only [dimLoop, ne_eq, hcomma, not_false_eq_true, if_true, hv, Bool.not_true,
                Bool.false_eq_true, if_false, hloc]
              exact h1⟩
          | Blob =>
            obtain ⟨dvm', err, h1⟩ := ih
              { dvm with Locals := mapSet dvm.Locals name (zeroVariable name Vtype.Blob) }
              ⟨t, htr, hne, mapGet_mapSet_isSome _ _ _ _ hsome⟩
            exact ⟨dvm', err, by
              simp only [dimLoop, ne_eq, hcomma, not_false_eq_true, if_true, hv, Bool.not_true,
                Bool.false_eq_true, if_false, hloc]
              exact h1⟩
          | Address =>
            obtain ⟨dvm', err, h1⟩ := ih
              { dvm with Locals := mapSet dvm.Locals name (zeroVariable name Vtype.Address) }
              ⟨t, htr, hne, mapGet_mapSet_isSome _ _ _ _ hsome⟩
            exact ⟨dvm', err, by
              simp only [dimLoop, ne_eq, hcomma, not_false_eq_true, if_true, hv, Bool.not_true,
                Bool.false_eq_true, if_false, hloc]
              exact h1⟩
      · exact ⟨dvm, _, by
          simp only [dimLoop, ne_eq, hcomma, not_false_eq_true, if_true, hv, Bool.not_false]
          rfl⟩


theorem interpret_DIM_loop (H : Host) (dvm : DVM_Interpreter) (toks : List String)
    (as_ tyname : String) (hne : toks ≠ []) (has : EqualFold as_ "as" = true)
    (hty : check_valid_type tyname ≠ Vtype.Invalid) :
    interpret_DIM H dvm (toks ++ [as_, tyname])
      = IRes.ret (dimLoop H (check_valid_type tyname) dvm toks).1 0
          (dimLoop H (check_valid_type tyname) dvm toks).2 := by
  have hl : (toks ++ [as_, tyname]).reverse = tyname :: as_ :: toks.reverse := by simp
  have hemp : toks.reverse.isEmpty = false := by
    cases h : toks.reverse with
    | nil => exact absurd (List.reverse_eq_nil_iff.mp h) hne
    | cons a b => rfl
  unfold interpret_DIM
  simp only [hl, hemp, has, Bool.not_true, Bool.or_self, Bool.false_eq_true, if_false, hty,
    List.reverse_reverse]

/-- C18. For the tokens `v1 , v2 , … as T` after `DIM` (`toks` the names and
commas, `T` a valid type name): when the names are valid, pairwise distinct
and none is a local, `interpret_DIM` returns new IP 0 without error, has
bound every name to the variable of that name and type holding the zero value
(0 for `Uint64`, the empty string otherwise), and has left every other local
and the rest of the interpreter as they were; when some name is already a
local it returns an error. -/
theorem C18_dim_semantics (H : Host) (dvm : DVM_Interpreter) (toks : List String)
    (as_ tyname : String) (hne : toks ≠ []) (has : EqualFold as_ "as" = true)
    (hty : check_valid_type tyname ≠ Vtype.Invalid) :
    ((∀ t ∈ toks, t ≠ "," → check_valid_name H t = true ∧ mapGet dvm.Locals t = none) →
      (toks.filter (fun t => t ≠ ",")).Nodup →
      ∃ locals, interpret_DIM H dvm (toks ++ [as_, tyname])
          = IRes.ret { dvm with Locals := locals } 0 none
        ∧ (∀ t ∈ toks, t ≠ "," →
            mapGet locals t = some (zeroVariable t (check_valid_type tyname)))
        ∧ (∀ k, k ∉ toks → mapGet locals k = mapGet dvm.Locals k))
    ∧ ((∃ t ∈ toks, t ≠ "," ∧ (mapGet dvm.Locals t).isSome = true) →
        ∃ dvm' err, interpret_DIM H dvm (toks ++ [as_, tyname]) = IRes.ret dvm' 0 (some err))
    ∧ (∀ name : String, zeroVariable name Vtype.Uint64
          = { Name := name, Type_ := Vtype.Uint64, Value := Value.u64 0 }
        ∧ zeroVariable name Vtype.String
          = { Name := name, Type_ := Vtype.String, Value := Value.str "" }
        ∧ zeroVariable name Vtype.Address
          = { Name := name, Type_ := Vtype.Address, Value := Value.str "" }
        ∧ zeroVariable name Vtype.Blob
          = { Name := name, Type_ := Vtype.Blob, Value := Value.str "" }) := by
  rw [interpret_DIM_loop H dvm toks as_ tyname hne has hty]
  refine ⟨?_, ?_, fun _ => ⟨rfl, rfl, rfl, rfl⟩⟩
  · intro hvalid hnodup
    obtain ⟨locals, h1, h2, h3⟩ := dimLoop_ok H _ hty toks dvm hvalid hnodup
    refine ⟨locals, ?_, h2, fun k hk => h3 k (Or.inl hk)⟩
    rw [h1]
  · intro h
    obtain ⟨dvm', err, h1⟩ := dimLoop_redeclared H (check_valid_type tyname) toks dvm h
    exact ⟨dvm', err, by rw [h1]⟩

/-- C18 at `DIM x , y as Uint64` with no local declared. -/
theorem C18_dim_semantics_witness :
    ∃ locals, interpret_DIM demoHost {} (["x", ",", "y"] ++ ["as", "Uint64"])
        = IRes.ret { Locals := locals } 0 none
      ∧ (∀ t ∈ ["x", ",", "y"], t ≠ "," →
          mapGet locals t = some (zeroVariable t (check_valid_type "Uint64")))
      ∧ (∀ k, k ∉ ["x", ",", "y"] → mapGet locals k = mapGet ([] : List (String × Variable)) k) :=
  (C18_dim_semantics demoHost {} ["x", ",", "y"] "as" "Uint64" (by decide) (by decide)
    (by decide)).1 (by decide) (by decide)

/-- C19 (code defect). `LET a = 5` with `a` declared `Address` (or `Blob`)
is not rejected: `interpret_LET` stores the `uint64` 5 in the variable, whose
value then does not have the tag of its type. The same value is refused
where `RETURN 5` assigns the return value of an `Address` function. -/
theorem C19_let_stores_uint64_in_address :
    interpret_LET fiveHost (runSmartContract_internal fiveHost 1)
        { Locals := [("a", { Name := "a", Type_ := Vtype.Address, Value := Value.str "" })] }
        ["a", "=", "5"]
      = IRes.ret
          { Locals := [("a", { Name := "a", Type_ := Vtype.Address, Value := Value.u64 5 })],
            State := { Monitor_ops := 1 } }
          0 none
    ∧ interpret_LET fiveHost (runSmartContract_internal fiveHost 1)
        { Locals := [("a", { Name := "a", Type_ := Vtype.Blob, Value := Value.str "" })] }
        ["a", "=", "5"]
      = IRes.ret
          { Locals := [("a", { Name := "a", Type_ := Vtype.Blob, Value := Value.u64 5 })],
            State := { Monitor_ops := 1 } }
          0 none
    ∧ tagMatches Vtype.Address (Value.u64 5) = false
    ∧ tagMatches Vtype.Blob (Value.u64 5) = false
    ∧ interpret_RETURN fiveHost (runSmartContract_internal fiveHost 1)
        { ReturnValue := { Type_ := Vtype.Address } } ["5"]
      = IRes.panic "interface conversion: not string" { Monitor_ops := 1 }
    ∧ interpret_LET fiveHost (runSmartContract_internal fiveHost 1)
        { Locals := [("s", { Name := "s", Type_ := Vtype.String, Value := Value.str "" })] }
        ["s", "=", "5"]
      = IRes.panic "interface conversion: not string" { Monitor_ops := 1 } := by
  decide

/-! ## Link errors -/

/-- C20. A call expression whose name is no internal function panics, the
operation counter incremented and the shared state otherwise untouched (line
counter and depth as before), when the contract has no function of the name
and when the number of arguments is not the number of parameters. -/
theorem C20_link_errors (H : Host) (call : CallFn) (dvm : DVM_Interpreter) (name : String)
    (Args : List Expr) (hint : H.Internal name = none) :
    (mapGet dvm.SC.Functions name = none →
        ∃ m, eval H call dvm (Expr.CallExpr (Expr.Ident name) Args)
          = Res.panic m (bumpOps dvm.State))
    ∧ (∀ f : Function, mapGet dvm.SC.Functions name = some f → f.Params.length ≠ Args.length →
        ∃ m, eval H call dvm (Expr.CallExpr (Expr.Ident name) Args)
          = Res.panic m (bumpOps dvm.State))
    ∧ (bumpOps dvm.State).Monitor_lines_interpreted = dvm.State.Monitor_lines_interpreted
    ∧ (bumpOps dvm.State).Monitor_recursion = dvm.State.Monitor_recursion := by
  refine ⟨?_, ?_, rfl, rfl⟩
  · intro hnone
    rw [eval]
    unfold metered
    by_cases hc : (bumpOps dvm.State).Monitor_ops > LIMIT_evals
    · simp only [hc, if_true]
      exact ⟨_, rfl⟩
    · simp only [hc, if_false, hint, hnone]
      exact ⟨_, rfl⟩
  · intro f hf hlen
    rw [eval]
    unfold metered
    by_cases hc : (bumpOps dvm.State).Monitor_ops > LIMIT_evals
    · simp only [hc, if_true]
      exact ⟨_, rfl⟩
    · simp only [hc, if_false, hint, hf]
      rw [if_pos hlen]
      exact ⟨_, rfl⟩

/-- C20 at calls of `Nobody()` and of `Add(1)` in the contract of `Add`. -/
theorem C20_link_errors_witness :
    (∃ m, eval demoHost (runSmartContract_internal demoHost 1) { SC := addContract }
        (Expr.CallExpr (Expr.Ident "Nobody") []) = Res.panic m { Monitor_ops := 1 })
    ∧ (∃ m, eval demoHost (runSmartContract_internal demoHost 1) { SC := addContract }
        (Expr.CallExpr (Expr.Ident "Add") [Expr.BasicLit LitKind.INT "1"])
          = Res.panic m { Monitor_ops := 1 }) :=
  ⟨(C20_link_errors demoHost (runSmartContract_internal demoHost 1) { SC := addContract }
      "Nobody" [] rfl).1 rfl,
   (C20_link_errors demoHost (runSmartContract_internal demoHost 1) { SC := addContract }
      "Add" [Expr.BasicLit LitKind.INT "1"] rfl).2.1 addFunction rfl (by decide)⟩

/-! ## Numeric arguments and jump targets -/

theorem parseDigits_digit (b : Bool) (d : Nat) (hd : d < 10) (acc : Nat) (ds : List Char)
    (hacc : acc * 10 + d ≤ MaxUint64) :
    parseDigits 10 b (Nat.digitChar d :: ds) acc false
      = parseDigits 10 b ds (acc * 10 + d) false := by
  have h1 : ¬ (acc ≥ MaxUint64 / 10 + 1) := by
    unfold MaxUint64 at hacc ⊢
    omega
  have h2 : ¬ (acc * 10 + d > MaxUint64) := by omega
  have h3 : ¬ (d ≥ 10) := by omega
  have h4 : ¬ (Nat.digitChar d = '_' ∧ b = true) := fun h => digitChar_ne_underscore d hd h.1
  rw [parseDigits]
  simp only [h4, if_false, digitVal_digitChar d hd, h1, h2, h3]

theorem parseDigits_decimal (b : Bool) :
    ∀ (f n : Nat) (ds : List Char), n < f → n ≤ MaxUint64 →
      parseDigits 10 b (Nat.toDigitsCore 10 f n ds) 0 false
        = parseDigits 10 b ds n false := by
  intro f
  induction f with
  | zero => intro n ds h; omega
  | succ f ih =>
    intro n ds hlt hmax
    rw [Nat.toDigitsCore]
    by_cases h0 : n / 10 = 0
    · simp only [h0, if_true]
      have hn : n < 10 := by omega
      rw [Nat.mod_eq_of_lt hn]
      have := parseDigits_digit b n hn 0 ds (by omega)
      rw [this]
      simp
    · simp only [h0, if_false]
      have hlt' : n / 10 < f := by omega
      rw [ih (n / 10) _ hlt' (by omega)]
      have hd : n % 10 < 10 := Nat.mod_lt _ (by decide)
      rw [parseDigits_digit b (n % 10) hd (n / 10) ds (by omega)]
      congr 1
      omega

theorem inferBase_of_head (c : Char) (rest : List Char) (hc : c ≠ '0') :
    inferBase (c :: rest) = (10, c :: rest) := by
  unfold inferBase
  split
  · rename_i h; simp only [List.cons.injEq] at h; exact absurd h.1 hc
  · rename_i h; simp only [List.cons.injEq] at h; exact absurd h.1 hc
  · rfl

/-- The decimal text of a `uint64` reads back as the number with base
inference. -/
theorem ParseUint_infer_FormatUint (n : Nat) (hn : n < 2 ^ 64) :
    ParseUint (FormatUint n) 0 = (n, none) := by
  by_cases h0 : n = 0
  · subst h0
    decide
  · have hmax : n ≤ MaxUint64 := by unfold MaxUint64; omega
    obtain ⟨c, rest, hd, hc⟩ := toDigitsCore_head (n + 1) n [] (by omega) (by omega)
    have hp := parseDigits_decimal true (n + 1) n [] (by omega) hmax
    unfold ParseUint FormatUint Nat.toDigits
    rw [hd] at hp ⊢
    have hb : ((0 : Nat) == 0) = true := by decide
    simp only [List.isEmpty_cons, Bool.false_eq_true, if_false, hb, if_true,
      inferBase_of_head c rest hc, hp, parseDigits, Bool.false_and]


theorem parseDigits_seen (base : Nat) (b : Bool) :
    ∀ (cs : List Char) (acc n : Nat) (us : Bool),
      parseDigits base b cs acc true = Except.ok (n, us) → us = true := by
  intro cs
  induction cs with
  | nil =>
    intro acc n us h
    simp only [parseDigits, Except.ok.injEq, Prod.mk.injEq] at h
    exact h.2.symm
  | cons c cs ih =>
    intro acc n us h
    rw [parseDigits] at h
    split at h
    · exact ih _ _ _ h
    · split at h
      · simp at h
      · split at h
        · simp at h
        · split at h
          · simp at h
          · split at h
            · simp at h
            · exact ih _ _ _ h

theorem digitVal_nondigit (c : Char) (d : Nat) (hc : ¬ (48 ≤ c.toNat ∧ c.toNat ≤ 57))
    (h : digitVal c = some d) : d ≥ 10 := by
  unfold digitVal at h
  simp only [hc, if_false] at h
  split at h
  · simp only [Option.some.injEq] at h
    omega
  · simp at h

/-- An argument that does not begin with a decimal digit is not read. -/
theorem ParseUint_infer_nondigit (t : String)
    (h : ∀ c rest, t.data = c :: rest → ¬ (48 ≤ c.toNat ∧ c.toNat ≤ 57)) :
    ∃ v e, ParseUint t 0 = (v, some e) := by
  unfold ParseUint
  cases hd : t.data with
  | nil => exact ⟨0, "invalid syntax", by simp⟩
  | cons c cs =>
    have hc := h c cs hd
    have hc0 : c ≠ '0' := by
      intro h0
      rw [h0] at hc
      exact hc (by decide)
    have hb : ((0 : Nat) == 0) = true := by decide
    simp only [List.isEmpty_cons, Bool.false_eq_true, if_false, hb, if_true,
      inferBase_of_head c cs hc0]
    by_cases hu : c = '_'
    · subst hu
      rw [parseDigits]
      simp only [and_self, if_true]
      cases hp : parseDigits 10 true cs 0 true with
      | error e => obtain ⟨v, m⟩ := e; exact ⟨v, m, rfl⟩
      | ok r =>
        obtain ⟨n, us⟩ := r
        have hus := parseDigits_seen 10 true cs 0 n us hp
        subst hus
        have hok : underscoreOK ('_' :: cs) = false := by
          simp [underscoreOK, underscoreLoop]
        refine ⟨0, "invalid syntax", ?_⟩
        simp only [hok, Bool.not_false, Bool.and_self, if_true]
    · rw [parseDigits]
      simp only [hu, false_and, if_false]
      cases hdv : digitVal c with
      | none => exact ⟨0, "invalid syntax", rfl⟩
      | some d =>
        have := digitVal_nondigit c d hc hdv
        refine ⟨0, "invalid syntax", ?_⟩
        simp only [this, if_true]

/-- The parameter loop on `Uint64` parameters whose arguments are the decimal
texts of `uint64` values: it returns, every parameter bound to its value and
the other locals as they were. -/
theorem bindParams_uint64 (EntryPoint : String) (params : List (String × Value))
    (val : String → Nat) :
    ∀ (ps : List Variable) (locals : List (String × Variable)),
      (∀ q ∈ ps, q.Type_ = Vtype.Uint64 ∧ val q.Name < 2 ^ 64
        ∧ mapGet params q.Name = some (Value.str (FormatUint (val q.Name)))) →
      ∃ L, bindParams EntryPoint params ps locals = Except.ok (Except.ok L)
        ∧ (∀ q ∈ ps, mapGet L q.Name
            = some { Name := q.Name, Type_ := Vtype.Uint64, Value := Value.u64 (val q.Name) })
        ∧ (∀ x : String, (∀ q ∈ ps, q.Name ≠ x) → mapGet L x = mapGet locals x)
  | [], locals, _ => by
    refine ⟨locals, rfl, ?_, fun _ _ => rfl⟩
    intro q hq
    exact absurd hq (List.not_mem_nil q)
  | p :: ps, locals, h => by
    obtain ⟨hp, hv, hget⟩ := h p (List.mem_cons_self _ _)
    have hr := ParseUint_infer_FormatUint (val p.Name) hv
    obtain ⟨L, hL, hbound, hother⟩ := bindParams_uint64 EntryPoint params val ps
      (mapSet locals p.Name
        ({ Name := p.Name, Type_ := Vtype.Uint64, Value := Value.u64 (val p.Name) }))
      (fun q hq => h q (List.mem_cons_of_mem _ hq))
    refine ⟨L, ?_, ?_, ?_⟩
    · rw [bindParams]
      simp only [hget, hp, hr]
      exact hL
    · intro q hq
      rcases List.mem_cons.mp hq with hqp | hqp
      · rw [hqp]
        by_cases hin : ∃ q2 ∈ ps, q2.Name = p.Name
        · obtain ⟨q2, hq2, hn⟩ := hin
          rw [← hn]
          exact hbound q2 hq2
        · have hno : ∀ q2 ∈ ps, q2.Name ≠ p.Name := fun q2 hq2 hn => hin ⟨q2, hq2, hn⟩
          rw [hother p.Name hno]
          exact mapGet_mapSet_same _ _ _
      · exact hbound q hqp
    · intro x hx
      have hne : x ≠ p.Name := fun he => hx p (List.mem_cons_self _ _) he.symm
      rw [hother x (fun q hq => hx q (List.mem_cons_of_mem _ hq))]
      exact mapGet_mapSet_other _ _ _ _ hne

/-- C27. The decimal text of a `uint64` `v`, as `eval` makes it for a
`Uint64` parameter of an intra-contract call, is read back by
`strconv.ParseUint` with base inference as `v` without error. `eval` puts
that text in the argument map, and the parameter loop of
`runSmartContract_internal` returns with the parameter bound to `v`: for one
parameter, and for any list of `Uint64` parameters whose arguments are such
texts. -/
theorem C27_uint64_argument_round_trip (v : Nat) (hv : v < 2 ^ 64) :
    ParseUint (FormatUint v) 0 = (v, none)
    ∧ (∀ (H : Host) (call : CallFn) (dvm : DVM_Interpreter) (p : Variable) (a : Expr)
        (st1 : Shared_State), p.Type_ = Vtype.Uint64 →
        eval H call dvm a = Res.ok (Value.u64 v) st1 →
        evalArguments H call dvm [p] [a] [] = Res.ok [(p.Name, Value.str (FormatUint v))] st1)
    ∧ (∀ (EntryPoint : String) (params : List (String × Value)) (p : Variable)
        (ps : List Variable) (locals : List (String × Variable)), p.Type_ = Vtype.Uint64 →
        mapGet params p.Name = some (Value.str (FormatUint v)) →
        bindParams EntryPoint params (p :: ps) locals
          = bindParams EntryPoint params ps
              (mapSet locals p.Name
                ({ Name := p.Name, Type_ := Vtype.Uint64, Value := Value.u64 v })))
    ∧ (∀ (EntryPoint : String) (params : List (String × Value)) (p : Variable)
        (locals : List (String × Variable)), p.Type_ = Vtype.Uint64 →
        mapGet params p.Name = some (Value.str (FormatUint v)) →
        bindParams EntryPoint params [p] locals
            = Except.ok (Except.ok (mapSet locals p.Name
                ({ Name := p.Name, Type_ := Vtype.Uint64, Value := Value.u64 v })))
          ∧ mapGet (mapSet locals p.Name
                ({ Name := p.Name, Type_ := Vtype.Uint64, Value := Value.u64 v })) p.Name
              = some { Name := p.Name, Type_ := Vtype.Uint64, Value := Value.u64 v })
    ∧ (∀ (EntryPoint x : String),
        bindParams EntryPoint [(x, Value.str (FormatUint v))]
            [{ Name := x, Type_ := Vtype.Uint64 }] []
          = Except.ok (Except.ok
              [(x, { Name := x, Type_ := Vtype.Uint64, Value := Value.u64 v })]))
    ∧ (∀ (EntryPoint : String) (params : List (String × Value)) (val : String → Nat)
        (ps : List Variable) (locals : List (String × Variable)),
        (∀ q ∈ ps, q.Type_ = Vtype.Uint64 ∧ val q.Name < 2 ^ 64
          ∧ mapGet params q.Name = some (Value.str (FormatUint (val q.Name)))) →
        ∃ L, bindParams EntryPoint params ps locals = Except.ok (Except.ok L)
          ∧ (∀ q ∈ ps, mapGet L q.Name
              = some { Name := q.Name, Type_ := Vtype.Uint64,
                       Value := Value.u64 (val q.Name) })
          ∧ (∀ x : String, (∀ q ∈ ps, q.Name ≠ x) → mapGet L x = mapGet locals x)) := by
  have hr := ParseUint_infer_FormatUint v hv
  have hstep : ∀ (EntryPoint : String) (params : List (String × Value)) (p : Variable)
      (ps : List Variable) (locals : List (String × Variable)), p.Type_ = Vtype.Uint64 →
      mapGet params p.Name = some (Value.str (FormatUint v)) →
      bindParams EntryPoint params (p :: ps) locals
        = bindParams EntryPoint params ps
            (mapSet locals p.Name
              ({ Name := p.Name, Type_ := Vtype.Uint64, Value := Value.u64 v })) := by
    intro EntryPoint params p ps locals hp hget
    rw [bindParams]
    simp only [hget, hp, hr]
  refine ⟨hr, ?_, hstep, ?_, ?_, ?_⟩
  · intro H call dvm p a st1 hp hev
    rw [evalArguments]
    simp only [hp, hev]
    rw [evalArguments]
    rfl
  · intro EntryPoint params p locals hp hget
    refine ⟨?_, mapGet_mapSet_same _ _ _⟩
    rw [hstep EntryPoint params p [] locals hp hget]
    rfl
  · intro EntryPoint x
    rw [hstep EntryPoint _ { Name := x, Type_ := Vtype.Uint64 } [] [] rfl (by simp [mapGet])]
    rfl
  · intro EntryPoint params val ps locals h
    exact bindParams_uint64 EntryPoint params val ps locals h

/-- C27 at the largest `uint64`, bound to the parameter `a`. -/
theorem C27_uint64_argument_round_trip_witness :
    ParseUint (FormatUint 18446744073709551615) 0 = (18446744073709551615, none)
    ∧ bindParams "Add" [("a", Value.str (FormatUint 18446744073709551615))]
          [{ Name := "a", Type_ := Vtype.Uint64 }] []
        = Except.ok (Except.ok
            [("a", { Name := "a", Type_ := Vtype.Uint64,
                     Value := Value.u64 18446744073709551615 })]) :=
  ⟨(C27_uint64_argument_round_trip 18446744073709551615 (by decide)).1,
   (C27_uint64_argument_round_trip 18446744073709551615 (by decide)).2.2.2.2.1 "Add" "a"⟩

/-- C25 (counterexample). The argument is not read as a decimal literal: the
decimal text `010` of ten sends `interpret_GOTO` to 8, and `0x10`, which is no
decimal text, to 16 without error. -/
theorem C25_counterexample :
    readDecimal "010" = some 10
    ∧ interpret_GOTO {} ["010"] = IRes.ret {} 8 none
    ∧ readDecimal "0x10" = none
    ∧ interpret_GOTO {} ["0x10"] = IRes.ret {} 16 none
    ∧ ¬ (∀ (dvm : DVM_Interpreter) (t : String) (n : Nat), readDecimal t = some n →
          0 < n → n < MaxUint64 → interpret_GOTO dvm [t] = IRes.ret dvm n none)
    ∧ ¬ (∀ (dvm : DVM_Interpreter) (t : String), readDecimal t = none →
          ∃ ip err, interpret_GOTO dvm [t] = IRes.ret dvm ip (some err)) := by
  have h1 : readDecimal "010" = some 10 := by decide
  have h2 : interpret_GOTO {} ["010"] = IRes.ret {} 8 none := by decide
  have h3 : readDecimal "0x10" = none := by decide
  have h4 : interpret_GOTO {} ["0x10"] = IRes.ret {} 16 none := by decide
  refine ⟨h1, h2, h3, h4, ?_, ?_⟩
  · intro h
    have h5 := h {} "010" 10 h1 (by decide) (by decide)
    rw [h2] at h5
    exact absurd h5 (by decide)
  · intro h
    obtain ⟨ip, err, h5⟩ := h {} "0x10" h3
    rw [h4] at h5
    exact absurd h5 (by simp)

/-- C25 (amended). `interpret_GOTO` reads its single argument with base
inference (`strconv.ParseUint` with base 0). An argument read as `n` with
`0 < n < MaxUint64` gives new IP `n` without error, and so does the decimal
text of every such `n`; an argument read as 0 or `MaxUint64`, an argument that
does not begin with a decimal digit, and an argument count other than one give
an error. -/
theorem C25_goto_target (dvm : DVM_Interpreter) (n : Nat) (h0 : 0 < n) (hmax : n < MaxUint64) :
    interpret_GOTO dvm [FormatUint n] = IRes.ret dvm n none
    ∧ (∀ t : String, ParseUint t 0 = (n, none) → interpret_GOTO dvm [t] = IRes.ret dvm n none)
    ∧ (∀ (t : String) (m : Nat), ParseUint t 0 = (m, none) → (m = 0 ∨ m = MaxUint64) →
        ∃ err, interpret_GOTO dvm [t] = IRes.ret dvm 0 (some err))
    ∧ (∃ err, interpret_GOTO dvm [FormatUint 0] = IRes.ret dvm 0 (some err))
    ∧ (∃ err, interpret_GOTO dvm [FormatUint MaxUint64] = IRes.ret dvm 0 (some err))
    ∧ (∀ t : String, (∀ c rest, t.data = c :: rest → ¬ (48 ≤ c.toNat ∧ c.toNat ≤ 57)) →
        ∃ ip err, interpret_GOTO dvm [t] = IRes.ret dvm ip (some err))
    ∧ (∀ line : List String, line.length ≠ 1 →
        ∃ err, interpret_GOTO dvm line = IRes.ret dvm 0 (some err)) := by
  have hread : ∀ t : String, ParseUint t 0 = (n, none) →
      interpret_GOTO dvm [t] = IRes.ret dvm n none := by
    intro t ht
    have hn : ¬ (n = 0 ∨ n = MaxUint64) := by omega
    simp only [interpret_GOTO, ht, hn, if_false]
  have hbad : ∀ (t : String) (m : Nat), ParseUint t 0 = (m, none) → (m = 0 ∨ m = MaxUint64) →
      ∃ err, interpret_GOTO dvm [t] = IRes.ret dvm 0 (some err) := by
    intro t m ht hm
    refine ⟨"GOTO  has invalid line number", ?_⟩
    simp only [interpret_GOTO, ht, hm, if_true]
  have hlt : n < 2 ^ 64 := by
    have : MaxUint64 < 2 ^ 64 := by decide
    omega
  refine ⟨hread _ (ParseUint_infer_FormatUint n hlt), hread, hbad, ?_, ?_, ?_, ?_⟩
  · exact hbad _ 0 (ParseUint_infer_FormatUint 0 (by decide)) (Or.inl rfl)
  · exact hbad _ MaxUint64 (ParseUint_infer_FormatUint MaxUint64 (by decide)) (Or.inr rfl)
  · intro t ht
    obtain ⟨v, e, hv⟩ := ParseUint_infer_nondigit t ht
    refine ⟨v, e, ?_⟩
    simp only [interpret_GOTO, hv]
  · intro line hl
    refine ⟨"GOTO  contains 1 mandatory line number as argument", ?_⟩
    match line, hl with
    | [], _ => rfl
    | [_], h => exact absurd rfl h
    | _ :: _ :: _, _ => rfl

/-- C25 (amended) at `GOTO 50`. -/
theorem C25_goto_target_witness :
    interpret_GOTO {} [FormatUint 50] = IRes.ret {} 50 none :=
  (C25_goto_target {} 50 (by decide) (by decide)).1

/-- C26 (code defect). `interpret_LET` hands the parser the joined tokens
without the substitution pass: for `LET v = a = = b` the text parsed is
`a = = b`, not `a == b`, so with a parser that reads `a == b` the statement
fails, while `IF a = = b THEN GOTO 5`, `RETURN a = = b` and the bare line
`a = = b` parse `a == b`. -/
theorem C26_let_skips_canonicalization :
    Join ["a", "=", "=", "b"] " " = "a = = b"
    ∧ replacer (Join ["a", "=", "=", "b"] " ") = "a == b"
    ∧ interpret_LET equalityHost (runSmartContract_internal equalityHost 1) equalityLocals
          ["v", "=", "a", "=", "=", "b"]
        = IRes.ret equalityLocals 0 (some "no parse")
    ∧ interpret_IF equalityHost (runSmartContract_internal equalityHost 1) equalityLocals
          ["a", "=", "=", "b", "THEN", "GOTO", "5"]
        = IRes.ret { equalityLocals with State := { Monitor_ops := 3 } } 5 none
    ∧ interpret_RETURN equalityHost (runSmartContract_internal equalityHost 1) equalityLocals
          ["a", "=", "=", "b"]
        = IRes.ret
            { equalityLocals with
                State := { Monitor_ops := 3, Monitor_recursion := -1 }
                ReturnValue := { Type_ := Vtype.Uint64, Value := Value.u64 1 } }
            MaxUint64 none
    ∧ callLine equalityHost (runSmartContract_internal equalityHost 1) equalityLocals
          ["a", "=", "=", "b"]
        = IRes.ret equalityLocals 0 (some "not a function call line") := by
  refine ⟨by decide, by decide, by decide, by decide, by decide, by decide⟩

/-! ## Function headers and body lines -/

theorem check_valid_name_comma (H : Host) : check_valid_name H "," = false := rfl

theorem check_valid_name_paren (H : Host) : check_valid_name H ")" = false := rfl

theorem parse_params_comma (H : Host) (f : Function) (rest : List String) :
    parse_params H f ("," :: rest) = parse_params H f rest := by
  rw [parse_params.eq_def]
  simp

theorem parse_params_close (H : Host) (f : Function) :
    parse_params H f [")"]
      = Except.ok { f with ReturnValue := { f.ReturnValue with Type_ := Vtype.Invalid } } := by
  rw [parse_params.eq_def]
  simp

theorem parse_params_close_type (H : Host) (f : Function) (R : String) (rest : List String) :
    parse_params H f (")" :: R :: rest)
      = if check_valid_type R = Vtype.Invalid then
          Except.error ("function name \"" ++ f.Name ++ "\", return type \"" ++ R
            ++ "\" is invalid")
        else
          Except.ok
            { f with ReturnValue := { f.ReturnValue with Type_ := check_valid_type R } } := by
  rw [parse_params.eq_def]
  simp

theorem check_valid_type_word (w : String) :
    check_valid_type w ≠ Vtype.Invalid ↔ w ∈ typeWords := by
  unfold check_valid_type typeWords
  constructor
  · intro h
    by_cases h1 : w = "Uint64"
    · simp [h1]
    by_cases h2 : w = "Address"
    · simp [h2]
    by_cases h3 : w = "Blob"
    · simp [h3]
    by_cases h4 : w = "String"
    · simp [h4]
    simp [h1, h2, h3, h4] at h
  · intro h
    simp only [List.mem_cons, List.mem_singleton, List.not_mem_nil, or_false] at h
    rcases h with h | h | h | h <;> subst h <;> decide

/-- One pair `p T` of a parameter list, the name valid. -/
theorem parse_params_pair (H : Host) (f : Function) (p T : String) (rest : List String)
    (hp : check_valid_name H p = true) :
    parse_params H f (p :: T :: rest)
      = if check_valid_type T = Vtype.Invalid then
          Except.error ("function name \"" ++ f.Name ++ "\", variable type \"" ++ T
            ++ "\" is invalid")
        else
          parse_params H
            { f with Params := f.Params ++ [{ Name := p, Type_ := check_valid_type T }] } rest := by
  have h1 : p ≠ "," := by
    intro h
    rw [h, check_valid_name_comma] at hp
    exact absurd hp (by decide)
  have h2 : p ≠ ")" := by
    intro h
    rw [h, check_valid_name_paren] at hp
    exact absurd hp (by decide)
  rw [parse_params.eq_def]
  simp only [h1, h2, if_false, hp, Bool.not_true, Bool.false_eq_true]

/-- The pairs of a parameter list with valid names and types are appended to
the parameters in order, up to the closing parenthesis. -/
theorem parse_params_pairs (H : Host) :
    ∀ (ps : List (String × String)) (f : Function) (tail : List String),
      (∀ p ∈ ps, check_valid_name H p.1 = true ∧ p.2 ∈ typeWords) →
      parse_params H f (paramTokens ps ++ ")" :: tail)
        = parse_params H { f with Params := f.Params ++ headerParams ps } (")" :: tail)
  | [], f, tail, _ => by
    simp [paramTokens, headerParams]
  | [p], f, tail, h => by
    have hp := h p (List.mem_singleton.mpr rfl)
    have ht := (check_valid_type_word p.2).mpr hp.2
    simp only [paramTokens, List.cons_append, List.nil_append]
    rw [parse_params_pair H f p.1 p.2 _ hp.1, if_neg ht]
    simp [headerParams]
  | p :: q :: rest, f, tail, h => by
    have hp := h p (List.mem_cons_self _ _)
    have ht := (check_valid_type_word p.2).mpr hp.2
    have ih := parse_params_pairs H (q :: rest)
      { f with Params := f.Params ++ [{ Name := p.1, Type_ := check_valid_type p.2 }] } tail
      (fun x hx => h x (List.mem_cons_of_mem _ hx))
    simp only [paramTokens, List.cons_append]
    rw [parse_params_pair H f p.1 p.2 _ hp.1, if_neg ht]
    rw [parse_params_comma]
    simp only [paramTokens, List.cons_append] at ih
    rw [ih]
    simp [headerParams]

/-- A parameter list with valid names and a type that is not one of the four
words is an error, whatever follows. -/
theorem parse_params_bad_type (H : Host) :
    ∀ (ps : List (String × String)) (f : Function) (tail : List String),
      (∀ p ∈ ps, check_valid_name H p.1 = true) → (∃ p ∈ ps, p.2 ∉ typeWords) →
      ∃ e, parse_params H f (paramTokens ps ++ tail) = Except.error e
  | [], f, tail, _, hb => by
    obtain ⟨p, hp, _⟩ := hb
    exact absurd hp (List.not_mem_nil _)
  | [p], f, tail, h, hb => by
    obtain ⟨q, hq, hbad⟩ := hb
    have hqp : q = p := List.mem_singleton.mp hq
    subst hqp
    have ht : check_valid_type q.2 = Vtype.Invalid := by
      by_contra hne
      exact hbad ((check_valid_type_word q.2).mp hne)
    simp only [paramTokens, List.cons_append, List.nil_append]
    rw [parse_params_pair H f q.1 q.2 _ (h q hq), if_pos ht]
    exact ⟨_, rfl⟩
  | p :: q :: rest, f, tail, h, hb => by
    simp only [paramTokens, List.cons_append]
    rw [parse_params_pair H f p.1 p.2 _ (h p (List.mem_cons_self _ _))]
    by_cases ht : check_valid_type p.2 = Vtype.Invalid
    · rw [if_pos ht]
      exact ⟨_, rfl⟩
    · rw [if_neg ht]
      rw [parse_params_comma]
      have hb2 : ∃ x ∈ q :: rest, x.2 ∉ typeWords := by
        obtain ⟨x, hx, hbad⟩ := hb
        rcases List.mem_cons.mp hx with hx | hx
        · subst hx
          exact absurd ((check_valid_type_word x.2).mp ht) hbad
        · exact ⟨x, hx, hbad⟩
      exact parse_params_bad_type H (q :: rest) _ tail
        (fun x hx => h x (List.mem_cons_of_mem _ hx)) hb2

/-- C21. With no function open, `parse_function_line` on the tokens
`Function name ( p1 T1 , … , pk Tk ) [R]`, the keyword in any case: when the
name and every `pi` are valid names and every `Ti` and `R` is one of `Uint64`,
`String`, `Address`, `Blob`, it returns no error, leaves the contract as it
was and opens a function with that name, the parameters `(pi, Ti)` in source
order and return type `R`, or `Invalid` without `R`; when a `Ti` or `R` is
another word, or the name is not valid, it returns an error and opens no
function. -/
theorem C21_function_header (H : Host) (SC : SmartContract) (kw name : String)
    (ps : List (String × String)) (hkw : EqualFold kw "Function" = true) :
    (check_valid_name H name = true →
      (∀ p ∈ ps, check_valid_name H p.1 = true ∧ p.2 ∈ typeWords) →
        parse_function_line H SC none ([kw, name, "("] ++ paramTokens ps ++ [")"])
            = ParseRes.ret SC
                (some { Name := name, Params := headerParams ps,
                        ReturnValue := { Type_ := Vtype.Invalid } }) none
        ∧ (∀ R ∈ typeWords,
            check_valid_type R ≠ Vtype.Invalid
            ∧ parse_function_line H SC none ([kw, name, "("] ++ paramTokens ps ++ [")", R])
              = ParseRes.ret SC
                  (some { Name := name, Params := headerParams ps,
                          ReturnValue := { Type_ := check_valid_type R } }) none)
        ∧ (∀ R : String, R ∉ typeWords →
            ∃ e, parse_function_line H SC none ([kw, name, "("] ++ paramTokens ps ++ [")", R])
              = ParseRes.ret SC none (some e)))
    ∧ (check_valid_name H name = true → (∀ p ∈ ps, check_valid_name H p.1 = true) →
        (∃ p ∈ ps, p.2 ∉ typeWords) → ∀ tail : List String,
          ∃ e, parse_function_line H SC none ([kw, name, "("] ++ paramTokens ps ++ tail)
            = ParseRes.ret SC none (some e))
    ∧ (check_valid_name H name = false → ∀ rest : List String,
        ∃ e, parse_function_line H SC none (kw :: name :: rest) = ParseRes.ret SC none (some e))
    ∧ check_valid_type "Uint64" = Vtype.Uint64 ∧ check_valid_type "String" = Vtype.String
    ∧ check_valid_type "Address" = Vtype.Address ∧ check_valid_type "Blob" = Vtype.Blob
    ∧ check_valid_type "uint64" = Vtype.Invalid ∧ check_valid_type "Int" = Vtype.Invalid := by
  have hline : ∀ toks : List String, check_valid_name H name = true →
      parse_function_line H SC none ([kw, name, "("] ++ toks)
        = match parse_params H { Name := name } toks with
          | Except.error e => ParseRes.ret SC none (some e)
          | Except.ok f => ParseRes.ret SC (some f) none := by
    intro toks hn
    simp only [parse_function_line, List.cons_append, List.nil_append, hkw, hn, Bool.not_true,
      Bool.false_eq_true, if_false, ne_eq, not_true_eq_false]
  refine ⟨?_, ?_, ?_, by decide, by decide, by decide, by decide, by decide, by decide⟩
  · intro hn hps
    refine ⟨?_, ?_, ?_⟩
    · rw [List.append_assoc, hline _ hn, parse_params_pairs H ps _ [] hps, parse_params_close]
      rfl
    · intro R hR
      have ht := (check_valid_type_word R).mpr hR
      refine ⟨ht, ?_⟩
      rw [List.append_assoc, hline _ hn, parse_params_pairs H ps _ [R] hps,
        parse_params_close_type, if_neg ht]
      rfl
    · intro R hR
      have ht : check_valid_type R = Vtype.Invalid := by
        by_contra hne
        exact hR ((check_valid_type_word R).mp hne)
      rw [List.append_assoc, hline _ hn, parse_params_pairs H ps _ [R] hps,
        parse_params_close_type, if_pos ht]
      exact ⟨_, rfl⟩
  · intro hn hps hbad tail
    obtain ⟨e, he⟩ := parse_params_bad_type H ps { Name := name } tail hps hbad
    rw [List.append_assoc, hline _ hn, he]
    exact ⟨e, rfl⟩
  · intro hn rest
    refine ⟨"function name \"" ++ name ++ "\" contains invalid characters", ?_⟩
    simp [parse_function_line, hkw, hn]

/-- C21 at the header `function Add(a Uint64, b String) Uint64`. -/
theorem C21_function_header_witness :
    parse_function_line demoHost {} none
        ["function", "Add", "(", "a", "Uint64", ",", "b", "String", ")", "Uint64"]
      = ParseRes.ret {}
          (some { Name := "Add",
                  Params := [{ Name := "a", Type_ := Vtype.Uint64 },
                             { Name := "b", Type_ := Vtype.String }],
                  ReturnValue := { Type_ := Vtype.Uint64 } }) none :=
  ((((C21_function_header demoHost {} "function" "Add" [("a", "Uint64"), ("b", "String")]
      (by decide)).1 (by decide) (by decide)).2.1 "Uint64" (by decide)).2)

/-- C22 (code defect). A body line is not appended. On the function a header
opens, whose line sequence and label table are nil, the line
`20 LET s = a + b` panics on the write to the label table and a line without
label on the write to the line sequence, so the source of a function with a
body line is rejected. With both allocated the line is written at index 0,
over the earlier line: the sequence keeps its length, the label is mapped to
0, and the code is what follows the label inside the first token, here
nothing. -/
theorem C22_body_line_not_appended :
    parse_function_line demoHost {} (some addHeader) ["20", "LET", "s", "=", "a", "+", "b"]
        = ParseRes.panic "assignment to entry in nil map" {} (some addHeader)
    ∧ parse_function_line demoHost {} (some addHeader) ["LET", "s", "=", "a", "+", "b"]
        = ParseRes.panic "runtime error: index out of range [0] with length 0" {} (some addHeader)
    ∧ ParseSmartContract demoHost bodyLineTokens
        = ({}, some "Recovered in function assignment to entry in nil map")
    ∧ parse_function_line demoHost {} (some addOneLine) ["20", "LET", "s", "=", "a", "+", "b"]
        = ParseRes.ret {}
            (some { addOneLine with
                      Lines := [{ Label := "20", Code := "" }]
                      LabelMap := some [("10", 0), ("20", 0)] }) none
    ∧ parse_function_line demoHost {} (some addOneLine) ["LET", "s", "=", "a", "+", "b"]
        = ParseRes.ret {}
            (some { addOneLine with Lines := [{ Label := "", Code := "LET" }] }) none := by
  refine ⟨by decide, by decide, by decide, by decide, by decide⟩

theorem mem_mapSet {β : Type} (m : List (String × β)) (k : String) (v : β) (kv : String × β)
    (h : kv ∈ mapSet m k v) : kv ∈ m ∨ kv = (k, v) := by
  induction m with
  | nil =>
    simp only [mapSet, List.mem_singleton] at h
    exact Or.inr h
  | cons hd tl ih =>
    obtain ⟨k1, w⟩ := hd
    simp only [mapSet] at h
    split at h
    · rename_i hk
      rcases List.mem_cons.mp h with h1 | h1
      · exact Or.inr (by rw [h1, hk])
      · exact Or.inl (List.mem_cons_of_mem _ h1)
    · rcases List.mem_cons.mp h with h1 | h1
      · exact Or.inl (by rw [h1]; exact List.mem_cons_self _ _)
      · rcases ih h1 with h2 | h2
        · exact Or.inl (List.mem_cons_of_mem _ h2)
        · exact Or.inr h2

theorem mem_of_mapGet {β : Type} (m : List (String × β)) (k : String) (v : β)
    (h : mapGet m k = some v) : (k, v) ∈ m := by
  induction m with
  | nil => simp [mapGet] at h
  | cons hd tl ih =>
    obtain ⟨k1, w⟩ := hd
    simp only [mapGet] at h
    split at h
    · rename_i hk
      simp only [Option.some.injEq] at h
      rw [hk, h]
      exact List.mem_cons_self _ _
    · exact List.mem_cons_of_mem _ (ih h)

/-- The parameters `parse_params` adds have a valid name and a valid type. -/
theorem parse_params_valid (H : Host) :
    ∀ (n : Nat) (toks : List String) (f g : Function), toks.length ≤ n → validParams H f →
      parse_params H f toks = Except.ok g → validParams H g := by
  intro n
  induction n with
  | zero =>
    intro toks f g hl _ h
    have : toks = [] := List.length_eq_zero.mp (Nat.le_zero.mp hl)
    subst this
    simp [parse_params] at h
  | succ n ih =>
    intro toks f g hl hv h
    rw [parse_params.eq_def] at h
    split at h
    · simp at h
    · rename_i tok rest
      simp only [List.length_cons] at hl
      split at h
      · exact ih rest f g (by omega) hv h
      · split at h
        · split at h
          · simp only [Except.ok.injEq] at h
            rw [← h]
            exact hv
          · split at h
            · simp at h
            · simp only [Except.ok.injEq] at h
              rw [← h]
              exact hv
        · split at h
          · simp at h
          · rename_i ty rest2
            simp only [List.length_cons] at hl
            split at h
            · simp at h
            · rename_i hname
              split at h
              · simp at h
              · rename_i htype
                refine ih rest2 _ g (by omega) ?_ h
                intro p hp
                rcases List.mem_append.mp hp with hp1 | hp1
                · exact hv p hp1
                · rw [List.mem_singleton.mp hp1]
                  exact ⟨by simpa using hname, htype⟩

/-- The body branch leaves the contract and the parameters as they were. -/
theorem parse_body_line_params (SC SC1 : SmartContract) (fn : Function) (first : String)
    (fn1 : Option Function) (err : Option String)
    (h : parse_body_line SC fn first = ParseRes.ret SC1 fn1 err) :
    SC1 = SC ∧ ∀ g, fn1 = some g → g.Params = fn.Params := by
  unfold parse_body_line at h
  dsimp only at h
  repeat' (split at h)
  all_goals (cases h; try exact ⟨rfl, fun g hg => by cases hg; rfl⟩)

/-- A line that `parse_function_line` accepts keeps the parameters valid. -/
theorem parse_function_line_valid (H : Host) (SC SC1 : SmartContract)
    (function fn1 : Option Function) (line : List String)
    (hv : validFunctions H SC function)
    (h : parse_function_line H SC function line = ParseRes.ret SC1 fn1 none) :
    validFunctions H SC1 fn1 := by
  have hbody : ∀ (fn : Function) (first : String), function = some fn →
      parse_body_line SC fn first = ParseRes.ret SC1 fn1 none → validFunctions H SC1 fn1 := by
    intro fn first hfn hb
    obtain ⟨h1, h2⟩ := parse_body_line_params SC SC1 fn first fn1 none hb
    subst h1
    refine ⟨hv.1, ?_⟩
    intro g hg p hp
    rw [h2 g hg] at hp
    exact hv.2 fn hfn p hp
  unfold parse_function_line at h
  repeat' (split at h)
  all_goals first
    | exact hbody _ _ rfl h
    | (cases h
       exact ⟨fun kv hkv => (mem_mapSet _ _ _ _ hkv).elim (hv.1 kv)
                (fun h3 => by rw [h3]; exact hv.2 _ rfl),
              fun g hg => by cases hg⟩)
    | (cases h
       refine ⟨hv.1, fun g hg => ?_⟩
       cases hg
       refine parse_params_valid H _ _ _ _ (Nat.le_refl _) ?_ (by assumption)
       intro p hp
       exact absurd hp (List.not_mem_nil p))
    | cases h

theorem scanStep_valid (H : Host) (s s1 : ScanState) (t : Tok)
    (hv : validFunctions H s.SC s.current_function) (h : scanStep H s t = Except.ok s1) :
    validFunctions H s1.SC s1.current_function := by
  unfold scanStep at h
  dsimp only at h
  repeat' (split at h)
  all_goals first
    | (cases h; exact hv)
    | (cases h; exact parse_function_line_valid H _ _ _ _ _ hv (by assumption))
    | cases h

theorem scanLoop_valid (H : Host) :
    ∀ (toks : List Tok) (s s1 : ScanState), validFunctions H s.SC s.current_function →
      scanLoop H s toks = Except.ok s1 → validFunctions H s1.SC s1.current_function
  | [], s, s1, hv, h => by
    simp only [scanLoop, Except.ok.injEq] at h
    rw [← h]
    exact hv
  | t :: ts, s, s1, hv, h => by
    rw [scanLoop] at h
    split at h
    · rename_i s2 hs
      exact scanLoop_valid H ts s2 s1 (scanStep_valid H s s2 t hv hs) h
    · simp at h

/-- C24 (counterexample). The source `Function F(a Uint64, a String)` /
`End Function` is accepted, and `F` has the parameter name `a` twice. -/
theorem C24_counterexample :
    ParseSmartContract demoHost repeatedParameter
        = ({ Functions := [("F", { Name := "F",
                                   Params := [{ Name := "a", Type_ := Vtype.Uint64 },
                                              { Name := "a", Type_ := Vtype.String }] })] },
           none)
    ∧ ¬ (∀ (H : Host) (toks : List Tok) (SC : SmartContract) (name : String) (f : Function),
          ParseSmartContract H toks = (SC, none) → mapGet SC.Functions name = some f →
          (f.Params.map fun p => p.Name).Nodup) := by
  have hc : ParseSmartContract demoHost repeatedParameter
      = ({ Functions := [("F", { Name := "F",
                                 Params := [{ Name := "a", Type_ := Vtype.Uint64 },
                                            { Name := "a", Type_ := Vtype.String }] })] },
         none) := by decide
  refine ⟨hc, ?_⟩
  intro h
  have h1 := h demoHost repeatedParameter _ "F" _ hc rfl
  exact absurd h1 (by decide)

/-- C24 (amended). The parser does not compare parameter names. For every
source that `ParseSmartContract` accepts, each parameter of each resulting
function has a valid name and a valid type; names may repeat. -/
theorem C24_parameters_valid (H : Host) (toks : List Tok) (SC : SmartContract)
    (h : ParseSmartContract H toks = (SC, none)) :
    ∀ (name : String) (f : Function), mapGet SC.Functions name = some f →
      ∀ p ∈ f.Params, check_valid_name H p.Name = true ∧ p.Type_ ≠ Vtype.Invalid := by
  have hinit : validFunctions H ({} : ScanState).SC ({} : ScanState).current_function := by
    refine ⟨?_, ?_⟩
    · intro kv hkv
      simp at hkv
    · intro fn hfn
      simp at hfn
  have hall : ∀ kv ∈ SC.Functions, validParams H kv.2 := by
    unfold ParseSmartContract at h
    split at h
    · simp at h
    · rename_i s hs
      have hv := scanLoop_valid H toks {} s hinit hs
      dsimp only at h
      split at h
      · simp at h
      · simp at h
      · simp at h
      · rename_i SC1 hf
        simp only [Prod.mk.injEq, and_true] at h
        subst h
        split at hf
        · exact (parse_function_line_valid H _ _ _ _ _ hv hf).1
        · simp only [ParseRes.ret.injEq, and_true] at hf
          rw [← hf.1]
          exact hv.1
  intro name f hf
  exact hall (name, f) (mem_of_mapGet _ _ _ hf)

/-- C24 (amended) at the source `Function F(a Uint64, a String)` /
`End Function`. -/
theorem C24_parameters_valid_witness :
    check_valid_name demoHost "a" = true ∧ Vtype.String ≠ Vtype.Invalid :=
  C24_parameters_valid demoHost repeatedParameter
    { Functions := [("F", { Name := "F",
                            Params := [{ Name := "a", Type_ := Vtype.Uint64 },
                                       { Name := "a", Type_ := Vtype.String }] })] }
    (by decide) "F"
    { Name := "F",
      Params := [{ Name := "a", Type_ := Vtype.Uint64 }, { Name := "a", Type_ := Vtype.String }] }
    rfl { Name := "a", Type_ := Vtype.String }
    (List.mem_cons_of_mem _ (List.mem_cons_self _ _))

end Dvm
